import Mathlib

/-!
# kubernetes-cpi: identifier codec, resource composer, lifecycle, attach/detach engine and metadata patcher

A shallow embedding of `actions/util.go`, `actions/create_vm.go`,
`actions/volume_manager.go`, `actions/delete_vm.go`, `actions/delete_disk.go`,
`actions/has_disk.go`, `actions/has_vm.go`, `actions/get_disks.go`,
`actions/set_vm_metadata.go`, `actions/set_disk_metadata.go` and
`actions/create_disk.go`.

Conventions of the embedding.

* Go strings are Lean `String`s; the only separator the code splits on is the
  ASCII colon.
* Go slices are Lean lists with value semantics (a nil slice and an empty slice
  are both `[]`).
* Go maps are association lists whose keys are pairwise distinct; a nil map is
  `none` where the code distinguishes it from an empty map.
* A Go function that returns `error` returns `Res`; a run-time panic is the
  third constructor of `Res`, so that "returns an error" and "panics" are
  different outcomes.
-/

namespace KubernetesCPI

/-! ## Outcomes -/

/-- Run-time panics the embedded code can raise. -/
inductive Panic where
  /-- Go: `index out of range [index] with length length`. -/
  | indexOutOfRange (index length : Nat)
  /-- Go: `panic("unreachable")` in `getNetwork`. -/
  | unreachable
  /-- Go: `assignment to entry in nil map`. -/
  | nilMapAssignment
  deriving DecidableEq, Repr

/-- Reason of a Kubernetes `StatusError`, as far as the code inspects it. -/
inductive StatusReason where
  | notFound
  | alreadyExists
  | conflict
  | unknown
  deriving DecidableEq, Repr

/-- Errors returned by the embedded code. Each constructor stands for one error
value of the source; the message format of the source is given with it. -/
inductive Err where
  /-- Message `"Kubernetes disk and resource pool contexts must be the same: disk: %q, resource pool: %q"`. -/
  | contextMismatch (disk pool : String)
  /-- Message `"a network is required"`. -/
  | networkRequired
  /-- Message `"multiple networks not supported"`. -/
  | multipleNetworks
  /-- Message `"%s is not a supported resource type"`. -/
  | unsupportedResource (name : String)
  /-- The error returned by `resource.ParseQuantity` for the given input. -/
  | quantity (msg : String)
  /-- Message `"Pod recreate failed with a timeout"`. -/
  | recreateTimeout
  /-- Message `"Unexpected object type: %v"`. -/
  | unexpectedObjectType (ty : String)
  /-- Message `"Unexpected pod watch event: %s"`. -/
  | unexpectedWatchEvent (ty : String)
  /-- The error returned by `json.Unmarshal` on the settings document. -/
  | json (msg : String)
  /-- A `*errors.StatusError` of the cluster client. -/
  | status (reason : StatusReason) (msg : String)
  /-- Any other error of a collaborator, passed through unchanged. -/
  | other (msg : String)
  deriving DecidableEq, Repr

/-- Outcome of a Go call: a value, a returned `error`, or a panic. -/
inductive Res (α : Type) where
  | ok (a : α)
  | error (e : Err)
  | panic (p : Panic)
  deriving DecidableEq, Repr

/-! ## `actions/util.go`: the identifier codec -/

/-- Position of the first colon: the text before it and the text after it. -/
def cutColon : List Char → Option (List Char × List Char)
  | [] => none
  | c :: cs =>
    if c = ':' then some ([], cs)
    else match cutColon cs with
      | some (a, b) => some (c :: a, b)
      | none => none

/-- Go `strings.SplitN(s, ":", 2)`: at most two parts, cut at the first colon. -/
def SplitN2 (s : String) : List String :=
  match cutColon s.data with
  | some (a, b) => [String.mk a, String.mk b]
  | none => [s]

/-- Go `parts[0], parts[1]` on the result of `SplitN2`; indexing past the end
panics. -/
def firstTwo (parts : List String) : Res (String × String) :=
  match parts with
  | [] => .panic (.indexOutOfRange 0 0)
  | [_] => .panic (.indexOutOfRange 1 1)
  | a :: b :: _ => .ok (a, b)

/-- Go `NewVMCID(context, agentID)`. -/
def NewVMCID (context agentID : String) : String :=
  context ++ ":" ++ agentID

/-- Go `ParseVMCID(vmcid)`. -/
def ParseVMCID (vmcid : String) : Res (String × String) :=
  firstTwo (SplitN2 vmcid)

/-- Go `NewDiskCID(context, diskID)`. -/
def NewDiskCID (context diskID : String) : String :=
  context ++ ":" ++ diskID

/-- Go `ParseDiskCID(diskCID)`. -/
def ParseDiskCID (diskCID : String) : Res (String × String) :=
  firstTwo (SplitN2 diskCID)

/-- The string contains a colon. -/
def hasColon (s : String) : Prop := ':' ∈ s.data

instance (s : String) : Decidable (hasColon s) :=
  inferInstanceAs (Decidable (':' ∈ s.data))

/-! ## Go maps -/

/-- A Go `map[string]V`: an association list whose keys are pairwise distinct.
The order of the entries is the (unspecified) iteration order. -/
abbrev GoMap (V : Type) := List (String × V)

namespace GoMap

/-- Keys of the map are pairwise distinct. -/
def WF {V : Type} (m : GoMap V) : Prop := (m.map Prod.fst).Nodup

instance {V : Type} (m : GoMap V) : Decidable (WF m) :=
  inferInstanceAs (Decidable (m.map Prod.fst).Nodup)

/-- Go `m[k]` with the comma-ok form. -/
def lookup {V : Type} (m : GoMap V) (k : String) : Option V :=
  match m with
  | [] => none
  | (k1, v) :: rest => if k1 = k then some v else lookup rest k

/-- Go `m[k] = v`: the entry of `k` is overwritten in place, a new key is added. -/
def set {V : Type} (m : GoMap V) (k : String) (v : V) : GoMap V :=
  match m with
  | [] => [(k, v)]
  | (k1, w) :: rest => if k1 = k then (k, v) :: rest else (k1, w) :: set rest k v

/-- Go `delete(m, k)`. -/
def delete {V : Type} (m : GoMap V) (k : String) : GoMap V :=
  match m with
  | [] => []
  | (k1, w) :: rest => if k1 = k then delete rest k else (k1, w) :: delete rest k

/-- Keys of the map. -/
def keys {V : Type} (m : GoMap V) : List String := m.map Prod.fst

end GoMap

/-- Entries of a map that may be nil: a nil map has no entries. -/
def entriesOf {V : Type} (m : Option (GoMap V)) : GoMap V :=
  match m with
  | none => []
  | some l => l

/-! ## Kubernetes objects, as far as the code reads and writes them -/

/-- Go `v1.KeyToPath`. -/
structure KeyToPath where
  Key : String
  Path : String
  deriving DecidableEq, Repr

/-- Go `v1.ConfigMapVolumeSource`. -/
structure ConfigMapVolumeSource where
  Name : String
  Items : List KeyToPath
  deriving DecidableEq, Repr

/-- Go `v1.VolumeSource`: the pointer fields the code sets or reads; `none` is nil.
`PersistentVolumeClaim` holds the `ClaimName`. -/
structure VolumeSource where
  PersistentVolumeClaim : Option String := none
  ConfigMap : Option ConfigMapVolumeSource := none
  EmptyDir : Bool := false
  deriving DecidableEq, Repr

/-- Go `v1.Volume`. -/
structure Volume where
  Name : String
  VolumeSource : VolumeSource := {}
  deriving DecidableEq, Repr

/-- Go `v1.VolumeMount`. -/
structure VolumeMount where
  Name : String
  MountPath : String
  SubPath : String := ""
  deriving DecidableEq, Repr

/-- Go `resource.Quantity`, represented by its canonical text. -/
structure Quantity where
  text : String
  deriving DecidableEq, Repr

/-- Go `v1.ResourceRequirements`; a nil `v1.ResourceList` is `none`. -/
structure ResourceRequirements where
  Limits : Option (GoMap Quantity) := none
  Requests : Option (GoMap Quantity) := none
  deriving DecidableEq, Repr

/-- Go `v1.SecurityContext`, the two fields `createPod` sets. -/
structure SecurityContext where
  Privileged : Option Bool := none
  RunAsUser : Option Int := none
  deriving DecidableEq, Repr

/-- Go `v1.Container`. -/
structure Container where
  Name : String
  Image : String := ""
  ImagePullPolicy : String := ""
  Command : List String := []
  Args : List String := []
  Resources : ResourceRequirements := {}
  SecurityContext : Option SecurityContext := none
  VolumeMounts : List VolumeMount := []
  deriving DecidableEq, Repr

/-- Go `v1.PodSpec`. -/
structure PodSpec where
  Hostname : String := ""
  Volumes : List Volume := []
  Containers : List Container := []
  deriving DecidableEq, Repr

/-- Go `v1.ContainerStatus`; `Running` is `State.Running != nil`. -/
structure ContainerStatus where
  Name : String
  Ready : Bool := false
  Running : Bool := false
  deriving DecidableEq, Repr

/-- Go `v1.PodStatus`. -/
structure PodStatus where
  Phase : String := ""
  PodIP : String := ""
  ContainerStatuses : List ContainerStatus := []
  deriving DecidableEq, Repr

/-- Go `metav1.ObjectMeta`; nil maps are `none`. -/
structure ObjectMeta where
  Name : String := ""
  Namespace : String := ""
  ResourceVersion : String := ""
  UID : String := ""
  Annotations : Option (GoMap String) := none
  Labels : Option (GoMap String) := none
  deriving DecidableEq, Repr

/-- Go `v1.Pod`. -/
structure Pod where
  ObjectMeta : ObjectMeta := {}
  Spec : PodSpec := {}
  Status : PodStatus := {}
  deriving DecidableEq, Repr

/-! ## `actions/volume_manager.go`: volume and mount splice -/

/-- Go `Operation`. -/
inductive Operation where
  | Add
  | Remove
  deriving DecidableEq, Repr

/-- The loop of `addVolume` over `spec.Containers`: the mount is appended to the
first container named `bosh-job`, then the loop breaks. -/
def addMount (m : VolumeMount) : List Container → List Container
  | [] => []
  | c :: rest =>
    if c.Name = "bosh-job" then
      { c with VolumeMounts := c.VolumeMounts ++ [m] } :: rest
    else c :: addMount m rest

/-- Go `addVolume(spec, diskID)`. -/
def addVolume (spec : PodSpec) (diskID : String) : PodSpec :=
  { spec with
    Volumes := spec.Volumes ++
      [{ Name := "disk-" ++ diskID,
         VolumeSource := { PersistentVolumeClaim := some ("disk-" ++ diskID) } }],
    Containers := addMount
      { Name := "disk-" ++ diskID, MountPath := "/mnt/" ++ diskID } spec.Containers }

/-- The inner loop of `removeVolume`: the first mount of the given name is cut
out of the container's mount list. -/
def removeMount (name : String) (c : Container) : Container :=
  { c with VolumeMounts := c.VolumeMounts.eraseP (fun m => decide (m.Name = name)) }

/-- Go `removeVolume(spec, diskID)`: the first volume of the name is cut out; the
loop over the containers has no break, so every container named `bosh-job` is
visited. -/
def removeVolume (spec : PodSpec) (diskID : String) : PodSpec :=
  { spec with
    Volumes := spec.Volumes.eraseP (fun v => decide (v.Name = "disk-" ++ diskID)),
    Containers := spec.Containers.map (fun c =>
      if c.Name = "bosh-job" then removeMount ("disk-" ++ diskID) c else c) }

/-- Go `updateVolumes(op, spec, diskID)`. -/
def updateVolumes (op : Operation) (spec : PodSpec) (diskID : String) : PodSpec :=
  match op with
  | .Add => addVolume spec diskID
  | .Remove => removeVolume spec diskID

/-- The switch of `updateConfigMapDisks` on the persistent-disk map of the
decoded settings: a nil map is replaced by an empty one, then the entry of
`diskCID` is written or deleted. -/
def patchPersistent (op : Operation) (diskCID diskID : String)
    (persistent : Option (GoMap String)) : Option (GoMap String) :=
  let m : GoMap String := match persistent with
    | none => []
    | some m => m
  match op with
  | .Add => some (GoMap.set m diskCID ("/mnt/" ++ diskID))
  | .Remove => some (GoMap.delete m diskCID)

/-! ## Persistent-disk wiring of a pod spec -/

/-- The name is the name `addVolume` gives to a persistent disk: `disk-*`. -/
def isDiskName (n : String) : Bool := "disk-".data.isPrefixOf n.data

/-- Mounts of the `bosh-job` container (the first container of that name). -/
def boshJobMounts (spec : PodSpec) : List VolumeMount :=
  match spec.Containers.find? (fun c => decide (c.Name = "bosh-job")) with
  | some c => c.VolumeMounts
  | none => []

/-- Persistent-disk volumes and `bosh-job` mounts are in 1:1 correspondence by
name: every volume named `disk-*` has exactly one mount of that name on the
`bosh-job` container, and every such mount has exactly one volume. -/
def diskCorrespondence (spec : PodSpec) : Prop :=
  (∀ v ∈ spec.Volumes, isDiskName v.Name = true →
      (boshJobMounts spec).countP (fun m => decide (m.Name = v.Name)) = 1) ∧
  (∀ m ∈ boshJobMounts spec, isDiskName m.Name = true →
      spec.Volumes.countP (fun v => decide (v.Name = m.Name)) = 1)

instance (spec : PodSpec) : Decidable (diskCorrespondence spec) :=
  inferInstanceAs (Decidable (
    (∀ v ∈ spec.Volumes, isDiskName v.Name = true →
      (boshJobMounts spec).countP (fun m => decide (m.Name = v.Name)) = 1) ∧
    (∀ m ∈ boshJobMounts spec, isDiskName m.Name = true →
      spec.Volumes.countP (fun v => decide (v.Name = m.Name)) = 1)))

/-- The relation between a container and what `removeVolume` makes of it for the
mount name `name`: a container of another name is unchanged; on a `bosh-job`
container the first mount of the name is cut out and nothing else changes. -/
def mountCut (name : String) (c d : Container) : Prop :=
  d = { c with VolumeMounts := d.VolumeMounts } ∧
  (c.Name ≠ "bosh-job" → d = c) ∧
  (c.Name = "bosh-job" →
    (∀ pre m post, c.VolumeMounts = pre ++ m :: post →
      (∀ x ∈ pre, x.Name ≠ name) → m.Name = name → d.VolumeMounts = pre ++ post) ∧
    ((∀ m ∈ c.VolumeMounts, m.Name ≠ name) → d = c))

/-! ## `actions/create_vm.go`: network and resource translation -/

/-- Modelled from the spec: `cpi.Network` is declared in the `cpi` package,
which is not part of the sources at hand. The code reads its `IP` field only;
`Other` stands for the remaining fields of the network entry. -/
structure Network where
  IP : String := ""
  Other : String := ""
  deriving DecidableEq, Repr

/-- Go `cpi.Networks`: a map from network name to network. -/
abbrev Networks := GoMap Network

/-- Go `getNetwork(networks)`: a switch on `len(networks)`; in the case 1 the first
iteration of the range loop returns; the statement after the switch is
`panic("unreachable")`. -/
def getNetwork (networks : Networks) : Res Network :=
  match networks.length with
  | 0 => .error .networkRequired
  | 1 =>
    match networks with
    | (_, nw) :: _ => .ok nw
    | [] => .panic .unreachable
  | _ => .error .multipleNetworks

/-- Go `ResourceList`: `map[ResourceName]string`. -/
abbrev ResourceList := GoMap String

/-- Go `Resources`; a list absent from the cloud properties is a nil map. -/
structure Resources where
  Limits : Option ResourceList := none
  Requests : Option ResourceList := none
  deriving DecidableEq, Repr

/-- Go `kubeResourceName(name)`; `v1.ResourceMemory` is `"memory"` and
`v1.ResourceCPU` is `"cpu"`. -/
def kubeResourceName (name : String) : Res String :=
  if name = "memory" then .ok "memory"
  else if name = "cpu" then .ok "cpu"
  else .error (.unsupportedResource name)

/-- The range loop of `getResourceList`, in the iteration order of the map:
the quantity is parsed first, then the name is translated, then the entry is
written to `list`. `parseQuantity` is `resource.ParseQuantity`. -/
def getResourceListLoop (parseQuantity : String → Except String Quantity) :
    ResourceList → GoMap Quantity → Res (GoMap Quantity)
  | [], list => .ok list
  | (k, v) :: rest, list =>
    match parseQuantity v with
    | .error msg => .error (.quantity msg)
    | .ok quantity =>
      match kubeResourceName k with
      | .ok name => getResourceListLoop parseQuantity rest (GoMap.set list name quantity)
      | .error e => .error e
      | .panic p => .panic p

/-- Go `getResourceList(resourceList)`. -/
def getResourceList (parseQuantity : String → Except String Quantity)
    (resourceList : Option ResourceList) : Res (Option (GoMap Quantity)) :=
  match resourceList with
  | none => .ok none
  | some m =>
    match getResourceListLoop parseQuantity m [] with
    | .ok list => .ok (some list)
    | .error e => .error e
    | .panic p => .panic p

/-- Go `getPodResourceRequirements(resources)`. -/
def getPodResourceRequirements (parseQuantity : String → Except String Quantity)
    (resources : Resources) : Res ResourceRequirements :=
  match getResourceList parseQuantity resources.Limits with
  | .error e => .error e
  | .panic p => .panic p
  | .ok limits =>
    match getResourceList parseQuantity resources.Requests with
    | .error e => .error e
    | .panic p => .panic p
    | .ok requests => .ok { Limits := limits, Requests := requests }

/-- The entry of the input list is one the translation accepts: its kind is
`cpu` or `memory` and its quantity string parses. -/
def entryAccepted (parseQuantity : String → Except String Quantity)
    (e : String × String) : Prop :=
  (e.1 = "cpu" ∨ e.1 = "memory") ∧ ∃ q, parseQuantity e.2 = .ok q

instance (parseQuantity : String → Except String Quantity) (e : String × String) :
    Decidable (entryAccepted parseQuantity e) :=
  match h : parseQuantity e.2 with
  | .ok q =>
    if hk : e.1 = "cpu" ∨ e.1 = "memory" then isTrue ⟨hk, q, h⟩
    else isFalse (fun h2 => hk h2.1)
  | .error _ => isFalse (fun h2 => by
      obtain ⟨_, q, hq⟩ := h2
      rw [h] at hq
      cases hq)

/-- The output list is the input list, entry by entry: the same keys, each with
the parsed value of its quantity string; an absent list gives an absent list. -/
def translated (parseQuantity : String → Except String Quantity)
    (input : Option ResourceList) (output : Option (GoMap Quantity)) : Prop :=
  match input, output with
  | none, none => True
  | some m, some l =>
    List.Forall₂ (fun e o => o.1 = e.1 ∧ parseQuantity e.2 = .ok o.2) m l
  | _, _ => False

/-- A toy `resource.ParseQuantity` for the sample inputs: a text whose first
character is a digit and that does not end in `nuts` parses to itself. -/
def sampleParseQuantity (s : String) : Except String Quantity :=
  match s.data with
  | [] => .error "empty"
  | c :: _ =>
    if c.isDigit && !("nuts".data.isSuffixOf s.data) then .ok { text := s }
    else .error ("unable to parse quantity " ++ s)

/-- The resources of the test `when resource definitions are present`. -/
def sampleResources : Resources :=
  { Limits := some [("memory", "1Gi"), ("cpu", "500m")],
    Requests := some [("memory", "64Mi"), ("cpu", "100m")] }

/-! ## The settings document and the config map -/

/-- Modelled from the spec: `agent.Network` is declared in the `agent` package,
which is not part of the sources at hand: a network config carrying a
`preconfigured` flag. -/
structure AgentNetwork where
  IP : String := ""
  Other : String := ""
  Preconfigured : Bool := false
  deriving DecidableEq, Repr

/-- Modelled from the spec: `agent.Settings` is declared in the `agent` package,
which is not part of the sources at hand: blob-store config, message-bus URL,
NTP server list, agent ID, VM name, networks, environment passthrough and the
persistent-disk map (`Disks.Persistent`, disk identifier to mount path; `none`
is the nil map). -/
structure Settings where
  Blobstore : String := ""
  MessageBus : String := ""
  NTPServers : List String := []
  AgentID : String := ""
  VMName : String := ""
  Networks : GoMap AgentNetwork := []
  Env : String := ""
  Persistent : Option (GoMap String) := none
  deriving DecidableEq, Repr

/-- A value of the config map's `Data`. A string that `json.Unmarshal` decodes
into `agent.Settings` is represented by the settings it decodes to, and
`json.Marshal` of settings by those settings; every other string is `text`. -/
inductive Doc where
  | text (s : String)
  | settings (st : Settings)
  deriving DecidableEq, Repr

/-- Go `v1.ConfigMap`; a nil `Data` map is `none`. -/
structure ConfigMap where
  ObjectMeta : ObjectMeta := {}
  Data : Option (GoMap Doc) := none
  deriving DecidableEq, Repr

/-! ## Services, storage claims and cloud properties -/

/-- Go `v1.ServicePort`. -/
structure ServicePort where
  Name : String := ""
  Protocol : String := ""
  Port : Int := 0
  NodePort : Int := 0
  deriving DecidableEq, Repr

/-- Go `v1.ServiceSpec`; `ServiceType` is its field `Type`, with the values
`ClusterIP` and `NodePort`. -/
structure ServiceSpec where
  ServiceType : String := ""
  ClusterIP : String := ""
  Ports : List ServicePort := []
  Selector : Option (GoMap String) := none
  deriving DecidableEq, Repr

/-- Go `v1.Service`. -/
structure V1Service where
  ObjectMeta : ObjectMeta := {}
  Spec : ServiceSpec := {}
  deriving DecidableEq, Repr

/-- Go `v1.PersistentVolumeClaim`: the access modes and the storage request of
the spec, and `Status.Phase`. -/
structure PersistentVolumeClaim where
  ObjectMeta : ObjectMeta := {}
  AccessModes : List String := []
  Requests : Option (GoMap Quantity) := none
  Phase : String := ""
  deriving DecidableEq, Repr

/-- Go `Port` of the cloud properties. -/
structure Port where
  Name : String := ""
  NodePort : Int := 0
  Port : Int := 0
  Protocol : String := ""
  deriving DecidableEq, Repr

/-- Go `Service` of the cloud properties; `ServiceType` is its field `Type`. -/
structure Service where
  Name : String := ""
  ServiceType : String := ""
  ClusterIP : String := ""
  Ports : List Port := []
  deriving DecidableEq, Repr

/-- Go `VMCloudProperties`. -/
structure VMCloudProperties where
  Context : String := ""
  Services : List Service := []
  Resources : Resources := {}
  deriving DecidableEq, Repr

/-- Modelled from the spec: `config.Agent` is declared in the `config` package,
which is not part of the sources at hand: the static agent configuration with
blob store, message bus and time sources. -/
structure AgentConfig where
  Blobstore : String := ""
  MessageBus : String := ""
  NTPServers : List String := []
  deriving DecidableEq, Repr

/-- Go `VMCreator`; the client provider is part of the environment. -/
structure VMCreator where
  AgentConfig : AgentConfig := {}
  deriving DecidableEq, Repr

/-! ## The collaborators: client provider, cluster client, watch, clock -/

/-- Go `kubecluster.Client`, as far as the code calls it: `Context()` and
`Namespace()`; the typed clients it hands out act on the cluster state. -/
structure Client where
  Context : String
  Namespace : String
  deriving DecidableEq, Repr

/-- The patch `strategicpatch.CreateTwoWayMergePatch` computes for two documents
that differ in `metadata.labels` only: the JSON object whose only member is
`metadata.labels` with the given label entries, and the empty object when
there are none. -/
structure Patch where
  Labels : GoMap String := []
  deriving DecidableEq, Repr

/-- Calls on the collaborators, in the order they are issued. -/
inductive Action where
  /-- Call `ClientProvider.New(context)`. -/
  | newClient (context : String)
  /-- Call `ClientProvider.GetRestConfig(context)`. -/
  | getRestConfig (context : String)
  /-- Call `Pods().Get(name)`. -/
  | getPod (ns name : String)
  /-- Call `Pods().Delete(name, GracePeriodSeconds)`. -/
  | deletePod (ns name : String) (gracePeriodSeconds : Option Int)
  /-- Call `Pods().Create(pod)`. -/
  | createPod (ns : String) (pod : Pod)
  /-- Call `Pods().Watch(LabelSelector, ResourceVersion)`. -/
  | watchPods (ns labelSelector resourceVersion : String)
  /-- Call `podWatch.Stop()`. -/
  | stopWatch
  /-- Call `ConfigMaps().Get(name)`. -/
  | getConfigMap (ns name : String)
  /-- Call `ConfigMaps().Update(cm)`. -/
  | updateConfigMap (ns : String) (cm : ConfigMap)
  /-- An exec of `command` in a container of a pod (executor and stream). -/
  | exec (ns pod container : String) (command : List String)
  /-- Call `Clock.NewTimer(d)` on the injected clock. -/
  | newTimer (d : Nat)
  /-- Call `timer.Stop()`. -/
  | stopTimer
  /-- Call `time.Sleep(d)` on the wall clock. -/
  | sleep (d : Nat)
  /-- Call `Pods().List(LabelSelector)`. -/
  | listPods (ns labelSelector : String)
  /-- Call `Namespaces().Get(name)`. -/
  | getNamespace (name : String)
  /-- Call `Namespaces().Create(namespace)`. -/
  | createNamespace (name : String)
  /-- Call `ConfigMaps().Create(cm)`. -/
  | createConfigMap (ns : String) (cm : ConfigMap)
  /-- Call `ConfigMaps().Delete(name, GracePeriodSeconds)`. -/
  | deleteConfigMap (ns name : String) (gracePeriodSeconds : Option Int)
  /-- Call `Services().Create(service)`. -/
  | createService (ns : String) (service : V1Service)
  /-- Call `Services().List(LabelSelector)`. -/
  | listServices (ns labelSelector : String)
  /-- Call `Services().Delete(name, GracePeriodSeconds)`. -/
  | deleteService (ns name : String) (gracePeriodSeconds : Option Int)
  /-- Call `PersistentVolumeClaims().Create(claim)`. -/
  | createClaim (ns : String) (claim : PersistentVolumeClaim)
  /-- Call `PersistentVolumeClaims().Get(name)`. -/
  | getClaim (ns name : String)
  /-- Call `PersistentVolumeClaims().List(LabelSelector)`. -/
  | listClaims (ns labelSelector : String)
  /-- Call `PersistentVolumeClaims().Delete(name, GracePeriodSeconds)`. -/
  | deleteClaim (ns name : String) (gracePeriodSeconds : Option Int)
  /-- Call `Pods().Patch(name, types.StrategicMergePatchType, patch)`. -/
  | patchPod (ns name : String) (patch : Patch)
  /-- Call `PersistentVolumeClaims(ns).Patch(name, types.StrategicMergePatchType, patch)`. -/
  | patchClaim (ns name : String) (patch : Patch)
  deriving DecidableEq, Repr

/-- Payload of a watch event. -/
inductive WatchObject where
  | pod (p : Pod)
  | other (typeName : String)
  deriving DecidableEq, Repr

/-- Go `watch.Event`; `EventType` is its field `Type`, and the type `Modified` is
the string `MODIFIED`. -/
structure WatchEvent where
  EventType : String
  Object : WatchObject
  deriving DecidableEq, Repr

/-- The environment of one call: what the collaborators answer.

* `newClient` is `ClientProvider.New`.
* `restConfig` is the error of `ClientProvider.GetRestConfig`, if any.
* `fault` makes a request on the cluster fail with the given error and without
  effect, like a reactor prepended to the fake client set.
* `events` are the watch events delivered before the readiness timer fires.
* `refusedProbes` is the number of probes answered `Connection refused` before
  the first one that is not; the probe loop of `WaitForPostPodDelay` is taken
  to end, a pod that refuses for ever is not represented.
* `parseSelector` is `labels.Parse` followed by `String()` on the selector.
* `selects` is the label matching of the cluster: whether the selector selects
  an object with the given labels.
* `parseQuantity` is `resource.ParseQuantity`.
* `remarshal` is `cpi.Remarshal` from a `cpi.Network` into an `agent.Network`.
* `pendingPolls` is the number of polls of a storage claim that find it not
  bound before the provisioner binds it; the bound-wait is taken to end, a
  claim that never binds is not represented.
* `toLower` is `strings.ToLower`; the default lowers the ASCII letters.
* `isQualifiedName` and `isValidLabelValue` are `validation.IsQualifiedName`
  and `validation.IsValidLabelValue`: the list of the violations found. -/
structure Env where
  newClient : String → Except Err Client
  restConfig : String → Option Err := fun _ => none
  fault : Action → Option Err := fun _ => none
  events : List WatchEvent := []
  refusedProbes : Nat := 0
  parseSelector : String → Except Err String := fun sel => .ok sel
  selects : String → Option (GoMap String) → Bool := fun _ _ => false
  parseQuantity : String → Except String Quantity := fun q => .ok { text := q }
  remarshal : Network → Except Err AgentNetwork :=
    fun nw => .ok { IP := nw.IP, Other := nw.Other }
  pendingPolls : Nat := 0
  toLower : String → String := fun s => String.mk (s.data.map Char.toLower)
  isQualifiedName : String → List String := fun _ => []
  isValidLabelValue : String → List String := fun _ => []

/-- The cluster behind the client: the stored pods, config maps, namespaces,
services and storage claims, and the log of the calls issued so far. -/
structure Cluster where
  pods : List Pod := []
  configMaps : List ConfigMap := []
  log : List Action := []
  namespaces : List String := []
  services : List V1Service := []
  claims : List PersistentVolumeClaim := []
  deriving DecidableEq, Repr

/-- The call is appended to the log. -/
def Cluster.record (s : Cluster) (a : Action) : Cluster :=
  { s with log := s.log ++ [a] }

/-- The object has the given namespace and name. -/
def ObjectMeta.isAt (m : ObjectMeta) (ns name : String) : Bool :=
  decide (m.Namespace = ns) && decide (m.Name = name)

/-- The stored pod of the given namespace and name. -/
def Cluster.findPod (s : Cluster) (ns name : String) : Option Pod :=
  s.pods.find? (fun p => p.ObjectMeta.isAt ns name)

/-- The stored config map of the given namespace and name. -/
def Cluster.findConfigMap (s : Cluster) (ns name : String) : Option ConfigMap :=
  s.configMaps.find? (fun c => c.ObjectMeta.isAt ns name)

/-- Sequencing of calls: the first error or panic ends the sequence, the state
reached so far is kept. -/
def andThen {α β : Type} (r : Res α × Cluster) (f : α → Cluster → Res β × Cluster) :
    Res β × Cluster :=
  match r with
  | (.ok a, s) => f a s
  | (.error e, s) => (.error e, s)
  | (.panic p, s) => (.panic p, s)

/-- Go `client.Pods().Get(name, ...)`. -/
def podsGet (env : Env) (client : Client) (name : String) (s : Cluster) :
    Res Pod × Cluster :=
  let a := Action.getPod client.Namespace name
  let s1 := s.record a
  match env.fault a with
  | some e => (.error e, s1)
  | none =>
    match s1.findPod client.Namespace name with
    | some p => (.ok p, s1)
    | none => (.error (.status .notFound name), s1)

/-- Go `client.Pods().Delete(name, ...)`. -/
def podsDelete (env : Env) (client : Client) (name : String)
    (gracePeriodSeconds : Option Int) (s : Cluster) : Res Unit × Cluster :=
  let a := Action.deletePod client.Namespace name gracePeriodSeconds
  let s1 := s.record a
  match env.fault a with
  | some e => (.error e, s1)
  | none =>
    match s1.findPod client.Namespace name with
    | some _ =>
      (.ok (), { s1 with
        pods := List.filter (fun p => !p.ObjectMeta.isAt client.Namespace name) s1.pods })
    | none => (.error (.status .notFound name), s1)

/-- Go `client.Pods().Create(pod)`: an empty namespace is defaulted to the one of
the client, another namespace is refused, an existing name is a conflict. -/
def podsCreate (env : Env) (client : Client) (pod : Pod) (s : Cluster) :
    Res Pod × Cluster :=
  let a := Action.createPod client.Namespace pod
  let s1 := s.record a
  match env.fault a with
  | some e => (.error e, s1)
  | none =>
    let stored : Pod :=
      if pod.ObjectMeta.Namespace = "" then
        { pod with ObjectMeta := { pod.ObjectMeta with Namespace := client.Namespace } }
      else pod
    if stored.ObjectMeta.Namespace ≠ client.Namespace then
      (.error (.status .unknown "request namespace does not match object namespace"), s1)
    else
      match s1.findPod client.Namespace stored.ObjectMeta.Name with
      | some _ => (.error (.status .alreadyExists stored.ObjectMeta.Name), s1)
      | none => (.ok stored, { s1 with pods := s1.pods ++ [stored] })

/-- Go `client.ConfigMaps().Get(name, ...)`. -/
def configMapsGet (env : Env) (client : Client) (name : String) (s : Cluster) :
    Res ConfigMap × Cluster :=
  let a := Action.getConfigMap client.Namespace name
  let s1 := s.record a
  match env.fault a with
  | some e => (.error e, s1)
  | none =>
    match s1.findConfigMap client.Namespace name with
    | some c => (.ok c, s1)
    | none => (.error (.status .notFound name), s1)

/-- Go `client.ConfigMaps().Update(cm)`: the stored object of that name is
replaced. -/
def configMapsUpdate (env : Env) (client : Client) (cm : ConfigMap) (s : Cluster) :
    Res ConfigMap × Cluster :=
  let a := Action.updateConfigMap client.Namespace cm
  let s1 := s.record a
  match env.fault a with
  | some e => (.error e, s1)
  | none =>
    match s1.findConfigMap client.Namespace cm.ObjectMeta.Name with
    | some _ =>
      (.ok cm, { s1 with
        configMaps := List.map (fun c =>
          if c.ObjectMeta.isAt client.Namespace cm.ObjectMeta.Name then cm else c)
          s1.configMaps })
    | none => (.error (.status .notFound cm.ObjectMeta.Name), s1)

/-- HTTP code of a `StatusError`, as the constructors of the API machinery set
it from the reason (`NewNotFound` 404, `NewAlreadyExists` and `NewConflict`
409); a status whose code and reason disagree is not represented. -/
def StatusReason.code (r : StatusReason) : Nat :=
  match r with
  | .notFound => 404
  | .alreadyExists => 409
  | .conflict => 409
  | .unknown => 500

/-- The stored service of the given namespace and name. -/
def Cluster.findService (s : Cluster) (ns name : String) : Option V1Service :=
  s.services.find? (fun c => c.ObjectMeta.isAt ns name)

/-- The stored storage claim of the given namespace and name. -/
def Cluster.findClaim (s : Cluster) (ns name : String) : Option PersistentVolumeClaim :=
  s.claims.find? (fun c => c.ObjectMeta.isAt ns name)

/-- Go `client.Pods().List(listOptions)`: the stored pods of the namespace that
the selector selects, in stored order. -/
def podsList (env : Env) (client : Client) (labelSelector : String) (s : Cluster) :
    Res (List Pod) × Cluster :=
  let a := Action.listPods client.Namespace labelSelector
  let s1 := s.record a
  match env.fault a with
  | some e => (.error e, s1)
  | none =>
    (.ok (s1.pods.filter (fun p =>
      decide (p.ObjectMeta.Namespace = client.Namespace) &&
        env.selects labelSelector p.ObjectMeta.Labels)), s1)

/-- Go `coreClient.Namespaces().Get(namespace, ...)`. -/
def namespacesGet (env : Env) (name : String) (s : Cluster) : Res Unit × Cluster :=
  let a := Action.getNamespace name
  let s1 := s.record a
  match env.fault a with
  | some e => (.error e, s1)
  | none =>
    if name ∈ s1.namespaces then (.ok (), s1)
    else (.error (.status .notFound name), s1)

/-- Go `coreClient.Namespaces().Create(namespace)`. -/
def namespacesCreate (env : Env) (name : String) (s : Cluster) : Res Unit × Cluster :=
  let a := Action.createNamespace name
  let s1 := s.record a
  match env.fault a with
  | some e => (.error e, s1)
  | none =>
    if name ∈ s1.namespaces then (.error (.status .alreadyExists name), s1)
    else (.ok (), { s1 with namespaces := s1.namespaces ++ [name] })

/-- Go `client.ConfigMaps().Create(cm)`. -/
def configMapsCreate (env : Env) (client : Client) (cm : ConfigMap) (s : Cluster) :
    Res ConfigMap × Cluster :=
  let a := Action.createConfigMap client.Namespace cm
  let s1 := s.record a
  match env.fault a with
  | some e => (.error e, s1)
  | none =>
    let stored : ConfigMap :=
      if cm.ObjectMeta.Namespace = "" then
        { cm with ObjectMeta := { cm.ObjectMeta with Namespace := client.Namespace } }
      else cm
    if stored.ObjectMeta.Namespace ≠ client.Namespace then
      (.error (.status .unknown "request namespace does not match object namespace"), s1)
    else
      match s1.findConfigMap client.Namespace stored.ObjectMeta.Name with
      | some _ => (.error (.status .alreadyExists stored.ObjectMeta.Name), s1)
      | none => (.ok stored, { s1 with configMaps := s1.configMaps ++ [stored] })

/-- Go `client.ConfigMaps().Delete(name, ...)`. -/
def configMapsDelete (env : Env) (client : Client) (name : String)
    (gracePeriodSeconds : Option Int) (s : Cluster) : Res Unit × Cluster :=
  let a := Action.deleteConfigMap client.Namespace name gracePeriodSeconds
  let s1 := s.record a
  match env.fault a with
  | some e => (.error e, s1)
  | none =>
    match s1.findConfigMap client.Namespace name with
    | some _ =>
      (.ok (), { s1 with
        configMaps :=
          List.filter (fun c => !c.ObjectMeta.isAt client.Namespace name) s1.configMaps })
    | none => (.error (.status .notFound name), s1)

/-- Go `client.Services().Create(service)`. -/
def servicesCreate (env : Env) (client : Client) (service : V1Service) (s : Cluster) :
    Res V1Service × Cluster :=
  let a := Action.createService client.Namespace service
  let s1 := s.record a
  match env.fault a with
  | some e => (.error e, s1)
  | none =>
    let stored : V1Service :=
      if service.ObjectMeta.Namespace = "" then
        { service with
          ObjectMeta := { service.ObjectMeta with Namespace := client.Namespace } }
      else service
    if stored.ObjectMeta.Namespace ≠ client.Namespace then
      (.error (.status .unknown "request namespace does not match object namespace"), s1)
    else
      match s1.findService client.Namespace stored.ObjectMeta.Name with
      | some _ => (.error (.status .alreadyExists stored.ObjectMeta.Name), s1)
      | none => (.ok stored, { s1 with services := s1.services ++ [stored] })

/-- Go `client.Services().List(listOptions)`. -/
def servicesList (env : Env) (client : Client) (labelSelector : String) (s : Cluster) :
    Res (List V1Service) × Cluster :=
  let a := Action.listServices client.Namespace labelSelector
  let s1 := s.record a
  match env.fault a with
  | some e => (.error e, s1)
  | none =>
    (.ok (s1.services.filter (fun p =>
      decide (p.ObjectMeta.Namespace = client.Namespace) &&
        env.selects labelSelector p.ObjectMeta.Labels)), s1)

/-- Go `client.Services().Delete(name, ...)`. -/
def servicesDelete (env : Env) (client : Client) (name : String)
    (gracePeriodSeconds : Option Int) (s : Cluster) : Res Unit × Cluster :=
  let a := Action.deleteService client.Namespace name gracePeriodSeconds
  let s1 := s.record a
  match env.fault a with
  | some e => (.error e, s1)
  | none =>
    match s1.findService client.Namespace name with
    | some _ =>
      (.ok (), { s1 with
        services :=
          List.filter (fun c => !c.ObjectMeta.isAt client.Namespace name) s1.services })
    | none => (.error (.status .notFound name), s1)

/-- Go `client.PersistentVolumeClaims().Create(claim)`. -/
def claimsCreate (env : Env) (client : Client) (claim : PersistentVolumeClaim)
    (s : Cluster) : Res PersistentVolumeClaim × Cluster :=
  let a := Action.createClaim client.Namespace claim
  let s1 := s.record a
  match env.fault a with
  | some e => (.error e, s1)
  | none =>
    let stored : PersistentVolumeClaim :=
      if claim.ObjectMeta.Namespace = "" then
        { claim with ObjectMeta := { claim.ObjectMeta with Namespace := client.Namespace } }
      else claim
    if stored.ObjectMeta.Namespace ≠ client.Namespace then
      (.error (.status .unknown "request namespace does not match object namespace"), s1)
    else
      match s1.findClaim client.Namespace stored.ObjectMeta.Name with
      | some _ => (.error (.status .alreadyExists stored.ObjectMeta.Name), s1)
      | none => (.ok stored, { s1 with claims := s1.claims ++ [stored] })

/-- Go `client.PersistentVolumeClaims().Get(name, ...)`. -/
def claimsGet (env : Env) (client : Client) (name : String) (s : Cluster) :
    Res PersistentVolumeClaim × Cluster :=
  let a := Action.getClaim client.Namespace name
  let s1 := s.record a
  match env.fault a with
  | some e => (.error e, s1)
  | none =>
    match s1.findClaim client.Namespace name with
    | some c => (.ok c, s1)
    | none => (.error (.status .notFound name), s1)

/-- Go `client.PersistentVolumeClaims().List(listOptions)`. -/
def claimsList (env : Env) (client : Client) (labelSelector : String) (s : Cluster) :
    Res (List PersistentVolumeClaim) × Cluster :=
  let a := Action.listClaims client.Namespace labelSelector
  let s1 := s.record a
  match env.fault a with
  | some e => (.error e, s1)
  | none =>
    (.ok (s1.claims.filter (fun p =>
      decide (p.ObjectMeta.Namespace = client.Namespace) &&
        env.selects labelSelector p.ObjectMeta.Labels)), s1)

/-- Go `client.PersistentVolumeClaims().Delete(name, ...)`. -/
def claimsDelete (env : Env) (client : Client) (name : String)
    (gracePeriodSeconds : Option Int) (s : Cluster) : Res Unit × Cluster :=
  let a := Action.deleteClaim client.Namespace name gracePeriodSeconds
  let s1 := s.record a
  match env.fault a with
  | some e => (.error e, s1)
  | none =>
    match s1.findClaim client.Namespace name with
    | some _ =>
      (.ok (), { s1 with
        claims := List.filter (fun c => !c.ObjectMeta.isAt client.Namespace name) s1.claims })
    | none => (.error (.status .notFound name), s1)

/-- The provisioner binds the stored claim of the given namespace and name. -/
def Cluster.bindClaim (s : Cluster) (ns name : String) : Cluster :=
  { s with
    claims := List.map (fun c =>
      if c.ObjectMeta.isAt ns name then { c with Phase := "Bound" } else c) s.claims }

/-! ## `actions/volume_manager.go`: the attach/detach engine -/

/-- Go `VolumeManager`: the two durations; the client provider and the clock are
part of the environment. -/
structure VolumeManager where
  PodReadyTimeout : Nat := 0
  PostRecreateDelay : Nat := 0
  deriving DecidableEq, Repr

/-- The config map `updateConfigMapDisks` submits to the update: the decoded
settings with the patched persistent-disk map, encoded again and written to
`instance_settings`. -/
def patchedConfigMap (op : Operation) (context diskID : String) (cm : ConfigMap)
    (settings : Settings) : ConfigMap :=
  let diskCID := NewDiskCID context diskID
  let settings1 : Settings :=
    { settings with Persistent := patchPersistent op diskCID diskID settings.Persistent }
  { cm with
    Data := some (GoMap.set (entriesOf cm.Data) "instance_settings" (.settings settings1)) }

/-- Go `updateConfigMapDisks(client, op, agentID, diskID)`. A missing
`instance_settings` key reads as the empty string, which does not decode. -/
def updateConfigMapDisks (env : Env) (client : Client) (op : Operation)
    (agentID diskID : String) (s : Cluster) : Res Unit × Cluster :=
  andThen (configMapsGet env client ("agent-" ++ agentID) s) fun cm s1 =>
    match GoMap.lookup (entriesOf cm.Data) "instance_settings" with
    | none => (.error (.json "unexpected end of JSON input"), s1)
    | some (.text _) => (.error (.json "invalid character"), s1)
    | some (.settings settings) =>
      andThen (configMapsUpdate env client
        (patchedConfigMap op client.Context diskID cm settings) s1) fun _ s2 => (.ok (), s2)

/-- Go `isAgentContainerRunning(pod)`; `v1.PodRunning` is `"Running"`. -/
def isAgentContainerRunning (pod : Pod) : Bool :=
  if pod.Status.Phase ≠ "Running" then false
  else
    match pod.Status.ContainerStatuses.find? (fun cs => decide (cs.Name = "bosh-job")) with
    | some containerStatus => containerStatus.Ready && containerStatus.Running
    | none => false

/-- The select loop of `waitForPod` on the events delivered before the timer
fires; running out of events is the timer case. -/
def waitLoop : List WatchEvent → Res Bool
  | [] => .ok false
  | event :: rest =>
    if event.EventType = "MODIFIED" then
      match event.Object with
      | .pod pod => if isAgentContainerRunning pod then .ok true else waitLoop rest
      | .other typeName => .error (.unexpectedObjectType typeName)
    else .error (.unexpectedWatchEvent event.EventType)

/-- The event is one the select loop of `waitForPod` skips: a `Modified` event
carrying a pod that is not ready yet. Every other event is decisive. -/
def notYetReady (event : WatchEvent) : Bool :=
  decide (event.EventType = "MODIFIED") &&
    match event.Object with
    | .pod pod => !isAgentContainerRunning pod
    | .other _ => false

/-- Go `waitForPod(podService, agentID, resourceVersion)`; the deferred stops run
on every exit, the watch first. -/
def waitForPod (vm : VolumeManager) (env : Env) (client : Client)
    (agentID resourceVersion : String) (s : Cluster) : Res Bool × Cluster :=
  let agentSelector := "bosh.cloudfoundry.org/agent-id=" ++ agentID
  let s1 := s.record (.newTimer vm.PodReadyTimeout)
  let a := Action.watchPods client.Namespace agentSelector resourceVersion
  let s2 := s1.record a
  match env.fault a with
  | some e => (.error e, s2.record .stopTimer)
  | none => (waitLoop env.events, (s2.record .stopWatch).record .stopTimer)

/-- The probes of `WaitForPostPodDelay` after the first one: each round streams
the command again and sleeps one second. -/
def probeRounds (a : Action) : Nat → Cluster → Cluster
  | 0, s => s
  | n + 1, s => probeRounds a n ((s.record a).record (.sleep 1000000000))

/-- Go `WaitForPostPodDelay(agentID, client)`. A fault on the exec stands for a
failing `remotecommand.NewSPDYExecutor`. -/
def WaitForPostPodDelay (env : Env) (agentID : String) (client : Client)
    (s : Cluster) : Res Unit × Cluster :=
  andThen (podsGet env client ("agent-" ++ agentID) s) fun pod s1 =>
    let s2 := s1.record (.getRestConfig client.Context)
    match env.restConfig client.Context with
    | some e => (.error e, s2)
    | none =>
      match pod.Spec.Containers with
      | [] => (.panic (.indexOutOfRange 0 0), s2)
      | c :: _ =>
        let a := Action.exec pod.ObjectMeta.Namespace pod.ObjectMeta.Name c.Name
          ["curl", "127.0.0.1:2825", "--max-time", "1"]
        match env.fault a with
        | some e => (.error e, s2)
        | none => (.ok (), probeRounds a env.refusedProbes (s2.record a))

/-- The pod `recreatePod` submits: the spliced spec, the metadata cut down to
name, namespace, annotations and labels, the IP annotation seeded from the pod
IP when it is empty, and a blank status. -/
def recreatedPod (op : Operation) (pod : Pod) (diskID : String) : Pod :=
  let annotations : GoMap String := entriesOf pod.ObjectMeta.Annotations
  let annotations1 : GoMap String :=
    if (GoMap.lookup annotations "bosh.cloudfoundry.org/ip-address").getD "" = "" then
      GoMap.set annotations "bosh.cloudfoundry.org/ip-address" pod.Status.PodIP
    else annotations
  { ObjectMeta :=
      { Name := pod.ObjectMeta.Name,
        Namespace := pod.ObjectMeta.Namespace,
        Annotations := some annotations1,
        Labels := pod.ObjectMeta.Labels },
    Spec := updateVolumes op pod.Spec diskID,
    Status := {} }

/-- The pods submitted to `Pods().Create` in a call log, in the order of the
calls. -/
def createdPods (log : List Action) : List Pod :=
  log.filterMap (fun a =>
    match a with
    | .createPod _ p => some p
    | _ => none)

/-- The calls of a call log that create or stop a timer of the injected clock
or sleep on the wall clock, in the order of the calls. -/
def clockCalls (log : List Action) : List Action :=
  log.filter (fun a =>
    match a with
    | .newTimer _ => true
    | .stopTimer => true
    | .sleep _ => true
    | _ => false)

/-- Go `recreatePod(client, op, agentID, diskID)`. The result of
`WaitForPostPodDelay` is dropped; a panic in it is not. -/
def recreatePod (vm : VolumeManager) (env : Env) (client : Client) (op : Operation)
    (agentID diskID : String) (s : Cluster) : Res Unit × Cluster :=
  andThen (podsGet env client ("agent-" ++ agentID) s) fun pod s1 =>
  andThen (updateConfigMapDisks env client op agentID diskID s1) fun _ s2 =>
  andThen (podsDelete env client ("agent-" ++ agentID) (some 0) s2) fun _ s3 =>
  andThen (podsCreate env client (recreatedPod op pod diskID) s3) fun updated s4 =>
  andThen (waitForPod vm env client agentID updated.ObjectMeta.ResourceVersion s4)
    fun ready s5 =>
      if !ready then (.error .recreateTimeout, s5)
      else
        match WaitForPostPodDelay env agentID client s5 with
        | (.panic p, s6) => (.panic p, s6)
        | (_, s6) => (.ok (), s6)

/-- Go `VolumeManager.AttachDisk(vmcid, diskCID)`. -/
def AttachDisk (vm : VolumeManager) (env : Env) (vmcid diskCID : String)
    (s : Cluster) : Res Unit × Cluster :=
  match ParseVMCID vmcid with
  | .panic p => (.panic p, s)
  | .error e => (.error e, s)
  | .ok (vmContext, agentID) =>
    match ParseDiskCID diskCID with
    | .panic p => (.panic p, s)
    | .error e => (.error e, s)
    | .ok (context, diskID) =>
      if context ≠ vmContext then (.error (.contextMismatch context vmContext), s)
      else
        let s1 := s.record (.newClient context)
        match env.newClient context with
        | .error e => (.error e, s1)
        | .ok client => recreatePod vm env client .Add agentID diskID s1

/-- Go `VolumeManager.DetachDisk(vmcid, diskCID)`. -/
def DetachDisk (vm : VolumeManager) (env : Env) (vmcid diskCID : String)
    (s : Cluster) : Res Unit × Cluster :=
  match ParseVMCID vmcid with
  | .panic p => (.panic p, s)
  | .error e => (.error e, s)
  | .ok (vmContext, agentID) =>
    match ParseDiskCID diskCID with
    | .panic p => (.panic p, s)
    | .error e => (.error e, s)
    | .ok (context, diskID) =>
      if context ≠ vmContext then (.error (.contextMismatch context vmContext), s)
      else
        let s1 := s.record (.newClient context)
        match env.newClient context with
        | .error e => (.error e, s1)
        | .ok client => recreatePod vm env client .Remove agentID diskID s1

/-- Go `AttachDisk` for `Add`, `DetachDisk` for `Remove`. -/
def changeDisk (op : Operation) (vm : VolumeManager) (env : Env)
    (vmcid diskCID : String) (s : Cluster) : Res Unit × Cluster :=
  match op with
  | .Add => AttachDisk vm env vmcid diskCID s
  | .Remove => DetachDisk vm env vmcid diskCID s

/-! ## `actions/create_vm.go`: the create sequence -/

/-- Go `createNamespace(coreClient, namespace)`: a get that succeeds ends the
function; after any failing get the namespace is created, and a create that
fails with a status error of reason `AlreadyExists` counts as success. -/
def createNamespace (env : Env) (name : String) (s : Cluster) : Res Unit × Cluster :=
  match namespacesGet env name s with
  | (.ok _, s1) => (.ok (), s1)
  | (.panic p, s1) => (.panic p, s1)
  | (.error _, s1) =>
    match namespacesCreate env name s1 with
    | (.ok _, s2) => (.ok (), s2)
    | (.panic p, s2) => (.panic p, s2)
    | (.error (.status .alreadyExists _), s2) => (.ok (), s2)
    | (.error e, s2) => (.error e, s2)

/-- The range loop of `InstanceSettings` over the networks, in the iteration
order of the map. -/
def instanceNetworks (env : Env) : Networks → GoMap AgentNetwork → Res (GoMap AgentNetwork)
  | [], agentNetworks => .ok agentNetworks
  | (name, cpiNetwork) :: rest, agentNetworks =>
    match env.remarshal cpiNetwork with
    | .error e => .error e
    | .ok agentNetwork =>
      instanceNetworks env rest
        (GoMap.set agentNetworks name { agentNetwork with Preconfigured := true })

/-- Go `VMCreator.InstanceSettings(agentID, networks, env)`; `boshEnv` is the
argument `env`. -/
def InstanceSettings (v : VMCreator) (env : Env) (agentID : String) (networks : Networks)
    (boshEnv : String) : Res Settings :=
  match instanceNetworks env networks [] with
  | .error e => .error e
  | .panic p => .panic p
  | .ok agentNetworks =>
    .ok { Blobstore := v.AgentConfig.Blobstore,
          MessageBus := v.AgentConfig.MessageBus,
          NTPServers := v.AgentConfig.NTPServers,
          AgentID := agentID,
          VMName := agentID,
          Env := boshEnv,
          Networks := agentNetworks,
          Persistent := none }

/-- Go `createConfigMap(configMapService, ns, agentID, instanceSettings)`;
`json.Marshal` of the settings is taken to succeed. -/
def createConfigMap (env : Env) (client : Client) (ns agentID : String)
    (instanceSettings : Settings) (s : Cluster) : Res ConfigMap × Cluster :=
  configMapsCreate env client
    { ObjectMeta :=
        { Name := "agent-" ++ agentID,
          Namespace := ns,
          Labels := some [("bosh.cloudfoundry.org/agent-id", agentID)] },
      Data := some [("instance_settings", .settings instanceSettings)] } s

/-- The service `createServices` builds for one entry of the cloud properties. -/
def buildService (ns agentID : String) (svc : Service) : V1Service :=
  let serviceType := if svc.ServiceType = "NodePort" then "NodePort" else "ClusterIP"
  let ports : List ServicePort := svc.Ports.map (fun port =>
    { Name := port.Name, Protocol := port.Protocol, Port := port.Port,
      NodePort := port.NodePort })
  { ObjectMeta :=
      { Name := svc.Name,
        Namespace := ns,
        Labels := some [("bosh.cloudfoundry.org/agent-id", agentID)] },
    Spec :=
      { ServiceType := serviceType,
        ClusterIP := svc.ClusterIP,
        Ports := ports,
        Selector := some [("bosh.cloudfoundry.org/agent-id", agentID)] } }

/-- Go `createServices(serviceClient, ns, agentID, services)`. -/
def createServices (env : Env) (client : Client) (ns agentID : String) :
    List Service → Cluster → Res Unit × Cluster
  | [], s => (.ok (), s)
  | svc :: rest, s =>
    andThen (servicesCreate env client (buildService ns agentID svc) s) fun _ s1 =>
      createServices env client ns agentID rest s1

/-- The poll loop of `createVarVcapVolume` on the claim last read: while its
phase is not `Bound`, sleep one second and read it again. After `fuel` such
polls the provisioner binds the claim. -/
def awaitBound (env : Env) (client : Client) (name : String) :
    Nat → PersistentVolumeClaim → Cluster → Res Unit × Cluster
  | fuel, volume, s =>
    if volume.Phase = "Bound" then (.ok (), s)
    else
      let s1 := s.record (.sleep 1000000000)
      match fuel with
      | 0 =>
        andThen (claimsGet env client name (s1.bindClaim client.Namespace name))
          fun _ s2 => (.ok (), s2)
      | n + 1 =>
        andThen (claimsGet env client name s1) fun v s2 => awaitBound env client name n v s2

/-- The claim `createVarVcapVolume` submits. -/
def varVcapClaim (agentID : String) (client : Client) (volumeSize : Quantity) :
    PersistentVolumeClaim :=
  { ObjectMeta :=
      { Name := "var-vcap-" ++ agentID,
        Namespace := client.Namespace,
        Labels := some [("bosh.cloudfoundry.org/var-vcap-id", agentID)] },
    AccessModes := ["ReadWriteOnce"],
    Requests := some [("storage", volumeSize)] }

/-- Go `createVarVcapVolume(agentID, client)`. The result and the error of the
claim create are overwritten by the get that follows, without a check. -/
def createVarVcapVolume (env : Env) (agentID : String) (client : Client) (s : Cluster) :
    Res String × Cluster :=
  match env.parseQuantity "3Gi" with
  | .error msg => (.error (.quantity msg), s)
  | .ok volumeSize =>
    let s1 := (claimsCreate env client (varVcapClaim agentID client volumeSize) s).2
    andThen (claimsGet env client ("var-vcap-" ++ agentID) s1) fun volume s2 =>
      andThen (awaitBound env client ("var-vcap-" ++ agentID) env.pendingPolls volume s2)
        fun _ s3 => (.ok ("var-vcap-" ++ agentID), s3)

/-- The pod `createPod` submits. -/
def newPod (ns agentID image : String) (network : Network)
    (resourceReqs : ResourceRequirements) (volumeName : String) : Pod :=
  let annotations : GoMap String :=
    if network.IP.length > 0 then [("bosh.cloudfoundry.org/ip-address", network.IP)]
    else []
  { ObjectMeta :=
      { Name := "agent-" ++ agentID,
        Namespace := ns,
        Annotations := some annotations,
        Labels := some [("bosh.cloudfoundry.org/agent-id", agentID)] },
    Spec :=
      { Hostname := agentID,
        Containers := [
          { Name := "bosh-job",
            Image := image,
            ImagePullPolicy := "Always",
            Command := ["/usr/sbin/runsvdir-start"],
            Args := [],
            Resources := resourceReqs,
            SecurityContext := some { Privileged := some true, RunAsUser := some 0 },
            VolumeMounts := [
              { Name := "bosh-config",
                MountPath := "/var/vcap/bosh/instance_settings.json",
                SubPath := "instance_settings.json" },
              { Name := "var-vcap", MountPath := "/var/vcap", SubPath := "vcap" }] }],
        Volumes := [
          { Name := "bosh-config",
            VolumeSource := { ConfigMap := some ⟨"agent-" ++ agentID,
              [{ Key := "instance_settings", Path := "instance_settings.json" }]⟩ } },
          { Name := "var-vcap",
            VolumeSource := { PersistentVolumeClaim := some volumeName } }] } }

/-- Go `createPod(client, ns, agentID, image, network, resources)`. On an error
of the resource translation the Go result is the zero value. -/
def createPod (env : Env) (client : Client) (ns agentID image : String)
    (network : Network) (resources : Resources) (s : Cluster) : Res Pod × Cluster :=
  match getPodResourceRequirements env.parseQuantity resources with
  | .error e => (.error e, s)
  | .panic p => (.panic p, s)
  | .ok resourceReqs =>
    andThen (createVarVcapVolume env agentID client s) fun volumeName s1 =>
      podsCreate env client (newPod ns agentID image network resourceReqs volumeName) s1

/-- Go `VMCreator.Create(agentID, stemcellCID, cloudProps, networks, diskCIDs,
env)`; `boshEnv` is the argument `env`. -/
def Create (v : VMCreator) (env : Env) (agentID stemcellCID : String)
    (cloudProps : VMCloudProperties) (networks : Networks) (_diskCIDs : List String)
    (boshEnv : String) (s : Cluster) : Res String × Cluster :=
  match getNetwork networks with
  | .error e => (.error e, s)
  | .panic p => (.panic p, s)
  | .ok network =>
    let s1 := s.record (.newClient cloudProps.Context)
    match env.newClient cloudProps.Context with
    | .error e => (.error e, s1)
    | .ok client =>
      andThen (createNamespace env client.Namespace s1) fun _ s2 =>
        let ns := client.Namespace
        match InstanceSettings v env agentID networks boshEnv with
        | .error e => (.error e, s2)
        | .panic p => (.panic p, s2)
        | .ok instanceSettings =>
          andThen (createConfigMap env client ns agentID instanceSettings s2) fun _ s3 =>
          andThen (createServices env client ns agentID cloudProps.Services s3) fun _ s4 =>
          andThen (createPod env client ns agentID stemcellCID network
            cloudProps.Resources s4) fun _ s5 =>
          (.ok (NewVMCID client.Context agentID), s5)

/-! ## `actions/delete_vm.go` and `actions/delete_disk.go` -/

/-- Go `deletePod(podClient, agentID)`: a status error of reason `NotFound` is
turned into success. -/
def deletePod (env : Env) (client : Client) (agentID : String) (s : Cluster) :
    Res Unit × Cluster :=
  match podsDelete env client ("agent-" ++ agentID) (some 0) s with
  | (.error (.status .notFound _), s1) => (.ok (), s1)
  | r => r

/-- The range loop of `deleteServices` over the listed services. -/
def deleteEach (env : Env) (client : Client) : List V1Service → Cluster → Res Unit × Cluster
  | [], s => (.ok (), s)
  | service :: rest, s =>
    andThen (servicesDelete env client service.ObjectMeta.Name (some 0) s) fun _ s1 =>
      deleteEach env client rest s1

/-- Go `deleteServices(serviceClient, agentID)`. -/
def deleteServices (env : Env) (client : Client) (agentID : String) (s : Cluster) :
    Res Unit × Cluster :=
  match env.parseSelector ("bosh.cloudfoundry.org/agent-id=" ++ agentID) with
  | .error e => (.error e, s)
  | .ok agentSelector =>
    andThen (servicesList env client agentSelector s) fun items s1 =>
      deleteEach env client items s1

/-- Go `deleteConfigMap(configMapService, agentID)`: a status error of reason
`NotFound` is turned into success. -/
def deleteConfigMap (env : Env) (client : Client) (agentID : String) (s : Cluster) :
    Res Unit × Cluster :=
  match configMapsDelete env client ("agent-" ++ agentID) (some 0) s with
  | (.error (.status .notFound _), s1) => (.ok (), s1)
  | r => r

/-- Go `VMDeleter.Delete(vmcid)`. -/
def Delete (env : Env) (vmcid : String) (s : Cluster) : Res Unit × Cluster :=
  match ParseVMCID vmcid with
  | .panic p => (.panic p, s)
  | .error e => (.error e, s)
  | .ok (context, agentID) =>
    let s1 := s.record (.newClient context)
    match env.newClient context with
    | .error e => (.error e, s1)
    | .ok client =>
      andThen (deletePod env client agentID s1) fun _ s2 =>
      andThen (deleteServices env client agentID s2) fun _ s3 =>
      andThen (deleteConfigMap env client agentID s3) fun _ s4 =>
      (.ok (), s4)

/-- Go `DiskDeleter.DeleteDisk(diskCID)`: the error of the claim delete is
returned as it is. -/
def DeleteDisk (env : Env) (diskCID : String) (s : Cluster) : Res Unit × Cluster :=
  match ParseDiskCID diskCID with
  | .panic p => (.panic p, s)
  | .error e => (.error e, s)
  | .ok (context, diskID) =>
    let s1 := s.record (.newClient context)
    match env.newClient context with
    | .error e => (.error e, s1)
    | .ok client => claimsDelete env client ("disk-" ++ diskID) (some 0) s1

/-- The services a list call with the selector returns: the stored services of
the namespace of the client that the selector selects, in stored order. -/
def listedServices (env : Env) (client : Client) (labelSelector : String) (s : Cluster) :
    List V1Service :=
  s.services.filter (fun p =>
    decide (p.ObjectMeta.Namespace = client.Namespace) &&
      env.selects labelSelector p.ObjectMeta.Labels)

/-- The delete calls `deleteServices` issues for the given services, one per
service, in list order. -/
def serviceDeletes (client : Client) (items : List V1Service) : List Action :=
  items.map (fun service =>
    Action.deleteService client.Namespace service.ObjectMeta.Name (some 0))

/-- The state `Delete` reaches after its pod delete, whatever the delete
returns: the client is constructed, then the pod `agent-<agentID>` is deleted
with a grace period of zero. -/
def afterPodDelete (env : Env) (client : Client) (context agentID : String) (s : Cluster) :
    Cluster :=
  (podsDelete env client ("agent-" ++ agentID) (some 0) (s.record (.newClient context))).2

/-- The state `Delete` reaches after its service list: the state after the pod
delete with the list call logged. -/
def afterServiceList (env : Env) (client : Client) (context agentID sel : String)
    (s : Cluster) : Cluster :=
  (afterPodDelete env client context agentID s).record (.listServices client.Namespace sel)

/-! ## `actions/has_disk.go`, `actions/has_vm.go` and `actions/get_disks.go` -/

/-- Go `DiskFinder.HasDisk(diskCID)`; the selector is parsed before the client is
constructed. -/
def HasDisk (env : Env) (diskCID : String) (s : Cluster) : Res Bool × Cluster :=
  match ParseDiskCID diskCID with
  | .panic p => (.panic p, s)
  | .error e => (.error e, s)
  | .ok (context, diskID) =>
    match env.parseSelector ("bosh.cloudfoundry.org/disk-id=" ++ diskID) with
    | .error e => (.error e, s)
    | .ok diskSelector =>
      let s1 := s.record (.newClient context)
      match env.newClient context with
      | .error e => (.error e, s1)
      | .ok client =>
        andThen (claimsList env client diskSelector s1) fun items s2 =>
          (.ok (decide (items.length > 0)), s2)

/-- Go `VMFinder.FindVM(vmcid)`: the context and the pod, `none` for a nil pod. -/
def FindVM (env : Env) (vmcid : String) (s : Cluster) :
    Res (String × Option Pod) × Cluster :=
  match ParseVMCID vmcid with
  | .panic p => (.panic p, s)
  | .error e => (.error e, s)
  | .ok (context, agentID) =>
    match env.parseSelector ("bosh.cloudfoundry.org/agent-id=" ++ agentID) with
    | .error e => (.error e, s)
    | .ok agentSelector =>
      let s1 := s.record (.newClient context)
      match env.newClient context with
      | .error e => (.error e, s1)
      | .ok client =>
        andThen (podsList env client agentSelector s1) fun items s2 =>
          match items with
          | pod :: _ => (.ok (context, some pod), s2)
          | [] => (.ok ("", none), s2)

/-- Go `VMFinder.HasVM(vmcid)`: `pod != nil` together with the error of
`FindVM`. -/
def HasVM (env : Env) (vmcid : String) (s : Cluster) : Res Bool × Cluster :=
  match FindVM env vmcid s with
  | (.ok (_, pod), s1) => (.ok pod.isSome, s1)
  | (.error e, s1) => (.error e, s1)
  | (.panic p, s1) => (.panic p, s1)

/-- Go `isNotFoundStatusError(err)`: a status error whose code is 404. -/
def isNotFoundStatusError (e : Err) : Bool :=
  match e with
  | .status reason _ => decide (reason.code = 404)
  | _ => false

/-- Go `getPVClaim(pvcClient, volumeSource)`: `none` is the nil claim. -/
def getPVClaim (env : Env) (client : Client) (volumeSource : VolumeSource) (s : Cluster) :
    Res (Option PersistentVolumeClaim) × Cluster :=
  match volumeSource.PersistentVolumeClaim with
  | some claimName =>
    andThen (claimsGet env client claimName s) fun pvc s1 => (.ok (some pvc), s1)
  | none => (.ok none, s)

/-- The range loop of `GetDisks` over the volumes of the pod. A lookup that
fails with a not-found status gives no claim and the volume is skipped. -/
def collectDisks (env : Env) (client : Client) (context : String) :
    List Volume → List String → Cluster → Res (List String) × Cluster
  | [], diskIDs, s => (.ok diskIDs, s)
  | v :: rest, diskIDs, s =>
    match getPVClaim env client v.VolumeSource s with
    | (.panic p, s1) => (.panic p, s1)
    | (.error e, s1) =>
      if !isNotFoundStatusError e then (.error e, s1)
      else collectDisks env client context rest diskIDs s1
    | (.ok none, s1) => collectDisks env client context rest diskIDs s1
    | (.ok (some pvc), s1) =>
      match GoMap.lookup (entriesOf pvc.ObjectMeta.Labels) "bosh.cloudfoundry.org/disk-id" with
      | some diskID =>
        collectDisks env client context rest (diskIDs ++ [NewDiskCID context diskID]) s1
      | none => collectDisks env client context rest diskIDs s1

/-- Go `DiskGetter.GetDisks(vmcid)`. -/
def GetDisks (env : Env) (vmcid : String) (s : Cluster) : Res (List String) × Cluster :=
  match ParseVMCID vmcid with
  | .panic p => (.panic p, s)
  | .error e => (.error e, s)
  | .ok (context, agentID) =>
    let s1 := s.record (.newClient context)
    match env.newClient context with
    | .error e => (.error e, s1)
    | .ok client =>
      match podsGet env client ("agent-" ++ agentID) s1 with
      | (.panic p, s2) => (.panic p, s2)
      | (.error e, s2) =>
        if isNotFoundStatusError e then (.ok [], s2) else (.error e, s2)
      | (.ok pod, s2) => collectDisks env client context pod.Spec.Volumes [] s2

/-- The outcome of the claim lookup `GetDisks` makes for a volume: `none` for a
volume with no claim source. -/
def claimLookup (env : Env) (client : Client) (s : Cluster) (v : Volume) :
    Option (Res PersistentVolumeClaim) :=
  match v.VolumeSource.PersistentVolumeClaim with
  | some claimName => some (claimsGet env client claimName s).1
  | none => none

/-- The disk identifier a volume stands for: the volume is backed by a claim,
the lookup of the claim succeeds, and the claim carries the label
`bosh.cloudfoundry.org/disk-id`; the identifier is `<context>:<label>`. -/
def diskOfVolume (env : Env) (client : Client) (context : String) (s : Cluster)
    (v : Volume) : Option String :=
  match claimLookup env client s v with
  | some (.ok pvc) =>
    match GoMap.lookup (entriesOf pvc.ObjectMeta.Labels) "bosh.cloudfoundry.org/disk-id" with
    | some label => some (NewDiskCID context label)
    | none => none
  | _ => none

/-- The error of the claim lookup of a volume, when it fails with anything but
a not-found status. -/
def lookupFailure (env : Env) (client : Client) (s : Cluster) (v : Volume) : Option Err :=
  match claimLookup env client s v with
  | some (.error e) => if isNotFoundStatusError e then none else some e
  | _ => none

/-! ## `actions/set_vm_metadata.go`, `actions/set_disk_metadata.go` and `actions/create_disk.go` -/

/-- Go `client.Core().PersistentVolumeClaims(ns)`: the typed client of the
namespace `ns`. The accessors `client.Pods()`, `client.PersistentVolumeClaims()`
and their siblings are the typed clients of `client.Namespace()`. -/
def Client.inNamespace (client : Client) (ns : String) : Client :=
  { client with Namespace := ns }

/-- The labels of an object after the server applied the patch: every entry of
the patch is written, in order; the empty patch changes nothing. -/
def Patch.apply (patch : Patch) (labels : Option (GoMap String)) : Option (GoMap String) :=
  match patch.Labels with
  | [] => labels
  | e :: rest =>
    some (List.foldl (fun m x => GoMap.set m x.1 x.2) (entriesOf labels) (e :: rest))

/-- Go `client.Pods().Patch(name, types.StrategicMergePatchType, patch)`: the
patch is applied to the stored pod of that name. -/
def podsPatch (env : Env) (client : Client) (name : String) (patch : Patch) (s : Cluster) :
    Res Pod × Cluster :=
  let a := Action.patchPod client.Namespace name patch
  let s1 := s.record a
  match env.fault a with
  | some e => (.error e, s1)
  | none =>
    match s1.findPod client.Namespace name with
    | some p =>
      let patched : Pod :=
        { p with ObjectMeta := { p.ObjectMeta with Labels := patch.apply p.ObjectMeta.Labels } }
      (.ok patched, { s1 with
        pods := List.map (fun q =>
          if q.ObjectMeta.isAt client.Namespace name then patched else q) s1.pods })
    | none => (.error (.status .notFound name), s1)

/-- Go `PersistentVolumeClaims(ns).Patch(name, types.StrategicMergePatchType,
patch)`: the patch is applied to the stored claim of that name. -/
def claimsPatch (env : Env) (client : Client) (name : String) (patch : Patch) (s : Cluster) :
    Res PersistentVolumeClaim × Cluster :=
  let a := Action.patchClaim client.Namespace name patch
  let s1 := s.record a
  match env.fault a with
  | some e => (.error e, s1)
  | none =>
    match s1.findClaim client.Namespace name with
    | some p =>
      let patched : PersistentVolumeClaim :=
        { p with ObjectMeta := { p.ObjectMeta with Labels := patch.apply p.ObjectMeta.Labels } }
      (.ok patched, { s1 with
        claims := List.map (fun q =>
          if q.ObjectMeta.isAt client.Namespace name then patched else q) s1.claims })
    | none => (.error (.status .notFound name), s1)

/-- Go `strategicpatch.CreateTwoWayMergePatch(old, new, obj)` for the documents
of an object before and after the label loop, which differ in `metadata.labels`
only and where `new` has every key of `old`: the patch holds the label entries
of `new` that `old` lacks or has with another value. -/
def CreateTwoWayMergePatch (old new : ObjectMeta) : Patch :=
  { Labels := List.filter
      (fun e => decide (GoMap.lookup (entriesOf old.Labels) e.1 ≠ some e.2))
      (entriesOf new.Labels) }

/-- The key the label loop writes for the metadata key `k`:
`"bosh.cloudfoundry.org/" + strings.ToLower(k)`. -/
def labelKey (env : Env) (k : String) : String :=
  "bosh.cloudfoundry.org/" ++ env.toLower k

/-- The condition of the label loop:
`len(validation.IsQualifiedName(k)) == 0 && len(validation.IsValidLabelValue(v)) == 0`
on the prefixed key. -/
def labelAccepted (env : Env) (k v : String) : Bool :=
  decide ((env.isQualifiedName (labelKey env k)).length = 0) &&
    decide ((env.isValidLabelValue v).length = 0)

/-- The range loop of `SetVMMetadata` and `SetDiskMetadata` over the metadata,
in the iteration order of the map, on the label map of the object; writing to a
nil label map panics. -/
def setLabels (env : Env) : GoMap String → Option (GoMap String) → Res (Option (GoMap String))
  | [], labels => .ok labels
  | (k, v) :: rest, labels =>
    if labelAccepted env k v then
      match labels with
      | none => .panic .nilMapAssignment
      | some m => setLabels env rest (some (GoMap.set m (labelKey env k) v))
    else setLabels env rest labels

/-- What the metadata patcher promises of the labels `sent` for an object that
has the labels `m`, with a pair called valid when its prefixed lowercased key
is a qualified name and its value is a valid label value, and with the
metadata in its iteration order. A valid pair with which every valid pair of
the same prefixed key agrees on the value is an entry of `sent` under its
prefixed key; the prefixed key of every valid pair is in `sent` with the value
of the valid pair of that key that is iterated last; every key that is not the
prefixed key of a valid pair reads in `sent` as it reads in `m`. -/
def taggedAs (env : Env) (metadata m sent : GoMap String) : Prop :=
  (∀ e ∈ metadata, labelAccepted env e.1 e.2 = true →
    (∀ e2 ∈ metadata, labelAccepted env e2.1 e2.2 = true →
      labelKey env e2.1 = labelKey env e.1 → e2.2 = e.2) →
    GoMap.lookup sent (labelKey env e.1) = some e.2) ∧
  (∀ e ∈ metadata, labelAccepted env e.1 e.2 = true →
    ∃ pre e2 post, metadata = pre ++ e2 :: post ∧
      labelAccepted env e2.1 e2.2 = true ∧
      labelKey env e2.1 = labelKey env e.1 ∧
      (∀ e3 ∈ post, labelAccepted env e3.1 e3.2 = true →
        labelKey env e3.1 ≠ labelKey env e.1) ∧
      GoMap.lookup sent (labelKey env e.1) = some e2.2) ∧
  (∀ q, (∀ e ∈ metadata, labelAccepted env e.1 e.2 = true → labelKey env e.1 ≠ q) →
    GoMap.lookup sent q = GoMap.lookup m q)

/-- Go `VMMetadataSetter.SetVMMetadata(vmcid, metadata)`; `json.Marshal` of the
pod and the computation of the patch are taken to succeed. -/
def SetVMMetadata (env : Env) (vmcid : String) (metadata : GoMap String) (s : Cluster) :
    Res Unit × Cluster :=
  match ParseVMCID vmcid with
  | .panic p => (.panic p, s)
  | .error e => (.error e, s)
  | .ok (context, agentID) =>
    let s1 := s.record (.newClient context)
    match env.newClient context with
    | .error e => (.error e, s1)
    | .ok client =>
      andThen (podsGet env client ("agent-" ++ agentID) s1) fun pod s2 =>
        match setLabels env metadata pod.ObjectMeta.Labels with
        | .panic p => (.panic p, s2)
        | .error e => (.error e, s2)
        | .ok labels =>
          let patch := CreateTwoWayMergePatch pod.ObjectMeta
            { pod.ObjectMeta with Labels := labels }
          andThen (podsPatch env client pod.ObjectMeta.Name patch s2) fun _ s3 =>
            (.ok (), s3)

/-- Go `DiskMetadataSetter.SetDiskMetadata(diskcid, metadata)`: the claim is read
and patched in the namespace `bosh`; `json.Marshal` of the claim and the
computation of the patch are taken to succeed. -/
def SetDiskMetadata (env : Env) (diskcid : String) (metadata : GoMap String) (s : Cluster) :
    Res Unit × Cluster :=
  match ParseDiskCID diskcid with
  | .panic p => (.panic p, s)
  | .error e => (.error e, s)
  | .ok (context, diskID) =>
    let s1 := s.record (.newClient context)
    match env.newClient context with
    | .error e => (.error e, s1)
    | .ok client =>
      andThen (claimsGet env (client.inNamespace "bosh") ("disk-" ++ diskID) s1)
        fun volume s2 =>
          match setLabels env metadata volume.ObjectMeta.Labels with
          | .panic p => (.panic p, s2)
          | .error e => (.error e, s2)
          | .ok labels =>
            let patch := CreateTwoWayMergePatch volume.ObjectMeta
              { volume.ObjectMeta with Labels := labels }
            andThen (claimsPatch env (client.inNamespace "bosh") volume.ObjectMeta.Name
              patch s2) fun _ s3 => (.ok (), s3)

/-- Go `CreateDiskCloudProperties`. -/
structure CreateDiskCloudProperties where
  Context : String := ""
  deriving DecidableEq, Repr

/-- Go `DiskCreator`; the client provider is part of the environment. -/
structure DiskCreator where
  GUIDGeneratorFunc : Unit → Except Err String

/-- The claim `CreateDisk` submits. -/
def diskClaim (diskID : String) (client : Client) (volumeSize : Quantity) :
    PersistentVolumeClaim :=
  { ObjectMeta :=
      { Name := "disk-" ++ diskID,
        Namespace := client.Namespace,
        Labels := some [("bosh.cloudfoundry.org/disk-id", diskID)] },
    AccessModes := ["ReadWriteOnce"],
    Requests := some [("storage", volumeSize)] }

/-- Go `DiskCreator.CreateDisk(size, cloudProps, vmcid)`; the poll loop on the
phase of the claim is the one of `createVarVcapVolume`. -/
def CreateDisk (d : DiskCreator) (env : Env) (size : Nat)
    (cloudProps : CreateDiskCloudProperties) (_vmcid : String) (s : Cluster) :
    Res String × Cluster :=
  match d.GUIDGeneratorFunc () with
  | .error e => (.error e, s)
  | .ok diskID =>
    match env.parseQuantity (toString size ++ "Mi") with
    | .error msg => (.error (.quantity msg), s)
    | .ok volumeSize =>
      let s1 := s.record (.newClient cloudProps.Context)
      match env.newClient cloudProps.Context with
      | .error e => (.error e, s1)
      | .ok client =>
        andThen (claimsCreate env client (diskClaim diskID client volumeSize) s1) fun _ s2 =>
        andThen (claimsGet env client ("disk-" ++ diskID) s2) fun volume s3 =>
        andThen (awaitBound env client ("disk-" ++ diskID) env.pendingPolls volume s3)
          fun _ s4 => (.ok (NewDiskCID client.Context diskID), s4)

/-! ## The settings document against the volume list -/

/-- The text after the given prefix, if the text starts with it. -/
def dropPrefix : List Char → List Char → Option (List Char)
  | [], l => some l
  | _ :: _, [] => none
  | p :: ps, c :: cs => if p = c then dropPrefix ps cs else none

/-- The disk ID of a volume named `disk-<id>`. -/
def diskIDOfName (n : String) : Option String :=
  match dropPrefix "disk-".data n.data with
  | some l => some (String.mk l)
  | none => none

/-- The disk identifiers wired into the volume list, in volume order. -/
def wiredCIDs (context : String) (spec : PodSpec) : List String :=
  spec.Volumes.filterMap (fun v =>
    match diskIDOfName v.Name with
    | some id => some (NewDiskCID context id)
    | none => none)

/-- The persistent-disk map contains exactly the disks wired into the volume
list. -/
def settingsMatchVolumes (context : String) (spec : PodSpec) (st : Settings) : Prop :=
  (∀ k ∈ GoMap.keys (entriesOf st.Persistent), k ∈ wiredCIDs context spec) ∧
  (∀ k ∈ wiredCIDs context spec, k ∈ GoMap.keys (entriesOf st.Persistent))

instance (context : String) (spec : PodSpec) (st : Settings) :
    Decidable (settingsMatchVolumes context spec st) :=
  inferInstanceAs (Decidable (
    (∀ k ∈ GoMap.keys (entriesOf st.Persistent), k ∈ wiredCIDs context spec) ∧
    (∀ k ∈ wiredCIDs context spec, k ∈ GoMap.keys (entriesOf st.Persistent))))

/-- The settings stored for the agent: the decoded `instance_settings` of the
config map `agent-<agentID>`. -/
def Cluster.settingsOf (s : Cluster) (ns agentID : String) : Option Settings :=
  match s.findConfigMap ns ("agent-" ++ agentID) with
  | some cm =>
    match GoMap.lookup (entriesOf cm.Data) "instance_settings" with
    | some (.settings st) => some st
    | _ => none
  | none => none

/-- The invariant of the settings document for one agent: the pod and the
settings exist and the map contains exactly the wired disks. -/
def consistent (client : Client) (agentID : String) (s : Cluster) : Prop :=
  match s.findPod client.Namespace ("agent-" ++ agentID),
      s.settingsOf client.Namespace agentID with
  | some pod, some st => settingsMatchVolumes client.Context pod.Spec st
  | _, _ => False

instance (client : Client) (agentID : String) (s : Cluster) :
    Decidable (consistent client agentID s) := by
  unfold consistent
  split
  · infer_instance
  · exact isFalse (fun h => h)

/-! ## Sample objects -/

/-- The settings volume `createPod` builds for the agent `agent-id`. -/
def sampleConfigVolume : Volume :=
  { Name := "bosh-config",
    VolumeSource := { ConfigMap := some ⟨"agent-agent-id",
      [{ Key := "instance_settings", Path := "instance_settings.json" }]⟩ } }

/-- The mount of the settings volume on the `bosh-job` container. -/
def sampleConfigMount : VolumeMount :=
  { Name := "bosh-config", MountPath := "/var/vcap/bosh/instance_settings.json",
    SubPath := "instance_settings.json" }

/-- A pod spec of the shape `createPod` builds, with a second container. -/
def sampleSpec : PodSpec :=
  { Hostname := "agent-id",
    Volumes := [
      sampleConfigVolume,
      { Name := "var-vcap",
        VolumeSource := { PersistentVolumeClaim := some "var-vcap-agent-id" } }],
    Containers := [
      { Name := "bosh-job", Image := "stemcell-name",
        VolumeMounts := [
          sampleConfigMount,
          { Name := "var-vcap", MountPath := "/var/vcap", SubPath := "vcap" }] },
      { Name := "ignored-name", Image := "ignored-image" }] }

/-- The sample spec with the disk `a` already attached. -/
def sampleSpecWithDisk : PodSpec := addVolume sampleSpec "a"

/-- The metadata of the test suite's agent pod and config map. -/
def sampleMeta : ObjectMeta :=
  { Name := "agent-agent-id", Namespace := "bosh-namespace",
    Annotations := some [("annotation-key", "annotation-value")],
    Labels := some [("key", "value")] }

/-- A running agent pod with the sample spec. -/
def samplePod : Pod :=
  { ObjectMeta := sampleMeta,
    Spec := sampleSpec,
    Status :=
      { Phase := "Running", PodIP := "1.2.3.4",
        ContainerStatuses := [{ Name := "bosh-job", Ready := true, Running := true }] } }

/-- The agent's config map with the settings document `{}`. -/
def sampleConfigMap : ConfigMap :=
  { ObjectMeta := sampleMeta,
    Data := some [("instance_settings", .settings {})] }

/-- A cluster holding the agent pod and its config map. -/
def sampleCluster : Cluster :=
  { pods := [samplePod], configMaps := [sampleConfigMap] }

/-- The client of the test suite. -/
def sampleClient : Client :=
  { Context := "context-name", Namespace := "bosh-namespace" }

/-- An environment in which every request succeeds and the watch reports the
recreated pod as running. -/
def sampleEnv : Env :=
  { newClient := fun _ => .ok sampleClient,
    events := [{ EventType := "MODIFIED", Object := .pod samplePod }] }

/-- The environment of the test `when deleting the pod fails`. -/
def deleteFailsEnv : Env :=
  { newClient := fun _ => .ok sampleClient,
    fault := fun a =>
      match a with
      | .deletePod _ _ _ => some (.other "delete-pods-welp")
      | _ => none,
    events := [{ EventType := "MODIFIED", Object := .pod samplePod }] }

/-- The volume manager of the test suite: 30 s readiness timeout. -/
def sampleManager : VolumeManager :=
  { PodReadyTimeout := 30000000000, PostRecreateDelay := 0 }

/-- The sample cluster after the settings patch of an attach of `disk-id`. -/
def samplePatched : Cluster :=
  (updateConfigMapDisks sampleEnv sampleClient .Add "agent-id" "disk-id" sampleCluster).2

/-- The sample cluster after a successful attach of `disk-id`. -/
def sampleAttached : Cluster :=
  (AttachDisk sampleManager sampleEnv "context-name:agent-id" "context-name:disk-id"
    sampleCluster).2

/-- A label matching for the sample environments: the selector `key=value`
selects the objects that carry the label `key` with the value `value`. -/
def sampleSelects (labelSelector : String) (labels : Option (GoMap String)) : Bool :=
  (entriesOf labels).any (fun e => decide (e.1 ++ "=" ++ e.2 = labelSelector))

/-- The client of the create tests. -/
def boshClient : Client :=
  { Context := "bosh", Namespace := "bosh-namespace" }

/-- The environment of the create tests: every request succeeds. -/
def boshEnv : Env :=
  { newClient := fun _ => .ok boshClient,
    selects := sampleSelects,
    parseQuantity := sampleParseQuantity }

/-- The creator of the create tests. -/
def sampleCreator : VMCreator :=
  { AgentConfig :=
      { Blobstore := "some-blbostore-config", MessageBus := "message-bus-url",
        NTPServers := ["1.example.org", "2.example.org"] } }

/-- The single dynamic network of the create tests. -/
def sampleNetworks : Networks :=
  [("dynamic-network", { Other := "dynamic" })]

/-- The cloud properties of the test `when service definitions are present`. -/
def sampleCloudProps : VMCloudProperties :=
  { Context := "bosh",
    Services := [
      { Name := "director", ServiceType := "NodePort",
        Ports := [
          { Name := "agent", Protocol := "TCP", Port := 6868, NodePort := 32068 },
          { Name := "director", Protocol := "TCP", Port := 25555, NodePort := 32067 }] },
      { Name := "blobstore", ClusterIP := "10.0.0.1",
        Ports := [{ Port := 25250, Protocol := "TCP" }] }] }

/-- A cluster in which the storage claim `var-vcap-agent-id` is left over from
an earlier creation and bound; nothing else exists. -/
def leftoverClaimCluster : Cluster :=
  { claims := [
      { ObjectMeta :=
          { Name := "var-vcap-agent-id", Namespace := "bosh-namespace",
            Labels := some [("bosh.cloudfoundry.org/var-vcap-id", "agent-id")] },
        AccessModes := ["ReadWriteOnce"],
        Requests := some [("storage", { text := "3Gi" })],
        Phase := "Bound" }] }

/-- A cluster in which the namespace of the client exists and nothing else. -/
def namespaceCluster : Cluster :=
  { namespaces := ["bosh-namespace"] }

/-- The cluster after the create of the test suite on an empty cluster. -/
def createdCluster : Cluster :=
  (Create sampleCreator boshEnv "agent-id" "sykesm/kubernetes-stemcell:999"
    { Context := "bosh" } sampleNetworks [] "env" {}).2

/-- The manual network of the test `when the network contains an IP`. -/
def manualNetwork : Network :=
  { IP := "1.2.3.4", Other := "manual" }

/-- The cluster after `createPod` for the manual network on an empty cluster. -/
def manualPodCluster : Cluster :=
  (createPod boshEnv boshClient "bosh-namespace" "agent-id" "sykesm/kubernetes-stemcell:999"
    manualNetwork {} {}).2

/-- An agent pod of four volumes: the settings volume, the `var-vcap` claim, the
disk `disk-id` and a disk whose claim is gone. -/
def diskPod : Pod :=
  { ObjectMeta := { Name := "agent-agent-id", Namespace := "bosh-namespace" },
    Spec :=
      { Volumes := [
          sampleConfigVolume,
          { Name := "var-vcap",
            VolumeSource := { PersistentVolumeClaim := some "var-vcap-agent-id" } },
          { Name := "disk-disk-id",
            VolumeSource := { PersistentVolumeClaim := some "disk-disk-id" } },
          { Name := "disk-gone",
            VolumeSource := { PersistentVolumeClaim := some "disk-gone" } }] } }

/-- A cluster with the pod of four volumes, the `var-vcap` claim without a disk
label and the claim of the disk `disk-id`. -/
def diskCluster : Cluster :=
  { pods := [diskPod],
    claims := [
      { ObjectMeta :=
          { Name := "var-vcap-agent-id", Namespace := "bosh-namespace",
            Labels := some [("bosh.cloudfoundry.org/var-vcap-id", "agent-id")] },
        Phase := "Bound" },
      { ObjectMeta :=
          { Name := "disk-disk-id", Namespace := "bosh-namespace",
            Labels := some [("bosh.cloudfoundry.org/disk-id", "disk-id")] },
        Phase := "Bound" }] }

/-- A toy `validation.IsQualifiedName` for the sample inputs: a name with a
blank is refused. -/
def sampleQualifiedName (name : String) : List String :=
  if ' ' ∈ name.data then ["name part must consist of alphanumeric characters"] else []

/-- A toy `validation.IsValidLabelValue` for the sample inputs: a value with an
asterisk is refused. -/
def sampleLabelValue (value : String) : List String :=
  if '*' ∈ value.data then ["a valid label must be an empty string or alphanumeric"] else []

/-- The environment of the metadata tests: every request succeeds. -/
def metadataEnv : Env :=
  { newClient := fun _ => .ok boshClient,
    selects := sampleSelects,
    parseQuantity := sampleParseQuantity,
    isQualifiedName := sampleQualifiedName,
    isValidLabelValue := sampleLabelValue }

/-- The metadata of the test `patches the pod with prefixed labels`. -/
def sampleMetadata : GoMap String :=
  [("deployment", "kube-test-bosh"), ("director", "bosh-init"), ("job", "bosh"),
   ("index", "0"), ("invalid key name", "good-value"),
   ("valid-key-name", "***invalid value***")]

/-- The pod of the metadata tests, with the label `key`. -/
def metadataPod : Pod :=
  { ObjectMeta :=
      { Name := "agent-agent-id", Namespace := "bosh-namespace",
        Labels := some [("key", "value")] } }

/-- A claim `disk-disk-id` in the namespace `bosh`, with the label `key`. -/
def metadataClaim : PersistentVolumeClaim :=
  { ObjectMeta :=
      { Name := "disk-disk-id", Namespace := "bosh",
        Labels := some [("key", "value")] },
    Phase := "Bound" }

/-- A cluster holding the pod of the metadata tests and the claim in the
namespace `bosh`. -/
def metadataCluster : Cluster :=
  { pods := [metadataPod], claims := [metadataClaim] }

/-- A disk creator whose identifier source returns `disk-guid`. -/
def sampleDiskCreator : DiskCreator :=
  { GUIDGeneratorFunc := fun _ => .ok "disk-guid" }

/-- The outcome of `CreateDisk` for 1000 MiB on an empty cluster, with the
client of the namespace `bosh-namespace`. -/
def createdDisk : Res String × Cluster :=
  CreateDisk sampleDiskCreator metadataEnv 1000 { Context := "bosh" } "bosh:agent-id" {}

/-- The watch event of the test step `transitioning bosh job container to
running`: the container is ready and running, the pod is still `Pending`. -/
def pendingEvent : WatchEvent :=
  { EventType := "MODIFIED",
    Object := .pod { samplePod with Status := { samplePod.Status with Phase := "Pending" } } }

/-- An environment in which the watch reports the pod as pending and then as
running. -/
def slowEnv : Env :=
  { newClient := fun _ => .ok sampleClient,
    events := [pendingEvent, { EventType := "MODIFIED", Object := .pod samplePod }] }

/-- The environment of the test `when the pod is not ready before the ready
timeout`: the watch reports the pod as pending and the timer fires. -/
def timeoutEnv : Env :=
  { newClient := fun _ => .ok sampleClient,
    events := [pendingEvent] }

/-- A cluster holding the agent pod as the server stores it, with a resource
version and a UID, and its config map. -/
def liveCluster : Cluster :=
  { pods := [
      { samplePod with
        ObjectMeta := { sampleMeta with ResourceVersion := "41", UID := "pod-uid" } }],
    configMaps := [sampleConfigMap] }

/-- A cluster holding the agent pod with the IP annotation `10.10.10.10`, as in
the test `when the ip-address annotation is present`, and its config map. -/
def annotatedCluster : Cluster :=
  { pods := [
      { samplePod with
        ObjectMeta := { sampleMeta with
          Annotations := some [("annotation-key", "annotation-value"),
            ("bosh.cloudfoundry.org/ip-address", "10.10.10.10")] } }],
    configMaps := [sampleConfigMap] }

/-- The volume manager of the test `waits for the post recreate duration`: 30 s
readiness timeout, 5 s post-recreate delay. -/
def delayManager : VolumeManager :=
  { PodReadyTimeout := 30000000000, PostRecreateDelay := 5000000000 }

/-- The cluster after the create of a VM with the two services of the cloud
properties, with an empty call log. -/
def serviceCluster : Cluster :=
  { (Create sampleCreator boshEnv "agent-id" "sykesm/kubernetes-stemcell:999"
      sampleCloudProps sampleNetworks [] "env" {}).2 with log := [] }

/-- An environment in which the delete of the service `blobstore` fails. -/
def serviceDeleteFailsEnv : Env :=
  { newClient := fun _ => .ok boshClient,
    selects := sampleSelects,
    parseQuantity := sampleParseQuantity,
    fault := fun a =>
      match a with
      | .deleteService _ name _ =>
        if name = "blobstore" then some (.other "delete-services-welp") else none
      | _ => none }

/-- An environment in which every list of pods fails and every other request
succeeds. -/
def listPodsFailsEnv : Env :=
  { newClient := fun _ => .ok boshClient,
    selects := sampleSelects,
    parseQuantity := sampleParseQuantity,
    fault := fun a =>
      match a with
      | .listPods _ _ => some (.other "list-pods-welp")
      | _ => none }

/-- The environment of the test `when creating a service fails`, for the
service `blobstore`: its create fails, every other request succeeds. -/
def serviceCreateFailsEnv : Env :=
  { newClient := fun _ => .ok boshClient,
    selects := sampleSelects,
    parseQuantity := sampleParseQuantity,
    fault := fun a =>
      match a with
      | .createService _ service =>
        if service.ObjectMeta.Name = "blobstore" then some (.other "service-welp") else none
      | _ => none }

/-! ## Lemmas on the codec -/

theorem cutColon_append (c l : List Char) (h : ':' ∉ c) :
    cutColon (c ++ ':' :: l) = some (c, l) := by
  induction c with
  | nil => simp [cutColon]
  | cons x xs ih =>
    have hx : x ≠ ':' := fun e => h (by simp [e])
    have hxs : ':' ∉ xs := fun e => h (by simp [e])
    simp [cutColon, hx, ih hxs]

theorem cutColon_eq_none (l : List Char) : cutColon l = none ↔ ':' ∉ l := by
  induction l with
  | nil => simp [cutColon]
  | cons x xs ih =>
    by_cases hx : x = ':'
    · simp [cutColon, hx]
    · have hx2 : ¬ (':' = x) := fun e => hx e.symm
      cases h : cutColon xs with
      | none => simp [cutColon, hx, hx2, h, ih.mp h]
      | some p =>
        have : ¬ (':' ∉ xs) := fun e => by simp [ih.mpr e] at h
        simp [cutColon, hx, hx2, h]
        simpa using this

theorem SplitN2_encode (context id : String) (h : ¬ hasColon context) :
    SplitN2 (context ++ ":" ++ id) = [context, id] := by
  have hd : (context ++ ":" ++ id).data = context.data ++ ':' :: id.data := by
    simp [String.data_append]
  unfold SplitN2
  rw [hd, cutColon_append _ _ h]

theorem firstTwo_SplitN2_of_colon (s : String) (h : hasColon s) :
    ∃ p, firstTwo (SplitN2 s) = .ok p := by
  unfold SplitN2
  cases hc : cutColon s.data with
  | none => exact absurd h ((cutColon_eq_none _).mp hc)
  | some p => exact ⟨(String.mk p.1, String.mk p.2), by simp [firstTwo]⟩

theorem firstTwo_SplitN2_of_no_colon (s : String) (h : ¬ hasColon s) :
    firstTwo (SplitN2 s) = .panic (.indexOutOfRange 1 1) := by
  unfold SplitN2
  rw [(cutColon_eq_none _).mpr h]
  rfl

/-! ## Lemmas on Go maps -/

theorem GoMap.lookup_eq_none_iff {V : Type} (m : GoMap V) (k : String) :
    GoMap.lookup m k = none ↔ k ∉ GoMap.keys m := by
  induction m with
  | nil => simp [GoMap.lookup, GoMap.keys]
  | cons e rest ih =>
    obtain ⟨k1, v⟩ := e
    by_cases hk : k1 = k
    · simp [GoMap.lookup, GoMap.keys, hk]
    · have hk2 : ¬ (k = k1) := fun h => hk h.symm
      simp only [GoMap.lookup, hk, if_false, ih]
      simp [GoMap.keys, hk2]

/-- Reading the key just written gives the written value. -/
theorem GoMap.lookup_set_self {V : Type} (m : GoMap V) (k : String) (v : V) :
    GoMap.lookup (GoMap.set m k v) k = some v := by
  induction m with
  | nil => simp [GoMap.set, GoMap.lookup]
  | cons e rest ih =>
    obtain ⟨k1, w⟩ := e
    by_cases h : k1 = k
    · simp [GoMap.set, GoMap.lookup, h]
    · simp [GoMap.set, GoMap.lookup, h, ih]

/-- Writing a key leaves every other key as it was. -/
theorem GoMap.lookup_set_other {V : Type} (m : GoMap V) (k k2 : String) (v : V)
    (hne : k2 ≠ k) : GoMap.lookup (GoMap.set m k v) k2 = GoMap.lookup m k2 := by
  have hne2 : ¬ (k = k2) := fun h => hne h.symm
  induction m with
  | nil => simp [GoMap.set, GoMap.lookup, hne2]
  | cons e rest ih =>
    obtain ⟨k1, w⟩ := e
    by_cases h : k1 = k
    · subst h
      simp [GoMap.set, GoMap.lookup, hne2]
    · by_cases h2 : k1 = k2
      · subst h2
        simp [GoMap.set, GoMap.lookup, h]
      · simp [GoMap.set, GoMap.lookup, h, h2, ih]

/-- After a delete the key is gone. -/
theorem GoMap.lookup_delete_self {V : Type} (m : GoMap V) (k : String) :
    GoMap.lookup (GoMap.delete m k) k = none := by
  induction m with
  | nil => simp [GoMap.delete, GoMap.lookup]
  | cons e rest ih =>
    obtain ⟨k1, w⟩ := e
    by_cases h : k1 = k
    · simp [GoMap.delete, h, ih]
    · simp [GoMap.delete, GoMap.lookup, h, ih]

/-- A delete leaves every other key as it was. -/
theorem GoMap.lookup_delete_other {V : Type} (m : GoMap V) (k k2 : String)
    (hne : k2 ≠ k) : GoMap.lookup (GoMap.delete m k) k2 = GoMap.lookup m k2 := by
  induction m with
  | nil => simp [GoMap.delete, GoMap.lookup]
  | cons e rest ih =>
    obtain ⟨k1, w⟩ := e
    by_cases h : k1 = k
    · subst h
      have h3 : ¬ (k1 = k2) := fun h => hne h.symm
      simp [GoMap.delete, GoMap.lookup, h3, ih]
    · by_cases h2 : k1 = k2
      · subst h2
        simp [GoMap.delete, GoMap.lookup, h]
      · simp [GoMap.delete, GoMap.lookup, h, h2, ih]

/-- Deleting a key the map does not have changes nothing. -/
theorem GoMap.delete_of_not_mem {V : Type} (m : GoMap V) (k : String)
    (h : k ∉ GoMap.keys m) : GoMap.delete m k = m := by
  induction m with
  | nil => simp [GoMap.delete]
  | cons e rest ih =>
    obtain ⟨k1, w⟩ := e
    have h1 : ¬ (k1 = k) := fun hk => h (by simp [GoMap.keys, hk])
    have h2 : k ∉ GoMap.keys rest := fun hk => h (by
      simp only [GoMap.keys, List.map_cons, List.mem_cons]
      exact Or.inr hk)
    simp [GoMap.delete, h1, ih h2]

/-- Writing a new key and deleting it again gives back the map, entry by entry
and in the same order. -/
theorem GoMap.delete_set_of_not_mem {V : Type} (m : GoMap V) (k : String) (v : V)
    (h : k ∉ GoMap.keys m) : GoMap.delete (GoMap.set m k v) k = m := by
  induction m with
  | nil => simp [GoMap.set, GoMap.delete]
  | cons e rest ih =>
    obtain ⟨k1, w⟩ := e
    have h1 : ¬ (k1 = k) := fun hk => h (by simp [GoMap.keys, hk])
    have h2 : k ∉ GoMap.keys rest := fun hk => h (by
      simp only [GoMap.keys, List.map_cons, List.mem_cons]
      exact Or.inr hk)
    simp [GoMap.set, GoMap.delete, h1, ih h2]

/-! ## Lemmas on the volume and mount splice -/

theorem diskName_ne_boshConfig (diskID : String) : "disk-" ++ diskID ≠ "bosh-config" := by
  intro h
  have := congrArg String.data h
  simp [String.data_append] at this

theorem isDiskName_disk (diskID : String) : isDiskName ("disk-" ++ diskID) = true := by
  simp [isDiskName, String.data_append, List.isPrefixOf]

theorem countP_eraseP_same {α : Type} (p : α → Bool) (l : List α) :
    (l.eraseP p).countP p = l.countP p - 1 := by
  induction l with
  | nil => simp
  | cons a t ih =>
    by_cases h : p a = true
    · simp [List.eraseP_cons_of_pos h, List.countP_cons, h]
    · rw [List.eraseP_cons_of_neg h, List.countP_cons, List.countP_cons, ih]
      simp [h]

theorem countP_eraseP_other {α : Type} (p q : α → Bool) (l : List α)
    (h : ∀ a, p a = true → q a = false) :
    (l.eraseP p).countP q = l.countP q := by
  induction l with
  | nil => simp
  | cons a t ih =>
    by_cases hp : p a = true
    · simp [List.eraseP_cons_of_pos hp, List.countP_cons, h a hp]
    · rw [List.eraseP_cons_of_neg hp, List.countP_cons, List.countP_cons, ih]

theorem filter_eraseP_other {α : Type} (p q : α → Bool) (l : List α)
    (h : ∀ a, p a = true → q a = false) :
    (l.eraseP p).filter q = l.filter q := by
  induction l with
  | nil => simp
  | cons a t ih =>
    by_cases hp : p a = true
    · simp [List.eraseP_cons_of_pos hp, List.filter_cons, h a hp]
    · rw [List.eraseP_cons_of_neg hp, List.filter_cons, List.filter_cons, ih]

theorem eraseP_append_single {α : Type} (p : α → Bool) (l : List α) (x : α)
    (hl : ∀ a ∈ l, ¬ p a = true) (hx : p x = true) : (l ++ [x]).eraseP p = l := by
  rw [List.eraseP_append_right _ hl, List.eraseP_cons_of_pos hx]
  simp

/-- The `bosh-job` mounts after `addVolume`, when the container exists. -/
theorem boshJobMounts_addVolume (spec : PodSpec) (diskID : String)
    (h : ∃ c ∈ spec.Containers, c.Name = "bosh-job") :
    boshJobMounts (addVolume spec diskID) =
      boshJobMounts spec ++ [{ Name := "disk-" ++ diskID, MountPath := "/mnt/" ++ diskID }] := by
  obtain ⟨cs⟩ : ∃ cs, cs = spec.Containers := ⟨_, rfl⟩
  unfold boshJobMounts addVolume
  simp only
  rename_i hcs
  rw [← hcs] at h ⊢
  clear hcs
  induction cs with
  | nil => simp at h
  | cons c rest ih =>
    by_cases hc : c.Name = "bosh-job"
    · simp [addMount, hc, List.find?]
    · have h2 : ∃ c ∈ rest, c.Name = "bosh-job" := by
        obtain ⟨d, hd, hn⟩ := h
        rcases List.mem_cons.mp hd with rfl | hr
        · exact absurd hn hc
        · exact ⟨d, hr, hn⟩
      simp [addMount, hc, List.find?, ih h2]

/-- The `bosh-job` mounts after `addVolume`, when no container has that name. -/
theorem addMount_of_no_boshJob (m : VolumeMount) (cs : List Container)
    (h : ∀ c ∈ cs, c.Name ≠ "bosh-job") : addMount m cs = cs := by
  induction cs with
  | nil => rfl
  | cons c rest ih =>
    have hc : c.Name ≠ "bosh-job" := h c (by simp)
    have hr : ∀ d ∈ rest, d.Name ≠ "bosh-job" := fun d hd => h d (by simp [hd])
    simp [addMount, hc, ih hr]

/-- The `bosh-job` mounts after `removeVolume`. -/
theorem boshJobMounts_removeVolume (spec : PodSpec) (diskID : String) :
    boshJobMounts (removeVolume spec diskID) =
      (boshJobMounts spec).eraseP (fun m => decide (m.Name = "disk-" ++ diskID)) := by
  obtain ⟨cs, hcs⟩ : ∃ cs, cs = spec.Containers := ⟨_, rfl⟩
  unfold boshJobMounts removeVolume
  simp only
  rw [← hcs]
  clear hcs
  induction cs with
  | nil => simp
  | cons c rest ih =>
    by_cases hc : c.Name = "bosh-job"
    · simp [hc, List.find?, removeMount]
    · simp only [List.map_cons, hc, if_false, List.find?, decide_False]
      exact ih

/-- Cutting out a mount the container does not have changes nothing. -/
theorem removeMount_of_absent (name : String) (c : Container)
    (h : ∀ m ∈ c.VolumeMounts, m.Name ≠ name) : removeMount name c = c := by
  unfold removeMount
  rw [List.eraseP_of_forall_not]
  intro m hm
  simpa using h m hm

/-- The container loop of `removeVolume` changes nothing when no `bosh-job`
container has a mount of the name. -/
theorem removeMounts_of_absent (name : String) (cs : List Container)
    (h : ∀ c ∈ cs, c.Name = "bosh-job" → ∀ m ∈ c.VolumeMounts, m.Name ≠ name) :
    cs.map (fun c => if c.Name = "bosh-job" then removeMount name c else c) = cs := by
  induction cs with
  | nil => rfl
  | cons c rest ih =>
    have hrest : ∀ d ∈ rest, d.Name = "bosh-job" → ∀ m ∈ d.VolumeMounts, m.Name ≠ name :=
      fun d hd => h d (by simp [hd])
    rw [List.map_cons, ih hrest]
    by_cases hc : c.Name = "bosh-job"
    · rw [if_pos hc, removeMount_of_absent name c (h c (by simp) hc)]
    · rw [if_neg hc]

/-- The container loop of `removeVolume` undoes the one of `addVolume`. -/
theorem removeMount_addMount (diskID : String) (cs : List Container)
    (h : ∀ c ∈ cs, c.Name = "bosh-job" →
      ∀ m ∈ c.VolumeMounts, m.Name ≠ "disk-" ++ diskID) :
    (addMount { Name := "disk-" ++ diskID, MountPath := "/mnt/" ++ diskID } cs).map
      (fun c => if c.Name = "bosh-job" then removeMount ("disk-" ++ diskID) c else c) = cs := by
  induction cs with
  | nil => rfl
  | cons c rest ih =>
    have hrest : ∀ d ∈ rest, d.Name = "bosh-job" →
        ∀ m ∈ d.VolumeMounts, m.Name ≠ "disk-" ++ diskID :=
      fun d hd => h d (by simp [hd])
    by_cases hc : c.Name = "bosh-job"
    · have he : (c.VolumeMounts ++
          [({ Name := "disk-" ++ diskID, MountPath := "/mnt/" ++ diskID } : VolumeMount)]).eraseP
            (fun m => decide (m.Name = "disk-" ++ diskID)) = c.VolumeMounts := by
        apply eraseP_append_single
        · intro a ha
          simpa using h c (by simp) hc a ha
        · simp
      have hc2 : ({ c with VolumeMounts := c.VolumeMounts ++
          [({ Name := "disk-" ++ diskID, MountPath := "/mnt/" ++ diskID } : VolumeMount)] }
            : Container).Name = "bosh-job" := hc
      unfold addMount
      rw [if_pos hc, List.map_cons, if_pos hc2, removeMounts_of_absent _ rest hrest]
      unfold removeMount
      simp only [he]
    · unfold addMount
      rw [if_neg hc, List.map_cons, if_neg hc, ih hrest]

/-- The mounts of a given name, container by container, after `addMount` of a
mount of another name. -/
theorem addMount_filter_other (m : VolumeMount) (name : String) (cs : List Container)
    (h : m.Name ≠ name) :
    (addMount m cs).map (fun c => (c.Name, c.VolumeMounts.filter (fun x => decide (x.Name = name)))) =
      cs.map (fun c => (c.Name, c.VolumeMounts.filter (fun x => decide (x.Name = name)))) := by
  induction cs with
  | nil => rfl
  | cons c rest ih =>
    by_cases hc : c.Name = "bosh-job"
    · simp [addMount, hc, List.filter_append, List.filter_cons, h]
    · simp [addMount, hc, ih]

/-- Count form of the 1:1 correspondence: for every disk name the number of
volumes and the number of `bosh-job` mounts of that name agree and are at most
one. -/
theorem diskCorrespondence_iff_count (spec : PodSpec) :
    diskCorrespondence spec ↔
      ∀ x : String, isDiskName x = true →
        spec.Volumes.countP (fun v => decide (v.Name = x)) =
          (boshJobMounts spec).countP (fun m => decide (m.Name = x)) ∧
        spec.Volumes.countP (fun v => decide (v.Name = x)) ≤ 1 := by
  constructor
  · rintro ⟨h1, h2⟩ x hx
    by_cases hv : 0 < spec.Volumes.countP (fun v => decide (v.Name = x))
    · obtain ⟨v, hvm, hvn⟩ := List.countP_pos_iff.mp hv
      have hvn2 : v.Name = x := by simpa using hvn
      have hm1 := h1 v hvm (by rw [hvn2]; exact hx)
      rw [hvn2] at hm1
      have hmpos : 0 < (boshJobMounts spec).countP (fun m => decide (m.Name = x)) := by
        rw [hm1]; exact Nat.one_pos
      obtain ⟨m, hmm, hmn⟩ := List.countP_pos_iff.mp hmpos
      have hmn2 : m.Name = x := by simpa using hmn
      have hv1 := h2 m hmm (by rw [hmn2]; exact hx)
      rw [hmn2] at hv1
      rw [hv1, hm1]
      exact ⟨rfl, le_refl 1⟩
    · have hv0 : spec.Volumes.countP (fun v => decide (v.Name = x)) = 0 := by omega
      have hm0 : (boshJobMounts spec).countP (fun m => decide (m.Name = x)) = 0 := by
        by_contra hne
        have hmpos : 0 < (boshJobMounts spec).countP (fun m => decide (m.Name = x)) := by
          omega
        obtain ⟨m, hmm, hmn⟩ := List.countP_pos_iff.mp hmpos
        have hmn2 : m.Name = x := by simpa using hmn
        have hv1 := h2 m hmm (by rw [hmn2]; exact hx)
        rw [hmn2] at hv1
        omega
      rw [hv0, hm0]
      exact ⟨rfl, Nat.zero_le 1⟩
  · intro h
    constructor
    · intro v hvm hvd
      obtain ⟨he, hle⟩ := h v.Name hvd
      have hpos : 0 < spec.Volumes.countP (fun w => decide (w.Name = v.Name)) :=
        List.countP_pos_iff.mpr ⟨v, hvm, by simp⟩
      omega
    · intro m hmm hmd
      obtain ⟨he, hle⟩ := h m.Name hmd
      have hpos : 0 < (boshJobMounts spec).countP (fun w => decide (w.Name = m.Name)) :=
        List.countP_pos_iff.mpr ⟨m, hmm, by simp⟩
      omega

/-- The volume and mount counts after `removeVolume`. -/
theorem removeVolume_counts (spec : PodSpec) (diskID x : String) :
    ((removeVolume spec diskID).Volumes.countP (fun v => decide (v.Name = x)) =
        if x = "disk-" ++ diskID then
          spec.Volumes.countP (fun v => decide (v.Name = x)) - 1
        else spec.Volumes.countP (fun v => decide (v.Name = x))) ∧
    ((boshJobMounts (removeVolume spec diskID)).countP (fun m => decide (m.Name = x)) =
        if x = "disk-" ++ diskID then
          (boshJobMounts spec).countP (fun m => decide (m.Name = x)) - 1
        else (boshJobMounts spec).countP (fun m => decide (m.Name = x))) := by
  rw [boshJobMounts_removeVolume]
  by_cases hx : x = "disk-" ++ diskID
  · subst hx
    simp only [if_true]
    exact ⟨countP_eraseP_same _ _, countP_eraseP_same _ _⟩
  · simp only [hx, if_false]
    constructor
    · show (spec.Volumes.eraseP _).countP _ = _
      apply countP_eraseP_other
      intro a ha
      have : a.Name = "disk-" ++ diskID := by simpa using ha
      simp [this, Ne.symm hx]
    · apply countP_eraseP_other
      intro a ha
      have : a.Name = "disk-" ++ diskID := by simpa using ha
      simp [this, Ne.symm hx]

/-- The volume and mount counts after `addVolume`, when the container exists. -/
theorem addVolume_counts (spec : PodSpec) (diskID x : String)
    (h : ∃ c ∈ spec.Containers, c.Name = "bosh-job") :
    ((addVolume spec diskID).Volumes.countP (fun v => decide (v.Name = x)) =
        spec.Volumes.countP (fun v => decide (v.Name = x)) +
          if x = "disk-" ++ diskID then 1 else 0) ∧
    ((boshJobMounts (addVolume spec diskID)).countP (fun m => decide (m.Name = x)) =
        (boshJobMounts spec).countP (fun m => decide (m.Name = x)) +
          if x = "disk-" ++ diskID then 1 else 0) := by
  rw [boshJobMounts_addVolume spec diskID h]
  have e : ("disk-" ++ diskID = x) ↔ (x = "disk-" ++ diskID) := eq_comm
  constructor
  · show (spec.Volumes ++ _).countP _ = _
    simp [List.countP_append, List.countP_cons, e]
  · simp [List.countP_append, List.countP_cons, e]

/-! ## Lemmas on the resource translation -/

theorem GoMap.set_of_not_mem {V : Type} (m : GoMap V) (k : String) (v : V)
    (h : k ∉ GoMap.keys m) : GoMap.set m k v = m ++ [(k, v)] := by
  induction m with
  | nil => rfl
  | cons e rest ih =>
    obtain ⟨k1, w⟩ := e
    have h1 : ¬ (k1 = k) := fun hk => h (by simp [GoMap.keys, hk])
    have h2 : k ∉ GoMap.keys rest := fun hk => h (by
      simp only [GoMap.keys, List.map_cons, List.mem_cons]
      exact Or.inr hk)
    simp [GoMap.set, h1, ih h2]

theorem kubeResourceName_ok (name n : String) (h : kubeResourceName name = .ok n) :
    n = name ∧ (name = "cpu" ∨ name = "memory") := by
  unfold kubeResourceName at h
  by_cases h1 : name = "memory"
  · rw [if_pos h1] at h
    injection h with h
    exact ⟨by rw [h1, h], Or.inr h1⟩
  · rw [if_neg h1] at h
    by_cases h2 : name = "cpu"
    · rw [if_pos h2] at h
      injection h with h
      exact ⟨by rw [h2, h], Or.inl h2⟩
    · rw [if_neg h2] at h
      cases h

theorem kubeResourceName_of_supported (name : String) (h : name = "cpu" ∨ name = "memory") :
    kubeResourceName name = .ok name := by
  rcases h with h | h <;> subst h <;> decide

/-- The loop succeeds exactly when every entry is accepted. -/
theorem getResourceListLoop_ok_iff (pq : String → Except String Quantity)
    (m : ResourceList) (acc : GoMap Quantity) :
    (∃ out, getResourceListLoop pq m acc = .ok out) ↔ ∀ e ∈ m, entryAccepted pq e := by
  induction m generalizing acc with
  | nil => simp [getResourceListLoop]
  | cons e rest ih =>
    obtain ⟨k, v⟩ := e
    constructor
    · rintro ⟨out, hout⟩
      unfold getResourceListLoop at hout
      cases hq : pq v with
      | error msg => rw [hq] at hout; cases hout
      | ok q =>
        rw [hq] at hout
        cases hn : kubeResourceName k with
        | error e => rw [hn] at hout; cases hout
        | panic p => rw [hn] at hout; cases hout
        | ok n =>
          rw [hn] at hout
          have hrest := (ih _).mp ⟨out, hout⟩
          intro e he
          rcases List.mem_cons.mp he with rfl | he
          · exact ⟨(kubeResourceName_ok k n hn).2, q, hq⟩
          · exact hrest e he
    · intro h
      obtain ⟨hk, q, hq⟩ := h (k, v) (by simp)
      have hrest : ∀ e ∈ rest, entryAccepted pq e := fun e he => h e (by simp [he])
      unfold getResourceListLoop
      simp only at hq hk
      rw [hq, kubeResourceName_of_supported k hk]
      exact (ih _).mpr hrest

/-- On a map (distinct keys, none of them written yet) a successful loop appends
the translated entries in order. -/
theorem getResourceListLoop_result (pq : String → Except String Quantity)
    (m : ResourceList) (acc out : GoMap Quantity)
    (h : getResourceListLoop pq m acc = .ok out)
    (hnd : (GoMap.keys acc ++ GoMap.keys m).Nodup) :
    ∃ l, out = acc ++ l ∧
      List.Forall₂ (fun e o => o.1 = e.1 ∧ pq e.2 = .ok o.2) m l := by
  induction m generalizing acc with
  | nil =>
    unfold getResourceListLoop at h
    injection h with h
    exact ⟨[], by simp [h], List.Forall₂.nil⟩
  | cons e rest ih =>
    obtain ⟨k, v⟩ := e
    unfold getResourceListLoop at h
    cases hq : pq v with
    | error msg => rw [hq] at h; cases h
    | ok q =>
      rw [hq] at h
      cases hn : kubeResourceName k with
      | error e => rw [hn] at h; cases h
      | panic p => rw [hn] at h; cases h
      | ok n =>
        rw [hn] at h
        simp only at h
        obtain ⟨hnk, _⟩ := kubeResourceName_ok k n hn
        subst hnk
        have hk : n ∉ GoMap.keys acc := by
          intro hmem
          have := List.disjoint_of_nodup_append hnd hmem
          exact this (by simp [GoMap.keys])
        rw [GoMap.set_of_not_mem acc n q hk] at h
        have hnd2 : (GoMap.keys (acc ++ [(n, q)]) ++ GoMap.keys rest).Nodup := by
          have : GoMap.keys (acc ++ [(n, q)]) ++ GoMap.keys rest =
              GoMap.keys acc ++ GoMap.keys ((n, v) :: rest) := by
            simp [GoMap.keys]
          rw [this]
          exact hnd
        obtain ⟨l, hl, hf⟩ := ih _ h hnd2
        refine ⟨(n, q) :: l, by simp [hl], List.Forall₂.cons ⟨rfl, hq⟩ hf⟩

theorem getResourceList_ok_iff (pq : String → Except String Quantity)
    (rl : Option ResourceList) :
    (∃ out, getResourceList pq rl = .ok out) ↔ ∀ e ∈ entriesOf rl, entryAccepted pq e := by
  cases rl with
  | none => simp [getResourceList, entriesOf]
  | some m =>
    rw [show entriesOf (some m) = m from rfl, ← getResourceListLoop_ok_iff pq m []]
    unfold getResourceList
    cases h : getResourceListLoop pq m [] <;> simp [h]

theorem getResourceList_result (pq : String → Except String Quantity)
    (rl : Option ResourceList) (out : Option (GoMap Quantity))
    (h : getResourceList pq rl = .ok out) (hwf : GoMap.WF (entriesOf rl)) :
    translated pq rl out := by
  cases rl with
  | none =>
    unfold getResourceList at h
    injection h with h
    subst h
    trivial
  | some m =>
    unfold getResourceList at h
    simp only at h
    cases hl : getResourceListLoop pq m [] with
    | error e => rw [hl] at h; cases h
    | panic p => rw [hl] at h; cases h
    | ok list =>
      rw [hl] at h
      injection h with h
      subst h
      obtain ⟨l, hl2, hf⟩ := getResourceListLoop_result pq m [] list hl (by
        simpa [GoMap.keys, GoMap.WF, entriesOf] using hwf)
      simp only [List.nil_append] at hl2
      subst hl2
      exact hf

/-! ## Lemmas on the settings document against the volume list -/

theorem GoMap.mem_keys_set {V : Type} (m : GoMap V) (k key : String) (v : V) :
    k ∈ GoMap.keys (GoMap.set m key v) ↔ k ∈ GoMap.keys m ∨ k = key := by
  induction m with
  | nil => simp [GoMap.set, GoMap.keys]
  | cons e rest ih =>
    obtain ⟨k1, w⟩ := e
    unfold GoMap.keys at ih ⊢
    by_cases h : k1 = key
    · subst h
      simp [GoMap.set]
      tauto
    · simp only [GoMap.set, h, if_false, List.map_cons, List.mem_cons, ih]
      tauto

theorem GoMap.mem_keys_delete {V : Type} (m : GoMap V) (k key : String) :
    k ∈ GoMap.keys (GoMap.delete m key) ↔ k ∈ GoMap.keys m ∧ k ≠ key := by
  induction m with
  | nil => simp [GoMap.delete, GoMap.keys]
  | cons e rest ih =>
    obtain ⟨k1, w⟩ := e
    unfold GoMap.keys at ih ⊢
    by_cases h : k1 = key
    · subst h
      simp only [GoMap.delete, if_true, ih, List.map_cons, List.mem_cons]
      constructor
      · rintro ⟨h1, h2⟩
        exact ⟨Or.inr h1, h2⟩
      · rintro ⟨h1 | h1, h2⟩
        · exact absurd h1 h2
        · exact ⟨h1, h2⟩
    · simp only [GoMap.delete, h, if_false, List.map_cons, List.mem_cons, ih]
      constructor
      · rintro (h1 | ⟨h1, h2⟩)
        · exact ⟨Or.inl h1, fun hk => h (by rw [← h1, hk])⟩
        · exact ⟨Or.inr h1, h2⟩
      · rintro ⟨h1 | h1, h2⟩
        · exact Or.inl h1
        · exact Or.inr ⟨h1, h2⟩

theorem dropPrefix_eq_some (p l r : List Char) (h : dropPrefix p l = some r) :
    l = p ++ r := by
  induction p generalizing l with
  | nil =>
    unfold dropPrefix at h
    injection h with h
  | cons x xs ih =>
    cases l with
    | nil => simp [dropPrefix] at h
    | cons c cs =>
      unfold dropPrefix at h
      by_cases hx : x = c
      · rw [if_pos hx] at h
        rw [hx, ih cs h]
        rfl
      · rw [if_neg hx] at h
        cases h

theorem dropPrefix_append (p r : List Char) : dropPrefix p (p ++ r) = some r := by
  induction p with
  | nil => simp [dropPrefix]
  | cons x xs ih => simp [dropPrefix, ih]

theorem diskIDOfName_disk (diskID : String) :
    diskIDOfName ("disk-" ++ diskID) = some diskID := by
  unfold diskIDOfName
  rw [String.data_append, dropPrefix_append]

theorem diskIDOfName_eq_some (n id : String) (h : diskIDOfName n = some id) :
    n = "disk-" ++ id := by
  unfold diskIDOfName at h
  cases hd : dropPrefix "disk-".data n.data with
  | none => rw [hd] at h; cases h
  | some l =>
    rw [hd] at h
    injection h with h
    apply String.ext
    rw [String.data_append, dropPrefix_eq_some _ _ _ hd, ← h]

theorem NewDiskCID_injective (context a b : String)
    (h : NewDiskCID context a = NewDiskCID context b) : a = b := by
  unfold NewDiskCID at h
  have := congrArg String.data h
  simp [String.data_append] at this
  exact String.ext this

/-- The volume is wired as the given disk identifier exactly when its name is
`disk-<id>`. -/
theorem wired_as_iff (context diskID : String) (v : Volume) :
    (match diskIDOfName v.Name with
      | some id => some (NewDiskCID context id)
      | none => none) = some (NewDiskCID context diskID) ↔ v.Name = "disk-" ++ diskID := by
  constructor
  · intro h
    cases hd : diskIDOfName v.Name with
    | none => rw [hd] at h; cases h
    | some id =>
      rw [hd] at h
      injection h with h
      rw [diskIDOfName_eq_some _ _ hd, NewDiskCID_injective _ _ _ h]
  · intro h
    rw [h, diskIDOfName_disk]

theorem wiredCIDs_addVolume (context diskID : String) (spec : PodSpec) :
    wiredCIDs context (addVolume spec diskID) =
      wiredCIDs context spec ++ [NewDiskCID context diskID] := by
  unfold wiredCIDs addVolume
  simp only [List.filterMap_append]
  congr 1

theorem mem_eraseP_of_count_le_one {α : Type} (p : α → Bool) (l : List α) (a : α)
    (h : l.countP p ≤ 1) : a ∈ l.eraseP p ↔ a ∈ l ∧ ¬ p a = true := by
  constructor
  · intro ha
    refine ⟨List.mem_of_mem_eraseP ha, fun hp => ?_⟩
    have hpos : 0 < (l.eraseP p).countP p := List.countP_pos_iff.mpr ⟨a, ha, hp⟩
    rw [countP_eraseP_same] at hpos
    omega
  · rintro ⟨ha, hp⟩
    exact (List.mem_eraseP_of_neg hp).mpr ha

theorem mem_wiredCIDs_removeVolume (context diskID k : String) (spec : PodSpec)
    (h : spec.Volumes.countP (fun v => decide (v.Name = "disk-" ++ diskID)) ≤ 1) :
    k ∈ wiredCIDs context (removeVolume spec diskID) ↔
      k ∈ wiredCIDs context spec ∧ k ≠ NewDiskCID context diskID := by
  unfold wiredCIDs removeVolume
  simp only [List.mem_filterMap]
  constructor
  · rintro ⟨v, hv, hk⟩
    obtain ⟨hvm, hvn⟩ := (mem_eraseP_of_count_le_one _ _ _ h).mp hv
    refine ⟨⟨v, hvm, hk⟩, fun hke => ?_⟩
    rw [hke] at hk
    exact hvn (by simpa using (wired_as_iff context diskID v).mp hk)
  · rintro ⟨⟨v, hvm, hk⟩, hne⟩
    refine ⟨v, (mem_eraseP_of_count_le_one _ _ _ h).mpr ⟨hvm, fun hp => hne ?_⟩, hk⟩
    have hn : v.Name = "disk-" ++ diskID := by simpa using hp
    have := (wired_as_iff context diskID v).mpr hn
    rw [this] at hk
    injection hk with hk
    exact hk.symm

/-- The splice and the settings patch of one operation keep the map equal to
the wired disks; a detach needs the volume name to occur at most once. -/
theorem settingsMatchVolumes_update (op : Operation) (context diskID : String)
    (spec : PodSpec) (st : Settings)
    (h : settingsMatchVolumes context spec st)
    (hdup : op = .Remove →
      spec.Volumes.countP (fun v => decide (v.Name = "disk-" ++ diskID)) ≤ 1) :
    settingsMatchVolumes context (updateVolumes op spec diskID)
      { st with Persistent :=
          patchPersistent op (NewDiskCID context diskID) diskID st.Persistent } := by
  have hiff : ∀ k, k ∈ GoMap.keys (entriesOf st.Persistent) ↔ k ∈ wiredCIDs context spec :=
    fun k => ⟨h.1 k, h.2 k⟩
  have hadd : entriesOf (patchPersistent .Add (NewDiskCID context diskID) diskID
      st.Persistent) = GoMap.set (entriesOf st.Persistent) (NewDiskCID context diskID)
        ("/mnt/" ++ diskID) := by
    cases st.Persistent <;> rfl
  have hrem : entriesOf (patchPersistent .Remove (NewDiskCID context diskID) diskID
      st.Persistent) = GoMap.delete (entriesOf st.Persistent) (NewDiskCID context diskID) := by
    cases st.Persistent <;> rfl
  suffices hs : ∀ k, k ∈ GoMap.keys (entriesOf
      (patchPersistent op (NewDiskCID context diskID) diskID st.Persistent)) ↔
      k ∈ wiredCIDs context (updateVolumes op spec diskID) from
    ⟨fun k hk => (hs k).mp hk, fun k hk => (hs k).mpr hk⟩
  intro k
  cases op with
  | Add =>
    rw [hadd, GoMap.mem_keys_set, hiff]
    show _ ↔ k ∈ wiredCIDs context (addVolume spec diskID)
    rw [wiredCIDs_addVolume, List.mem_append]
    simp
  | Remove =>
    rw [hrem, GoMap.mem_keys_delete, hiff]
    show _ ↔ k ∈ wiredCIDs context (removeVolume spec diskID)
    rw [mem_wiredCIDs_removeVolume _ _ _ _ (hdup rfl)]

/-! ## Lemmas on the cluster client -/

theorem find?_map_replace {α : Type} (p : α → Bool) (x : α) (l : List α)
    (hx : p x = true) :
    (l.map (fun c => if p c = true then x else c)).find? p =
      (l.find? p).map (fun _ => x) := by
  induction l with
  | nil => rfl
  | cons a t ih =>
    by_cases ha : p a = true
    · simp [List.find?, ha, hx]
    · simp only [List.map_cons, ha, if_false, List.find?, ih]
      simp [ha]

theorem ObjectMeta.isAt_iff (m : ObjectMeta) (ns name : String) :
    m.isAt ns name = true ↔ m.Namespace = ns ∧ m.Name = name := by
  simp [ObjectMeta.isAt]

theorem Cluster.findPod_some (s : Cluster) (ns name : String) (p : Pod)
    (h : s.findPod ns name = some p) :
    p.ObjectMeta.Namespace = ns ∧ p.ObjectMeta.Name = name := by
  unfold Cluster.findPod at h
  have h2 := List.find?_some h
  exact (ObjectMeta.isAt_iff p.ObjectMeta ns name).mp h2

theorem Cluster.findConfigMap_some (s : Cluster) (ns name : String) (c : ConfigMap)
    (h : s.findConfigMap ns name = some c) :
    c.ObjectMeta.Namespace = ns ∧ c.ObjectMeta.Name = name := by
  unfold Cluster.findConfigMap at h
  have h2 := List.find?_some h
  exact (ObjectMeta.isAt_iff c.ObjectMeta ns name).mp h2

/-- The invariant depends on the stored pods and config maps only. -/
theorem consistent_of_stores (client : Client) (agentID : String) (s t : Cluster)
    (hp : t.pods = s.pods) (hc : t.configMaps = s.configMaps)
    (h : consistent client agentID s) : consistent client agentID t := by
  unfold consistent Cluster.findPod Cluster.settingsOf Cluster.findConfigMap at h ⊢
  rw [hp, hc]
  exact h

theorem podsGet_state (env : Env) (client : Client) (name : String) (s : Cluster) :
    (podsGet env client name s).2 = s.record (.getPod client.Namespace name) := by
  unfold podsGet
  simp only
  cases env.fault (.getPod client.Namespace name) with
  | some e => rfl
  | none =>
    simp only
    cases (s.record (.getPod client.Namespace name)).findPod client.Namespace name <;> rfl

theorem podsDelete_ok (env : Env) (client : Client) (name : String) (g : Option Int)
    (s : Cluster) (pod : Pod)
    (hf : env.fault (.deletePod client.Namespace name g) = none)
    (hp : s.findPod client.Namespace name = some pod) :
    ∃ t, podsDelete env client name g s = (.ok (), t) ∧
      t.configMaps = s.configMaps ∧ t.findPod client.Namespace name = none := by
  have hrec : (s.record (.deletePod client.Namespace name g)).findPod client.Namespace name =
      some pod := hp
  refine ⟨{ s.record (.deletePod client.Namespace name g) with
      pods := List.filter (fun p => !p.ObjectMeta.isAt client.Namespace name) s.pods },
    by unfold podsDelete; simp only [hf, hrec]; rfl, rfl, ?_⟩
  unfold Cluster.findPod
  rw [List.find?_eq_none]
  intro x hx
  have := (List.mem_filter.mp hx).2
  simpa using this

theorem podsCreate_ok (env : Env) (client : Client) (pod : Pod) (s : Cluster)
    (hf : env.fault (.createPod client.Namespace pod) = none)
    (hns : pod.ObjectMeta.Namespace = client.Namespace)
    (hp : s.findPod client.Namespace pod.ObjectMeta.Name = none) :
    ∃ t, podsCreate env client pod s = (.ok pod, t) ∧
      t.configMaps = s.configMaps ∧
      t.findPod client.Namespace pod.ObjectMeta.Name = some pod := by
  have hstored : (if pod.ObjectMeta.Namespace = "" then
      ({ pod with ObjectMeta := { pod.ObjectMeta with Namespace := client.Namespace } } : Pod)
      else pod) = pod := by
    split
    · rw [← hns]
    · rfl
  have hrec : (s.record (.createPod client.Namespace pod)).findPod client.Namespace
      pod.ObjectMeta.Name = none := hp
  refine ⟨{ s.record (.createPod client.Namespace pod) with pods := s.pods ++ [pod] }, ?_, rfl, ?_⟩
  · unfold podsCreate
    simp only [hf]
    rw [hstored]
    simp only [hns, ne_eq, not_true_eq_false, if_false, hrec]
    rfl
  · unfold Cluster.findPod at hp ⊢
    simp only [List.find?_append, hp, Option.none_or]
    have : pod.ObjectMeta.isAt client.Namespace pod.ObjectMeta.Name = true :=
      (ObjectMeta.isAt_iff _ _ _).mpr ⟨hns, rfl⟩
    simp [List.find?, this]

theorem probeRounds_stores (a : Action) (n : Nat) (s : Cluster) :
    (probeRounds a n s).pods = s.pods ∧ (probeRounds a n s).configMaps = s.configMaps := by
  induction n generalizing s with
  | zero => exact ⟨rfl, rfl⟩
  | succ n ih =>
    unfold probeRounds
    exact ih _

theorem waitForPod_stores (vm : VolumeManager) (env : Env) (client : Client)
    (agentID rv : String) (s : Cluster) :
    (waitForPod vm env client agentID rv s).2.pods = s.pods ∧
    (waitForPod vm env client agentID rv s).2.configMaps = s.configMaps := by
  unfold waitForPod
  simp only
  split <;> exact ⟨rfl, rfl⟩

theorem WaitForPostPodDelay_stores (env : Env) (agentID : String) (client : Client)
    (s : Cluster) :
    (WaitForPostPodDelay env agentID client s).2.pods = s.pods ∧
    (WaitForPostPodDelay env agentID client s).2.configMaps = s.configMaps := by
  unfold WaitForPostPodDelay
  have hs := podsGet_state env client ("agent-" ++ agentID) s
  cases hg : podsGet env client ("agent-" ++ agentID) s with
  | mk r s1 =>
    rw [hg] at hs
    simp only at hs
    subst hs
    cases r with
    | error e => exact ⟨rfl, rfl⟩
    | panic p => exact ⟨rfl, rfl⟩
    | ok pod =>
      simp only [andThen]
      cases env.restConfig client.Context with
      | some e => exact ⟨rfl, rfl⟩
      | none =>
        simp only
        cases pod.Spec.Containers with
        | nil => exact ⟨rfl, rfl⟩
        | cons c rest =>
          simp only
          split
          · exact ⟨rfl, rfl⟩
          · exact probeRounds_stores _ _ _

/-- A get of a config map logs the call and either fails or returns the stored
object. -/
theorem configMapsGet_cases (env : Env) (client : Client) (name : String) (s : Cluster) :
    (∃ e, configMapsGet env client name s =
        (.error e, s.record (.getConfigMap client.Namespace name))) ∨
    (∃ cm, configMapsGet env client name s =
        (.ok cm, s.record (.getConfigMap client.Namespace name)) ∧
      s.findConfigMap client.Namespace name = some cm) := by
  have hrec : (s.record (.getConfigMap client.Namespace name)).findConfigMap
      client.Namespace name = s.findConfigMap client.Namespace name := rfl
  unfold configMapsGet
  simp only [hrec]
  cases env.fault (.getConfigMap client.Namespace name) with
  | some e => exact Or.inl ⟨e, rfl⟩
  | none =>
    cases hp : s.findConfigMap client.Namespace name with
    | none => exact Or.inl ⟨_, rfl⟩
    | some cm => exact Or.inr ⟨cm, rfl, rfl⟩

/-- An update either fails and leaves the stores as they are, or replaces the
stored config map of that name by the submitted one. -/
theorem configMapsUpdate_cases (env : Env) (client : Client) (cm : ConfigMap) (s : Cluster)
    (old : ConfigMap)
    (hold : s.findConfigMap client.Namespace cm.ObjectMeta.Name = some old)
    (hns : cm.ObjectMeta.Namespace = client.Namespace) :
    (∃ e t, configMapsUpdate env client cm s = (.error e, t) ∧
        t.pods = s.pods ∧ t.configMaps = s.configMaps) ∨
    (∃ t, configMapsUpdate env client cm s = (.ok cm, t) ∧ t.pods = s.pods ∧
        t.findConfigMap client.Namespace cm.ObjectMeta.Name = some cm) := by
  have hrec : (s.record (.updateConfigMap client.Namespace cm)).findConfigMap
      client.Namespace cm.ObjectMeta.Name = some old := hold
  cases hf : env.fault (.updateConfigMap client.Namespace cm) with
  | some e =>
    exact Or.inl ⟨e, s.record (.updateConfigMap client.Namespace cm),
      by unfold configMapsUpdate; simp only [hf], rfl, rfl⟩
  | none =>
    refine Or.inr ⟨{ s.record (.updateConfigMap client.Namespace cm) with
      configMaps := List.map (fun c =>
          if c.ObjectMeta.isAt client.Namespace cm.ObjectMeta.Name then cm else c)
          s.configMaps },
      by unfold configMapsUpdate; simp only [hf, hrec]; rfl, rfl, ?_⟩
    unfold Cluster.findConfigMap at hold ⊢
    have hcm : cm.ObjectMeta.isAt client.Namespace cm.ObjectMeta.Name = true :=
      (ObjectMeta.isAt_iff _ _ _).mpr ⟨hns, rfl⟩
    have := find?_map_replace
      (fun c : ConfigMap => c.ObjectMeta.isAt client.Namespace cm.ObjectMeta.Name)
      cm s.configMaps hcm
    simp only at this
    show List.find? _ (List.map _ s.configMaps) = some cm
    rw [this, hold]
    rfl

/-- The settings patch either fails and leaves the stores as they are, or
stores the settings with the patched persistent-disk map and nothing else
changed. It does not touch the pods. -/
theorem updateConfigMapDisks_cases (env : Env) (client : Client) (op : Operation)
    (agentID diskID : String) (s : Cluster) :
    (∃ e t, updateConfigMapDisks env client op agentID diskID s = (.error e, t) ∧
        t.pods = s.pods ∧ t.configMaps = s.configMaps) ∨
    (∃ t st, updateConfigMapDisks env client op agentID diskID s = (.ok (), t) ∧
        t.pods = s.pods ∧
        s.settingsOf client.Namespace agentID = some st ∧
        t.settingsOf client.Namespace agentID =
          some { st with Persistent :=
            patchPersistent op (NewDiskCID client.Context diskID) diskID st.Persistent }) := by
  unfold updateConfigMapDisks
  rcases configMapsGet_cases env client ("agent-" ++ agentID) s with
    ⟨e, hg⟩ | ⟨cm, hg, hfind⟩
  · rw [hg]
    exact Or.inl ⟨e, _, rfl, rfl, rfl⟩
  · rw [hg]
    simp only [andThen]
    cases hl : GoMap.lookup (entriesOf cm.Data) "instance_settings" with
    | none => exact Or.inl ⟨_, _, rfl, rfl, rfl⟩
    | some d =>
      cases d with
      | text t => exact Or.inl ⟨_, _, rfl, rfl, rfl⟩
      | settings st =>
        simp only
        have hat := Cluster.findConfigMap_some _ _ _ _ hfind
        have hname : (patchedConfigMap op client.Context diskID cm st).ObjectMeta.Name =
            "agent-" ++ agentID := hat.2
        rcases configMapsUpdate_cases env client
            (patchedConfigMap op client.Context diskID cm st)
            (s.record (.getConfigMap client.Namespace ("agent-" ++ agentID))) cm
            (by rw [hname]; exact hfind) hat.1 with
          ⟨e, t, hu, hp, hc⟩ | ⟨t, hu, hp, hc⟩
        · rw [hu]
          exact Or.inl ⟨e, t, rfl, hp, hc⟩
        · rw [hu]
          refine Or.inr ⟨t, st, rfl, hp, ?_, ?_⟩
          · unfold Cluster.settingsOf
            rw [hfind]
            simp only [hl]
          · unfold Cluster.settingsOf
            rw [hname] at hc
            rw [hc]
            simp only [patchedConfigMap, entriesOf, GoMap.lookup_set_self]

/-- A get of a pod logs the call and either fails or returns the stored pod. -/
theorem podsGet_cases (env : Env) (client : Client) (name : String) (s : Cluster) :
    (∃ e, podsGet env client name s =
        (.error e, s.record (.getPod client.Namespace name))) ∨
    (∃ pod, podsGet env client name s =
        (.ok pod, s.record (.getPod client.Namespace name)) ∧
      s.findPod client.Namespace name = some pod) := by
  have hrec : (s.record (.getPod client.Namespace name)).findPod
      client.Namespace name = s.findPod client.Namespace name := rfl
  unfold podsGet
  simp only [hrec]
  cases env.fault (.getPod client.Namespace name) with
  | some e => exact Or.inl ⟨e, rfl⟩
  | none =>
    cases hp : s.findPod client.Namespace name with
    | none => exact Or.inl ⟨_, rfl⟩
    | some pod => exact Or.inr ⟨pod, rfl, rfl⟩

theorem settingsOf_of_configMaps (s t : Cluster) (ns agentID : String)
    (h : t.configMaps = s.configMaps) : t.settingsOf ns agentID = s.settingsOf ns agentID := by
  unfold Cluster.settingsOf Cluster.findConfigMap
  rw [h]

theorem findPod_of_pods (s t : Cluster) (ns name : String)
    (h : t.pods = s.pods) : t.findPod ns name = s.findPod ns name := by
  unfold Cluster.findPod
  rw [h]

/-- The tail of `recreatePod` after the create: the readiness wait and the
post-recreate probe leave the stores as they are, whatever they return. -/
theorem recreatePod_tail_stores (vm : VolumeManager) (env : Env) (client : Client)
    (agentID rv : String) (s : Cluster) :
    ((andThen (waitForPod vm env client agentID rv s) fun ready s5 =>
        if !ready then (.error .recreateTimeout, s5)
        else
          match WaitForPostPodDelay env agentID client s5 with
          | (.panic p, s6) => (.panic p, s6)
          | (_, s6) => ((.ok () : Res Unit), s6)).2.pods = s.pods) ∧
    ((andThen (waitForPod vm env client agentID rv s) fun ready s5 =>
        if !ready then (.error .recreateTimeout, s5)
        else
          match WaitForPostPodDelay env agentID client s5 with
          | (.panic p, s6) => (.panic p, s6)
          | (_, s6) => ((.ok () : Res Unit), s6)).2.configMaps = s.configMaps) := by
  obtain ⟨hw1, hw2⟩ := waitForPod_stores vm env client agentID rv s
  cases hw : waitForPod vm env client agentID rv s with
  | mk r s5 =>
    rw [hw] at hw1 hw2
    simp only at hw1 hw2
    cases r with
    | error e => exact ⟨hw1, hw2⟩
    | panic p => exact ⟨hw1, hw2⟩
    | ok ready =>
      simp only [andThen]
      cases ready with
      | false => exact ⟨hw1, hw2⟩
      | true =>
        obtain ⟨hp1, hp2⟩ := WaitForPostPodDelay_stores env agentID client s5
        simp only [Bool.not_true, Bool.false_eq_true, if_false]
        cases hpp : WaitForPostPodDelay env agentID client s5 with
        | mk r6 s6 =>
          rw [hpp] at hp1 hp2
          simp only at hp1 hp2
          cases r6 <;> exact ⟨hp1.trans hw1, hp2.trans hw2⟩

/-- The invariant across `recreatePod`, when the pod delete and the pod create
are not made to fail. -/
theorem recreatePod_consistent (vm : VolumeManager) (env : Env) (client : Client)
    (op : Operation) (agentID diskID : String) (s : Cluster)
    (hcons : consistent client agentID s)
    (hdel : ∀ g, env.fault (.deletePod client.Namespace ("agent-" ++ agentID) g) = none)
    (hcreate : ∀ p, env.fault (.createPod client.Namespace p) = none)
    (hdup : op = .Remove → ∀ pod,
      s.findPod client.Namespace ("agent-" ++ agentID) = some pod →
      pod.Spec.Volumes.countP (fun v => decide (v.Name = "disk-" ++ diskID)) ≤ 1) :
    consistent client agentID (recreatePod vm env client op agentID diskID s).2 := by
  unfold recreatePod
  rcases podsGet_cases env client ("agent-" ++ agentID) s with ⟨e, hg⟩ | ⟨pod, hg, hfind⟩
  · rw [hg]
    exact consistent_of_stores client agentID s _ rfl rfl hcons
  rw [hg]
  simp only [andThen]
  rcases updateConfigMapDisks_cases env client op agentID diskID
      (s.record (.getPod client.Namespace ("agent-" ++ agentID))) with
    ⟨e, t, hu, hp, hc⟩ | ⟨t, st, hu, hp, hst, hst1⟩
  · rw [hu]
    exact consistent_of_stores client agentID s _ hp hc hcons
  rw [hu]
  simp only
  have hfind2 : t.findPod client.Namespace ("agent-" ++ agentID) = some pod := by
    rw [findPod_of_pods _ t _ _ hp]
    exact hfind
  obtain ⟨t3, hd3, hc3, hf3⟩ := podsDelete_ok env client ("agent-" ++ agentID) (some 0) t pod
    (hdel _) hfind2
  rw [hd3]
  simp only
  obtain ⟨hpns, hpname⟩ := Cluster.findPod_some _ _ _ _ hfind
  have hrname : (recreatedPod op pod diskID).ObjectMeta.Name = "agent-" ++ agentID := hpname
  obtain ⟨t4, hc4, hcm4, hf4⟩ := podsCreate_ok env client (recreatedPod op pod diskID) t3
    (hcreate _) hpns (by rw [hrname]; exact hf3)
  rw [hc4]
  simp only
  obtain ⟨hq1, hq2⟩ := recreatePod_tail_stores vm env client agentID
    (recreatedPod op pod diskID).ObjectMeta.ResourceVersion t4
  have hst0 : s.settingsOf client.Namespace agentID = some st := hst
  have hmatch : settingsMatchVolumes client.Context pod.Spec st := by
    unfold consistent at hcons
    rw [hfind, hst0] at hcons
    exact hcons
  have hfinal : consistent client agentID t4 := by
    unfold consistent
    rw [hrname] at hf4
    rw [hf4, settingsOf_of_configMaps t3 t4 _ _ hcm4, settingsOf_of_configMaps t t3 _ _ hc3,
      hst1]
    exact settingsMatchVolumes_update op client.Context diskID pod.Spec st hmatch
      (fun hop => hdup hop pod hfind)
  exact consistent_of_stores client agentID t4 _ hq1 hq2 hfinal

/-! ## The identifier codec: round trip and failure -/

/-- C1: for every context without a colon and every local ID (empty or with
colons), decoding the encoded identifier gives back the pair, for VM and for
disk identifiers. -/
theorem parse_new_roundtrip (context id : String) (h : ¬ hasColon context) :
    ParseVMCID (NewVMCID context id) = .ok (context, id) ∧
    ParseDiskCID (NewDiskCID context id) = .ok (context, id) := by
  unfold ParseVMCID ParseDiskCID NewVMCID NewDiskCID
  rw [SplitN2_encode context id h]
  exact ⟨rfl, rfl⟩

/-- Witness of C1 at context `ctx` and the local ID `a:b`, which has a colon. -/
theorem parse_new_roundtrip_witness :
    ¬ hasColon "ctx" ∧
    ParseVMCID (NewVMCID "ctx" "a:b") = .ok ("ctx", "a:b") ∧
    ParseDiskCID (NewDiskCID "ctx" "a:b") = .ok ("ctx", "a:b") :=
  ⟨by decide, parse_new_roundtrip "ctx" "a:b" (by decide)⟩

/-- C2, as the claim states it, fails: on the colon-free identifier `abc` both
decoders panic on the out-of-range index and return no error value. -/
theorem parse_no_colon_panics :
    ParseVMCID "abc" = .panic (.indexOutOfRange 1 1) ∧
    ParseDiskCID "abc" = .panic (.indexOutOfRange 1 1) ∧
    ¬ (∃ e, ParseVMCID "abc" = .error e) ∧
    ¬ (∃ e, ParseDiskCID "abc" = .error e) := by
  refine ⟨by decide, by decide, ?_, ?_⟩
  · rintro ⟨e, he⟩
    have h : ParseVMCID "abc" = .panic (.indexOutOfRange 1 1) := by decide
    rw [h] at he
    cases he
  · rintro ⟨e, he⟩
    have h : ParseDiskCID "abc" = .panic (.indexOutOfRange 1 1) := by decide
    rw [h] at he
    cases he

/-- C2, amended: decoding succeeds exactly when the identifier contains a colon;
when it contains none, both decoders panic with index 1 out of range for
length 1, and no decoder ever returns an error value. -/
theorem parse_succeeds_iff_colon (s : String) :
    ((∃ p, ParseVMCID s = .ok p) ↔ hasColon s) ∧
    ((∃ p, ParseDiskCID s = .ok p) ↔ hasColon s) ∧
    (¬ hasColon s → ParseVMCID s = .panic (.indexOutOfRange 1 1) ∧
      ParseDiskCID s = .panic (.indexOutOfRange 1 1)) ∧
    (∀ e, ParseVMCID s ≠ .error e ∧ ParseDiskCID s ≠ .error e) := by
  have key : (∃ p, firstTwo (SplitN2 s) = .ok p) ↔ hasColon s := by
    constructor
    · rintro ⟨p, hp⟩
      by_contra hc
      rw [firstTwo_SplitN2_of_no_colon s hc] at hp
      cases hp
    · exact firstTwo_SplitN2_of_colon s
  have noerr : ∀ e, firstTwo (SplitN2 s) ≠ .error e := by
    intro e he
    by_cases hc : hasColon s
    · obtain ⟨p, hp⟩ := firstTwo_SplitN2_of_colon s hc
      rw [hp] at he
      cases he
    · rw [firstTwo_SplitN2_of_no_colon s hc] at he
      cases he
  refine ⟨key, key, fun hc => ⟨firstTwo_SplitN2_of_no_colon s hc,
    firstTwo_SplitN2_of_no_colon s hc⟩, fun e => ⟨noerr e, noerr e⟩⟩

/-- Witness of the amended C2 at the colon-free identifier `abc`. -/
theorem parse_succeeds_iff_colon_witness :
    ¬ hasColon "abc" ∧ ParseVMCID "abc" = .panic (.indexOutOfRange 1 1) ∧
      ParseDiskCID "abc" = .panic (.indexOutOfRange 1 1) :=
  ⟨by decide, (parse_succeeds_iff_colon "abc").2.2.1 (by decide)⟩

/-! ## Attach then detach: round trip -/

/-- C4: on a pod spec with no volume and no `bosh-job` mount named `disk-<id>`
and a persistent-disk map with no entry for the disk identifier, detach after
attach restores the spec (volume list and every mount list) and the map. -/
theorem attach_detach_roundtrip (spec : PodSpec) (context diskID : String)
    (persistent : Option (GoMap String))
    (hv : ∀ v ∈ spec.Volumes, v.Name ≠ "disk-" ++ diskID)
    (hm : ∀ c ∈ spec.Containers, c.Name = "bosh-job" →
      ∀ m ∈ c.VolumeMounts, m.Name ≠ "disk-" ++ diskID)
    (hp : NewDiskCID context diskID ∉ GoMap.keys (entriesOf persistent)) :
    removeVolume (addVolume spec diskID) diskID = spec ∧
    (removeVolume (addVolume spec diskID) diskID).Volumes = spec.Volumes ∧
    (removeVolume (addVolume spec diskID) diskID).Containers.map (fun c => c.VolumeMounts) =
      spec.Containers.map (fun c => c.VolumeMounts) ∧
    entriesOf (patchPersistent .Remove (NewDiskCID context diskID) diskID
      (patchPersistent .Add (NewDiskCID context diskID) diskID persistent)) =
      entriesOf persistent := by
  have hvol : (spec.Volumes ++
      [({ Name := "disk-" ++ diskID,
          VolumeSource := { PersistentVolumeClaim := some ("disk-" ++ diskID) } } : Volume)]).eraseP
        (fun v => decide (v.Name = "disk-" ++ diskID)) = spec.Volumes := by
    apply eraseP_append_single
    · intro a ha
      simpa using hv a ha
    · simp
  have hcont := removeMount_addMount diskID spec.Containers hm
  have hspec : removeVolume (addVolume spec diskID) diskID = spec := by
    unfold removeVolume addVolume
    simp only [hvol, hcont]
  refine ⟨hspec, by rw [hspec], by rw [hspec], ?_⟩
  cases persistent with
  | none =>
    simp [patchPersistent, entriesOf, GoMap.set, GoMap.delete]
  | some m =>
    simp only [patchPersistent, entriesOf]
    exact GoMap.delete_set_of_not_mem m _ _ hp

/-- Witness of C4 on the sample spec, disk `a` and a map holding another disk. -/
theorem attach_detach_roundtrip_witness :
    removeVolume (addVolume sampleSpec "a") "a" = sampleSpec ∧
    (removeVolume (addVolume sampleSpec "a") "a").Volumes = sampleSpec.Volumes ∧
    (removeVolume (addVolume sampleSpec "a") "a").Containers.map (fun c => c.VolumeMounts) =
      sampleSpec.Containers.map (fun c => c.VolumeMounts) ∧
    entriesOf (patchPersistent .Remove (NewDiskCID "ctx" "a") "a"
      (patchPersistent .Add (NewDiskCID "ctx" "a") "a" (some [("ctx:b", "/mnt/b")]))) =
      entriesOf (some [("ctx:b", "/mnt/b")]) :=
  attach_detach_roundtrip sampleSpec "ctx" "a" (some [("ctx:b", "/mnt/b")])
    (by decide) (by decide) (by decide)

/-! ## The 1:1 correspondence of disk volumes and mounts -/

/-- C7, as the claim states it, fails for `addVolume`: attaching the disk `a`
to a spec that already has it leaves two volumes and two mounts of one name. -/
theorem addVolume_breaks_correspondence :
    diskCorrespondence sampleSpecWithDisk ∧
    ¬ diskCorrespondence (addVolume sampleSpecWithDisk "a") := by
  decide

/-- C7, amended: from a spec in 1:1 correspondence, `removeVolume` gives a spec
in 1:1 correspondence for every disk ID, and so does `addVolume` for every disk
ID whose volume `disk-<id>` the spec does not have yet, when the spec has a
container named `bosh-job`. -/
theorem splice_keeps_correspondence (spec : PodSpec) (diskID : String)
    (h : diskCorrespondence spec) :
    diskCorrespondence (removeVolume spec diskID) ∧
    ((∃ c ∈ spec.Containers, c.Name = "bosh-job") →
      (∀ v ∈ spec.Volumes, v.Name ≠ "disk-" ++ diskID) →
      diskCorrespondence (addVolume spec diskID)) := by
  rw [diskCorrespondence_iff_count] at h
  constructor
  · rw [diskCorrespondence_iff_count]
    intro x hx
    obtain ⟨he, hle⟩ := h x hx
    obtain ⟨hv, hm⟩ := removeVolume_counts spec diskID x
    rw [hv, hm]
    split <;> omega
  · intro hc hv
    rw [diskCorrespondence_iff_count]
    intro x hx
    obtain ⟨he, hle⟩ := h x hx
    obtain ⟨hv2, hm2⟩ := addVolume_counts spec diskID x hc
    rw [hv2, hm2]
    by_cases hxe : x = "disk-" ++ diskID
    · have h0 : spec.Volumes.countP (fun v => decide (v.Name = x)) = 0 := by
        rw [List.countP_eq_zero]
        intro a ha
        simpa [hxe] using hv a ha
      simp only [hxe, if_true]
      rw [hxe] at h0 he
      omega
    · simp only [hxe, if_false]
      omega

/-- Witness of the amended C7: the spec with disk `a` stays in correspondence
when `a` is detached and when a new disk `b` is attached. -/
theorem splice_keeps_correspondence_witness :
    diskCorrespondence sampleSpecWithDisk ∧
    diskCorrespondence (removeVolume sampleSpecWithDisk "a") ∧
    diskCorrespondence (addVolume sampleSpecWithDisk "b") :=
  ⟨by decide,
   (splice_keeps_correspondence sampleSpecWithDisk "a" (by decide)).1,
   (splice_keeps_correspondence sampleSpecWithDisk "b" (by decide)).2
     (by decide) (by decide)⟩

/-! ## The settings volume -/

/-- C8: on a spec that has the settings volume `bosh-config` and its mount on
the `bosh-job` container, `updateVolumes` keeps both, for every disk ID and
either operation: the volume and the mount are still there, the list of
volumes named `bosh-config` is the same list, and every container keeps its
name and its list of mounts named `bosh-config`. -/
theorem updateVolumes_keeps_settings_volume (op : Operation) (spec : PodSpec)
    (diskID : String) (v : Volume) (m : VolumeMount)
    (hv : v ∈ spec.Volumes) (hvn : v.Name = "bosh-config")
    (hm : m ∈ boshJobMounts spec) (hmn : m.Name = "bosh-config") :
    v ∈ (updateVolumes op spec diskID).Volumes ∧
    m ∈ boshJobMounts (updateVolumes op spec diskID) ∧
    (updateVolumes op spec diskID).Volumes.filter (fun w => decide (w.Name = "bosh-config")) =
      spec.Volumes.filter (fun w => decide (w.Name = "bosh-config")) ∧
    (updateVolumes op spec diskID).Containers.map
        (fun c => (c.Name, c.VolumeMounts.filter (fun w => decide (w.Name = "bosh-config")))) =
      spec.Containers.map
        (fun c => (c.Name, c.VolumeMounts.filter (fun w => decide (w.Name = "bosh-config")))) := by
  have hne := diskName_ne_boshConfig diskID
  have hfv : (updateVolumes op spec diskID).Volumes.filter
      (fun w => decide (w.Name = "bosh-config")) =
      spec.Volumes.filter (fun w => decide (w.Name = "bosh-config")) := by
    cases op with
    | Add =>
      show (spec.Volumes ++ _).filter _ = _
      simp [List.filter_append, List.filter_cons, hne]
    | Remove =>
      show (spec.Volumes.eraseP _).filter _ = _
      apply filter_eraseP_other
      intro a ha
      have : a.Name = "disk-" ++ diskID := by simpa using ha
      simp [this, hne]
  have hfm : (boshJobMounts (updateVolumes op spec diskID)).filter
      (fun w => decide (w.Name = "bosh-config")) =
      (boshJobMounts spec).filter (fun w => decide (w.Name = "bosh-config")) := by
    cases op with
    | Add =>
      show (boshJobMounts (addVolume spec diskID)).filter _ = _
      by_cases hc : ∃ c ∈ spec.Containers, c.Name = "bosh-job"
      · rw [boshJobMounts_addVolume spec diskID hc]
        simp [List.filter_append, List.filter_cons, hne]
      · have hc2 : ∀ c ∈ spec.Containers, c.Name ≠ "bosh-job" :=
          fun c hcm hcn => hc ⟨c, hcm, hcn⟩
        have : addVolume spec diskID = { spec with Volumes := (addVolume spec diskID).Volumes } := by
          unfold addVolume
          simp only [addMount_of_no_boshJob _ _ hc2]
        rw [this]
        rfl
    | Remove =>
      show (boshJobMounts (removeVolume spec diskID)).filter _ = _
      rw [boshJobMounts_removeVolume]
      apply filter_eraseP_other
      intro a ha
      have : a.Name = "disk-" ++ diskID := by simpa using ha
      simp [this, hne]
  refine ⟨?_, ?_, hfv, ?_⟩
  · have : v ∈ spec.Volumes.filter (fun w => decide (w.Name = "bosh-config")) :=
      List.mem_filter.mpr ⟨hv, by simp [hvn]⟩
    rw [← hfv] at this
    exact (List.mem_filter.mp this).1
  · have : m ∈ (boshJobMounts spec).filter (fun w => decide (w.Name = "bosh-config")) :=
      List.mem_filter.mpr ⟨hm, by simp [hmn]⟩
    rw [← hfm] at this
    exact (List.mem_filter.mp this).1
  · cases op with
    | Add =>
      show (addMount _ spec.Containers).map _ = _
      exact addMount_filter_other _ _ _ hne
    | Remove =>
      show (spec.Containers.map _).map _ = _
      rw [List.map_map]
      apply List.map_congr_left
      intro c _
      by_cases hc : c.Name = "bosh-job"
      · simp only [Function.comp, hc, if_true, removeMount]
        congr 1
        apply filter_eraseP_other
        intro a ha
        have : a.Name = "disk-" ++ diskID := by simpa using ha
        simp [this, hne]
      · simp [Function.comp, hc]

/-- Witness of C8: detaching the disk `config` from the sample spec keeps the
settings volume and its mount. -/
theorem updateVolumes_keeps_settings_volume_witness :
    sampleConfigVolume ∈ sampleSpec.Volumes ∧
    sampleConfigMount ∈ boshJobMounts sampleSpec ∧
    sampleConfigVolume ∈ (updateVolumes .Remove sampleSpec "config").Volumes ∧
    sampleConfigMount ∈ boshJobMounts (updateVolumes .Remove sampleSpec "config") :=
  have h := updateVolumes_keeps_settings_volume .Remove sampleSpec "config"
    sampleConfigVolume sampleConfigMount (by decide) (by decide) (by decide) (by decide)
  ⟨by decide, by decide, h.1, h.2.1⟩

/-! ## Network cardinality -/

/-- C9: `getNetwork` fails with `a network is required` on an empty map, returns
the single network of a map of size one, and fails with `multiple networks not
supported` on every map of size two or more. -/
theorem getNetwork_by_size (networks : Networks) :
    (networks.length = 0 → getNetwork networks = .error .networkRequired) ∧
    (networks.length = 1 →
      ∃ name nw, networks = [(name, nw)] ∧ getNetwork networks = .ok nw) ∧
    (2 ≤ networks.length → getNetwork networks = .error .multipleNetworks) := by
  refine ⟨?_, ?_, ?_⟩
  · intro h
    unfold getNetwork
    rw [h]
  · intro h
    match networks, h with
    | [(name, nw)], _ => exact ⟨name, nw, rfl, rfl⟩
  · intro h
    match networks, h with
    | _ :: _ :: rest, _ => rfl

/-- Witness of C9 on maps of size zero, one and two. -/
theorem getNetwork_by_size_witness :
    getNetwork [] = .error .networkRequired ∧
    (∃ name nw, [("default", ({ IP := "1.2.3.4" } : Network))] = [(name, nw)] ∧
      getNetwork [("default", { IP := "1.2.3.4" })] = .ok nw) ∧
    getNetwork [("a", { IP := "1.2.3.4" }), ("b", { IP := "5.6.7.8" })] =
      .error .multipleNetworks :=
  ⟨(getNetwork_by_size []).1 rfl,
   (getNetwork_by_size [("default", { IP := "1.2.3.4" })]).2.1 rfl,
   (getNetwork_by_size [("a", { IP := "1.2.3.4" }), ("b", { IP := "5.6.7.8" })]).2.2
     (by decide)⟩

/-! ## Resource translation -/

/-- C10: `getPodResourceRequirements` succeeds exactly when every entry of the
limits and of the requests has the kind `cpu` or `memory` and a quantity string
that parses; a successful result holds, for limits and requests separately, the
keys of the input each with the parsed value of its quantity string, and an
absent list gives an absent list. -/
theorem getPodResourceRequirements_spec (pq : String → Except String Quantity)
    (resources : Resources)
    (hl : GoMap.WF (entriesOf resources.Limits))
    (hr : GoMap.WF (entriesOf resources.Requests)) :
    ((∃ r, getPodResourceRequirements pq resources = .ok r) ↔
      ∀ e ∈ entriesOf resources.Limits ++ entriesOf resources.Requests,
        entryAccepted pq e) ∧
    (∀ r, getPodResourceRequirements pq resources = .ok r →
      translated pq resources.Limits r.Limits ∧
      translated pq resources.Requests r.Requests ∧
      (resources.Limits = none → r.Limits = none) ∧
      (resources.Requests = none → r.Requests = none)) := by
  constructor
  · constructor
    · rintro ⟨r, h⟩
      unfold getPodResourceRequirements at h
      cases h1 : getResourceList pq resources.Limits with
      | error e => rw [h1] at h; cases h
      | panic p => rw [h1] at h; cases h
      | ok limits =>
        rw [h1] at h
        cases h2 : getResourceList pq resources.Requests with
        | error e => rw [h2] at h; cases h
        | panic p => rw [h2] at h; cases h
        | ok requests =>
          intro e he
          rcases List.mem_append.mp he with he | he
          · exact (getResourceList_ok_iff pq _).mp ⟨_, h1⟩ e he
          · exact (getResourceList_ok_iff pq _).mp ⟨_, h2⟩ e he
    · intro h
      obtain ⟨limits, h1⟩ := (getResourceList_ok_iff pq resources.Limits).mpr
        (fun e he => h e (List.mem_append.mpr (Or.inl he)))
      obtain ⟨requests, h2⟩ := (getResourceList_ok_iff pq resources.Requests).mpr
        (fun e he => h e (List.mem_append.mpr (Or.inr he)))
      exact ⟨_, by unfold getPodResourceRequirements; rw [h1, h2]⟩
  · intro r h
    unfold getPodResourceRequirements at h
    cases h1 : getResourceList pq resources.Limits with
    | error e => rw [h1] at h; cases h
    | panic p => rw [h1] at h; cases h
    | ok limits =>
      rw [h1] at h
      cases h2 : getResourceList pq resources.Requests with
      | error e => rw [h2] at h; cases h
      | panic p => rw [h2] at h; cases h
      | ok requests =>
        rw [h2] at h
        injection h with h
        subst h
        have t1 := getResourceList_result pq _ _ h1 hl
        have t2 := getResourceList_result pq _ _ h2 hr
        refine ⟨t1, t2, ?_, ?_⟩
        · intro hn
          rw [hn] at t1
          cases limits with
          | none => rfl
          | some l => exact absurd t1 (by simp [translated])
        · intro hn
          rw [hn] at t2
          cases requests with
          | none => rfl
          | some l => exact absurd t2 (by simp [translated])

/-- Witness of C10 on the resources of the test suite. -/
theorem getPodResourceRequirements_spec_witness :
    GoMap.WF (entriesOf sampleResources.Limits) ∧
    GoMap.WF (entriesOf sampleResources.Requests) ∧
    getPodResourceRequirements sampleParseQuantity sampleResources =
      .ok { Limits := some [("memory", ⟨"1Gi"⟩), ("cpu", ⟨"500m"⟩)],
            Requests := some [("memory", ⟨"64Mi"⟩), ("cpu", ⟨"100m"⟩)] } ∧
    translated sampleParseQuantity sampleResources.Limits
      (some [("memory", ⟨"1Gi"⟩), ("cpu", ⟨"500m"⟩)]) :=
  ⟨by decide, by decide, by decide,
   ((getPodResourceRequirements_spec sampleParseQuantity sampleResources
      (by decide) (by decide)).2
        { Limits := some [("memory", ⟨"1Gi"⟩), ("cpu", ⟨"500m"⟩)],
          Requests := some [("memory", ⟨"64Mi"⟩), ("cpu", ⟨"100m"⟩)] } (by decide)).1⟩

/-! ## Attach and detach against the cluster -/

/-- C3: when the decoded contexts of the VM identifier and of the disk
identifier differ, `AttachDisk` and `DetachDisk` return the context-mismatch
error naming both contexts, and the cluster and the log of collaborator calls
are as before: no client is constructed and no request is issued. -/
theorem context_mismatch_no_call (vm : VolumeManager) (env : Env)
    (vmcid diskCID vmContext agentID context diskID : String) (s : Cluster)
    (hv : ParseVMCID vmcid = .ok (vmContext, agentID))
    (hd : ParseDiskCID diskCID = .ok (context, diskID))
    (hne : context ≠ vmContext) :
    AttachDisk vm env vmcid diskCID s = (.error (.contextMismatch context vmContext), s) ∧
    DetachDisk vm env vmcid diskCID s = (.error (.contextMismatch context vmContext), s) ∧
    (AttachDisk vm env vmcid diskCID s).2.log = s.log ∧
    (DetachDisk vm env vmcid diskCID s).2.log = s.log := by
  have ha : AttachDisk vm env vmcid diskCID s =
      (.error (.contextMismatch context vmContext), s) := by
    unfold AttachDisk
    rw [hv, hd]
    simp only [ne_eq, hne, not_false_eq_true, if_true]
  have hb : DetachDisk vm env vmcid diskCID s =
      (.error (.contextMismatch context vmContext), s) := by
    unfold DetachDisk
    rw [hv, hd]
    simp only [ne_eq, hne, not_false_eq_true, if_true]
  exact ⟨ha, hb, by rw [ha], by rw [hb]⟩

/-- Witness of C3 on the identifiers of the test `when the vmcid context and
diskcid context are different`. -/
theorem context_mismatch_no_call_witness :
    AttachDisk sampleManager sampleEnv "rp-ctx:agent-id" "disk-ctx:disk-id" sampleCluster =
      (.error (.contextMismatch "disk-ctx" "rp-ctx"), sampleCluster) ∧
    DetachDisk sampleManager sampleEnv "rp-ctx:agent-id" "disk-ctx:disk-id" sampleCluster =
      (.error (.contextMismatch "disk-ctx" "rp-ctx"), sampleCluster) :=
  have h := context_mismatch_no_call sampleManager sampleEnv "rp-ctx:agent-id"
    "disk-ctx:disk-id" "rp-ctx" "agent-id" "disk-ctx" "disk-id" sampleCluster
    (by decide) (by decide) (by decide)
  ⟨h.1, h.2.1⟩

/-- C5: a successful settings patch changes the entry of the addressed disk
only. The stored settings are the old ones with a new persistent-disk map;
after `Add` the map has `<context>:<diskID>` at `/mnt/<diskID>`, after `Remove`
it has no entry for `<context>:<diskID>`, and every other key reads as before,
a missing map reading as empty. -/
theorem settings_patch_frame (env : Env) (client : Client) (op : Operation)
    (agentID diskID : String) (s t : Cluster)
    (h : updateConfigMapDisks env client op agentID diskID s = (.ok (), t)) :
    ∃ st st1, s.settingsOf client.Namespace agentID = some st ∧
      t.settingsOf client.Namespace agentID = some st1 ∧
      st1 = { st with Persistent := st1.Persistent } ∧
      (op = .Add → GoMap.lookup (entriesOf st1.Persistent)
        (NewDiskCID client.Context diskID) = some ("/mnt/" ++ diskID)) ∧
      (op = .Remove → GoMap.lookup (entriesOf st1.Persistent)
        (NewDiskCID client.Context diskID) = none) ∧
      (∀ k, k ≠ NewDiskCID client.Context diskID →
        GoMap.lookup (entriesOf st1.Persistent) k =
          GoMap.lookup (entriesOf st.Persistent) k) := by
  rcases updateConfigMapDisks_cases env client op agentID diskID s with
    ⟨e, t2, hu, _, _⟩ | ⟨t2, st, hu, _, hst, hst1⟩
  · rw [hu] at h
    cases h
  · rw [hu] at h
    injection h with _ ht
    subst ht
    have hm : (match st.Persistent with
        | none => ([] : GoMap String)
        | some m => m) = entriesOf st.Persistent := by
      cases st.Persistent <;> rfl
    refine ⟨st, _, hst, hst1, rfl, ?_, ?_, ?_⟩
    · intro hop
      subst hop
      simp only [patchPersistent, entriesOf, GoMap.lookup_set_self]
    · intro hop
      subst hop
      simp only [patchPersistent, entriesOf, GoMap.lookup_delete_self]
    · intro k hk
      cases op with
      | Add =>
        simp only [patchPersistent, hm]
        exact GoMap.lookup_set_other _ _ _ _ hk
      | Remove =>
        simp only [patchPersistent, hm]
        exact GoMap.lookup_delete_other _ _ _ hk

/-- Witness of C5: the settings patch of an attach of `disk-id` on the sample
cluster. -/
theorem settings_patch_frame_witness :
    updateConfigMapDisks sampleEnv sampleClient .Add "agent-id" "disk-id" sampleCluster =
      (.ok (), samplePatched) ∧
    ∃ st st1, sampleCluster.settingsOf "bosh-namespace" "agent-id" = some st ∧
      samplePatched.settingsOf "bosh-namespace" "agent-id" = some st1 ∧
      st1 = { st with Persistent := st1.Persistent } ∧
      (Operation.Add = .Add → GoMap.lookup (entriesOf st1.Persistent)
        (NewDiskCID "context-name" "disk-id") = some ("/mnt/" ++ "disk-id")) ∧
      (Operation.Add = .Remove → GoMap.lookup (entriesOf st1.Persistent)
        (NewDiskCID "context-name" "disk-id") = none) ∧
      (∀ k, k ≠ NewDiskCID "context-name" "disk-id" →
        GoMap.lookup (entriesOf st1.Persistent) k =
          GoMap.lookup (entriesOf st.Persistent) k) :=
  ⟨by decide,
   settings_patch_frame sampleEnv sampleClient .Add "agent-id" "disk-id" sampleCluster
     samplePatched (by decide)⟩

/-- C6, as the claim states it, fails: when the pod delete fails, `AttachDisk`
returns that error after the config map was patched; the map then names a disk
the pod's volume list does not have. -/
theorem delete_failure_breaks_settings_invariant :
    consistent sampleClient "agent-id" sampleCluster ∧
    (AttachDisk sampleManager deleteFailsEnv "context-name:agent-id" "context-name:disk-id"
      sampleCluster).1 = .error (.other "delete-pods-welp") ∧
    ¬ consistent sampleClient "agent-id"
      (AttachDisk sampleManager deleteFailsEnv "context-name:agent-id" "context-name:disk-id"
        sampleCluster).2 := by
  decide

/-- C6, amended: from a state in which the persistent-disk map of the agent's
settings contains exactly the disks wired into the pod's volume list, the state
after `AttachDisk` or `DetachDisk` is again such a state, whatever the call
returns (success, or an error of the context check, the client construction,
the pod get, the config-map get, decode or update, or the readiness wait),
provided the pod delete and the pod create requests are not made to fail and,
for a detach, the pod has at most one volume named `disk-<id>`. -/
theorem changeDisk_keeps_settings_invariant (op : Operation) (vm : VolumeManager)
    (env : Env) (vmcid diskCID vmContext agentID context diskID : String)
    (client : Client) (s : Cluster)
    (hv : ParseVMCID vmcid = .ok (vmContext, agentID))
    (hd : ParseDiskCID diskCID = .ok (context, diskID))
    (hclient : env.newClient context = .ok client ∨ ∃ e, env.newClient context = .error e)
    (hcons : consistent client agentID s)
    (hdel : ∀ g, env.fault (.deletePod client.Namespace ("agent-" ++ agentID) g) = none)
    (hcreate : ∀ p, env.fault (.createPod client.Namespace p) = none)
    (hdup : op = .Remove → ∀ pod,
      s.findPod client.Namespace ("agent-" ++ agentID) = some pod →
      pod.Spec.Volumes.countP (fun v => decide (v.Name = "disk-" ++ diskID)) ≤ 1) :
    consistent client agentID (changeDisk op vm env vmcid diskCID s).2 := by
  have key : (changeDisk op vm env vmcid diskCID s).2 =
      (if context ≠ vmContext then s
       else
        match env.newClient context with
        | .error _ => s.record (.newClient context)
        | .ok c => (recreatePod vm env c op agentID diskID (s.record (.newClient context))).2) := by
    cases op <;>
    · simp only [changeDisk, AttachDisk, DetachDisk, hv, hd]
      split
      · rfl
      · cases env.newClient context <;> rfl
  rw [key]
  by_cases hctx : context ≠ vmContext
  · rw [if_pos hctx]
    exact hcons
  · rw [if_neg hctx]
    rcases hclient with hc | ⟨e, hc⟩
    · rw [hc]
      simp only
      apply recreatePod_consistent vm env client op agentID diskID _ _ hdel hcreate
      · intro hop pod hp
        exact hdup hop pod hp
      · exact consistent_of_stores client agentID s _ rfl rfl hcons
    · rw [hc]
      exact consistent_of_stores client agentID s _ rfl rfl hcons

/-- Witness of the amended C6: an attach of `disk-id` on the sample cluster, and
a detach of it afterwards, in an environment where no request fails. -/
theorem changeDisk_keeps_settings_invariant_witness :
    consistent sampleClient "agent-id" sampleCluster ∧
    consistent sampleClient "agent-id"
      (changeDisk .Add sampleManager sampleEnv "context-name:agent-id"
        "context-name:disk-id" sampleCluster).2 ∧
    consistent sampleClient "agent-id"
      (changeDisk .Remove sampleManager sampleEnv "context-name:agent-id"
        "context-name:disk-id" sampleAttached).2 :=
  ⟨by decide,
   changeDisk_keeps_settings_invariant .Add sampleManager sampleEnv "context-name:agent-id"
     "context-name:disk-id" "context-name" "agent-id" "context-name" "disk-id"
     sampleClient sampleCluster (by decide) (by decide) (Or.inl rfl) (by decide)
     (fun _ => rfl) (fun _ => rfl) (fun h => by cases h),
   changeDisk_keeps_settings_invariant .Remove sampleManager sampleEnv "context-name:agent-id"
     "context-name:disk-id" "context-name" "agent-id" "context-name" "disk-id"
     sampleClient sampleAttached (by decide) (by decide) (Or.inl rfl) (by decide)
     (fun _ => rfl) (fun _ => rfl) (fun _ pod hp => by
       have h0 : sampleAttached.findPod sampleClient.Namespace ("agent-" ++ "agent-id") =
           some (recreatedPod .Add samplePod "disk-id") := by decide
       rw [h0] at hp
       injection hp with hp
       subst hp
       decide)⟩

/-! ## Unsupported resource kinds -/

theorem kubeResourceName_unsupported (name : String) (h1 : name ≠ "cpu")
    (h2 : name ≠ "memory") : kubeResourceName name = .error (.unsupportedResource name) := by
  unfold kubeResourceName
  rw [if_neg h2, if_neg h1]

theorem kubeResourceName_no_panic (name : String) (p : Panic) :
    kubeResourceName name ≠ .panic p := by
  unfold kubeResourceName
  split
  · intro h; cases h
  · split <;> intro h <;> cases h

theorem getResourceListLoop_no_panic (pq : String → Except String Quantity)
    (m : ResourceList) (acc : GoMap Quantity) (p : Panic) :
    getResourceListLoop pq m acc ≠ .panic p := by
  induction m generalizing acc with
  | nil => intro h; cases h
  | cons e rest ih =>
    obtain ⟨k, v⟩ := e
    unfold getResourceListLoop
    cases hq : pq v with
    | error msg => intro h; cases h
    | ok q =>
      cases hn : kubeResourceName k with
      | error e => intro h; cases h
      | panic p2 => exact absurd hn (kubeResourceName_no_panic k p2)
      | ok n => exact ih _

/-- When every quantity string parses, the loop fails at the first entry of an
unsupported kind, with the error naming that kind. -/
theorem getResourceListLoop_unsupported (pq : String → Except String Quantity)
    (m : ResourceList) (acc : GoMap Quantity)
    (hparse : ∀ e ∈ m, ∃ q, pq e.2 = .ok q)
    (hun : ∃ e ∈ m, e.1 ≠ "cpu" ∧ e.1 ≠ "memory") :
    ∃ e ∈ m, e.1 ≠ "cpu" ∧ e.1 ≠ "memory" ∧
      getResourceListLoop pq m acc = .error (.unsupportedResource e.1) := by
  induction m generalizing acc with
  | nil =>
    obtain ⟨e, he, _⟩ := hun
    cases he
  | cons e rest ih =>
    obtain ⟨k, v⟩ := e
    obtain ⟨q, hq⟩ := hparse (k, v) (by simp)
    simp only at hq
    unfold getResourceListLoop
    rw [hq]
    by_cases hk : k = "cpu" ∨ k = "memory"
    · rw [kubeResourceName_of_supported k hk]
      have hun2 : ∃ e ∈ rest, e.1 ≠ "cpu" ∧ e.1 ≠ "memory" := by
        obtain ⟨e, he, h1, h2⟩ := hun
        rcases List.mem_cons.mp he with rfl | he
        · rcases hk with hk | hk
          · exact absurd hk h1
          · exact absurd hk h2
        · exact ⟨e, he, h1, h2⟩
      obtain ⟨e, he, h1, h2, h3⟩ := ih _ (fun e he => hparse e (by simp [he])) hun2
      exact ⟨e, by simp [he], h1, h2, h3⟩
    · have h1 : k ≠ "cpu" := fun h => hk (Or.inl h)
      have h2 : k ≠ "memory" := fun h => hk (Or.inr h)
      rw [kubeResourceName_unsupported k h1 h2]
      exact ⟨(k, v), by simp, h1, h2, rfl⟩

theorem getResourceList_no_panic (pq : String → Except String Quantity)
    (rl : Option ResourceList) (p : Panic) : getResourceList pq rl ≠ .panic p := by
  cases rl with
  | none => intro h; cases h
  | some m =>
    unfold getResourceList
    simp only
    cases hl : getResourceListLoop pq m [] with
    | ok l => intro h; cases h
    | error e => intro h; cases h
    | panic p2 => exact absurd hl (getResourceListLoop_no_panic pq m [] p2)

theorem getResourceList_unsupported (pq : String → Except String Quantity)
    (rl : Option ResourceList)
    (hparse : ∀ e ∈ entriesOf rl, ∃ q, pq e.2 = .ok q)
    (hun : ∃ e ∈ entriesOf rl, e.1 ≠ "cpu" ∧ e.1 ≠ "memory") :
    ∃ e ∈ entriesOf rl, e.1 ≠ "cpu" ∧ e.1 ≠ "memory" ∧
      getResourceList pq rl = .error (.unsupportedResource e.1) := by
  cases rl with
  | none =>
    obtain ⟨e, he, _⟩ := hun
    cases he
  | some m =>
    obtain ⟨e, he, h1, h2, h3⟩ := getResourceListLoop_unsupported pq m [] hparse hun
    refine ⟨e, he, h1, h2, ?_⟩
    unfold getResourceList
    simp only [h3]

theorem getPodResourceRequirements_no_panic (pq : String → Except String Quantity)
    (resources : Resources) (p : Panic) :
    getPodResourceRequirements pq resources ≠ .panic p := by
  unfold getPodResourceRequirements
  cases h1 : getResourceList pq resources.Limits with
  | error e => intro h; cases h
  | panic p2 => exact absurd h1 (getResourceList_no_panic _ _ p2)
  | ok limits =>
    simp only
    cases h2 : getResourceList pq resources.Requests with
    | error e => intro h; cases h
    | panic p2 => exact absurd h2 (getResourceList_no_panic _ _ p2)
    | ok requests => intro h; cases h

/-- C11, as the claim states it, fails: for the single request `goo` with the
quantity `12nuts` the error is the one of the quantity parser, not the
unsupported-kind error naming `goo`. -/
theorem unsupported_kind_gives_parse_error :
    getPodResourceRequirements sampleParseQuantity
        { Requests := some [("goo", "12nuts")] } =
      .error (.quantity "unable to parse quantity 12nuts") ∧
    getPodResourceRequirements sampleParseQuantity
        { Requests := some [("goo", "12nuts")] } ≠
      .error (.unsupportedResource "goo") := by
  decide

/-- C11, amended: when the limits or the requests have an entry of a kind other
than `cpu` and `memory`, `getPodResourceRequirements` fails with an error and
no requirements; when moreover every quantity string of the block parses, the
error is the unsupported-kind error naming such an entry. -/
theorem unsupported_kind_fails (pq : String → Except String Quantity)
    (resources : Resources)
    (hun : ∃ e ∈ entriesOf resources.Limits ++ entriesOf resources.Requests,
      e.1 ≠ "cpu" ∧ e.1 ≠ "memory") :
    (∃ err, getPodResourceRequirements pq resources = .error err) ∧
    ((∀ e ∈ entriesOf resources.Limits ++ entriesOf resources.Requests,
        ∃ q, pq e.2 = .ok q) →
      ∃ e ∈ entriesOf resources.Limits ++ entriesOf resources.Requests,
        e.1 ≠ "cpu" ∧ e.1 ≠ "memory" ∧
        getPodResourceRequirements pq resources = .error (.unsupportedResource e.1)) := by
  constructor
  · cases h : getPodResourceRequirements pq resources with
    | error err => exact ⟨err, rfl⟩
    | panic p => exact absurd h (getPodResourceRequirements_no_panic _ _ p)
    | ok r =>
      exfalso
      have hall : ∀ e ∈ entriesOf resources.Limits ++ entriesOf resources.Requests,
          entryAccepted pq e := by
        intro e he
        unfold getPodResourceRequirements at h
        cases h1 : getResourceList pq resources.Limits with
        | error e1 => rw [h1] at h; cases h
        | panic p => rw [h1] at h; cases h
        | ok limits =>
          rw [h1] at h
          cases h2 : getResourceList pq resources.Requests with
          | error e2 => rw [h2] at h; cases h
          | panic p => rw [h2] at h; cases h
          | ok requests =>
            rcases List.mem_append.mp he with he | he
            · exact (getResourceList_ok_iff pq _).mp ⟨_, h1⟩ e he
            · exact (getResourceList_ok_iff pq _).mp ⟨_, h2⟩ e he
      obtain ⟨e, he, h1, h2⟩ := hun
      rcases (hall e he).1 with hk | hk
      · exact h1 hk
      · exact h2 hk
  · intro hparse
    by_cases hl : ∃ e ∈ entriesOf resources.Limits, e.1 ≠ "cpu" ∧ e.1 ≠ "memory"
    · obtain ⟨e, he, h1, h2, h3⟩ := getResourceList_unsupported pq resources.Limits
        (fun e he => hparse e (List.mem_append.mpr (Or.inl he))) hl
      refine ⟨e, List.mem_append.mpr (Or.inl he), h1, h2, ?_⟩
      unfold getPodResourceRequirements
      rw [h3]
    · have hlall : ∀ e ∈ entriesOf resources.Limits, entryAccepted pq e := by
        intro e he
        refine ⟨?_, hparse e (List.mem_append.mpr (Or.inl he))⟩
        by_contra hk
        exact hl ⟨e, he, fun h => hk (Or.inl h), fun h => hk (Or.inr h)⟩
      obtain ⟨limits, hlim⟩ := (getResourceList_ok_iff pq resources.Limits).mpr hlall
      have hr : ∃ e ∈ entriesOf resources.Requests, e.1 ≠ "cpu" ∧ e.1 ≠ "memory" := by
        obtain ⟨e, he, h1, h2⟩ := hun
        rcases List.mem_append.mp he with he | he
        · exact absurd ⟨e, he, h1, h2⟩ hl
        · exact ⟨e, he, h1, h2⟩
      obtain ⟨e, he, h1, h2, h3⟩ := getResourceList_unsupported pq resources.Requests
        (fun e he => hparse e (List.mem_append.mpr (Or.inr he))) hr
      refine ⟨e, List.mem_append.mpr (Or.inr he), h1, h2, ?_⟩
      unfold getPodResourceRequirements
      rw [hlim, h3]

/-- Witness of the amended C11 on the request of the test `when an unsupported
resource type is specified`. -/
theorem unsupported_kind_fails_witness :
    (∃ e ∈ entriesOf (none : Option ResourceList) ++ entriesOf (some [("goo", "1Gi")]),
      e.1 ≠ "cpu" ∧ e.1 ≠ "memory") ∧
    ∃ err, getPodResourceRequirements sampleParseQuantity
      { Requests := some [("goo", "1Gi")] } = .error err :=
  ⟨by decide,
   (unsupported_kind_fails sampleParseQuantity { Requests := some [("goo", "1Gi")] }
     (by decide)).1⟩

/-! ## Namespace ensure -/

theorem namespacesGet_state (env : Env) (name : String) (s : Cluster) :
    (namespacesGet env name s).2 = s.record (.getNamespace name) := by
  unfold namespacesGet
  simp only
  split
  · rfl
  · split <;> rfl

theorem namespacesGet_no_panic (env : Env) (name : String) (s : Cluster) (p : Panic) :
    (namespacesGet env name s).1 ≠ .panic p := by
  unfold namespacesGet
  simp only
  split
  · intro h; cases h
  · split <;> intro h <;> cases h

theorem namespacesCreate_log (env : Env) (name : String) (s : Cluster) :
    (namespacesCreate env name s).2.log = s.log ++ [.createNamespace name] := by
  unfold namespacesCreate
  simp only
  split
  · rfl
  · split <;> rfl

theorem namespacesCreate_no_panic (env : Env) (name : String) (s : Cluster) (p : Panic) :
    (namespacesCreate env name s).1 ≠ .panic p := by
  unfold namespacesCreate
  simp only
  split
  · intro h; cases h
  · split <;> intro h <;> cases h

/-- C12: `createNamespace` is idempotent. When the get succeeds, it returns no
error and the only call issued is the get. When the get fails, exactly one
create follows the get; the result is no error when the create succeeds or
fails with a status error of reason `AlreadyExists`, and the error of the
create, unchanged, for every other failure. -/
theorem createNamespace_idempotent (env : Env) (name : String) (s : Cluster) :
    ((namespacesGet env name s).1 = .ok () →
      createNamespace env name s = (.ok (), s.record (.getNamespace name)) ∧
      (createNamespace env name s).2.log = s.log ++ [.getNamespace name]) ∧
    (∀ e, (namespacesGet env name s).1 = .error e →
      (createNamespace env name s).2.log =
        s.log ++ [.getNamespace name, .createNamespace name] ∧
      ((namespacesCreate env name (s.record (.getNamespace name))).1 = .ok () →
        (createNamespace env name s).1 = .ok ()) ∧
      (∀ msg, (namespacesCreate env name (s.record (.getNamespace name))).1 =
          .error (.status .alreadyExists msg) →
        (createNamespace env name s).1 = .ok ()) ∧
      (∀ e2, (namespacesCreate env name (s.record (.getNamespace name))).1 = .error e2 →
        (∀ msg, e2 ≠ .status .alreadyExists msg) →
        (createNamespace env name s).1 = .error e2)) := by
  have hst := namespacesGet_state env name s
  have hlog := namespacesCreate_log env name (s.record (.getNamespace name))
  have hnp := namespacesCreate_no_panic env name (s.record (.getNamespace name))
  cases hg : namespacesGet env name s with
  | mk r s1 =>
    rw [hg] at hst
    simp only at hst
    subst hst
    constructor
    · intro hr
      simp only at hr
      subst hr
      have : createNamespace env name s = (.ok (), s.record (.getNamespace name)) := by
        unfold createNamespace
        rw [hg]
      exact ⟨this, by rw [this]; rfl⟩
    · intro e hr
      simp only at hr
      subst hr
      cases hc : namespacesCreate env name (s.record (.getNamespace name)) with
      | mk r2 s2 =>
        rw [hc] at hlog hnp
        simp only at hlog hnp
        have hlog2 : s2.log = s.log ++ [.getNamespace name, .createNamespace name] := by
          rw [hlog]
          simp [Cluster.record]
        cases r2 with
        | panic p => exact absurd rfl (hnp p)
        | ok u =>
          have : createNamespace env name s = (.ok (), s2) := by
            unfold createNamespace
            rw [hg]
            simp only [hc]
          rw [this]
          exact ⟨hlog2, fun _ => rfl, fun _ _ => rfl, fun e2 h2 => by cases h2⟩
        | error e1 =>
          by_cases hae : ∃ msg, e1 = .status .alreadyExists msg
          · obtain ⟨msg, rfl⟩ := hae
            have : createNamespace env name s = (.ok (), s2) := by
              unfold createNamespace
              rw [hg]
              simp only [hc]
            rw [this]
            refine ⟨hlog2, fun _ => rfl, fun _ _ => rfl, fun e2 h2 hne => ?_⟩
            simp only at h2
            injection h2 with h2
            exact absurd h2.symm (hne msg)
          · have : createNamespace env name s = (.error e1, s2) := by
              unfold createNamespace
              rw [hg]
              simp only [hc]
              split
              · rename_i heq; cases heq
              · rename_i heq; cases heq
              · rename_i heq
                injection heq with h1 h2
                injection h1 with h1
                exact absurd ⟨_, h1⟩ hae
              · rename_i heq
                injection heq with h1 h2
                injection h1 with h1
                rw [h1, h2]
            rw [this]
            refine ⟨hlog2, (fun h => nomatch h), fun msg h => ?_, fun e2 h2 _ => ?_⟩
            · simp only at h
              injection h with h
              exact absurd ⟨msg, h⟩ hae
            · simp only at h2
              injection h2 with h2
              rw [h2]

/-- Witness of C12: with the namespace in place the get is the only call; on an
empty cluster the get fails and the namespace is created. -/
theorem createNamespace_idempotent_witness :
    (namespacesGet boshEnv "bosh-namespace" namespaceCluster).1 = .ok () ∧
    createNamespace boshEnv "bosh-namespace" namespaceCluster =
      (.ok (), namespaceCluster.record (.getNamespace "bosh-namespace")) ∧
    (createNamespace boshEnv "bosh-namespace" {}).2.log =
      [.getNamespace "bosh-namespace", .createNamespace "bosh-namespace"] :=
  ⟨by decide,
   ((createNamespace_idempotent boshEnv "bosh-namespace" namespaceCluster).1 (by decide)).1,
   ((createNamespace_idempotent boshEnv "bosh-namespace" {}).2
     (.status .notFound "bosh-namespace") (by decide)).1⟩

/-! ## The create sequence on the storage claim -/

/-- C13, the code at the failing input: with the claim `var-vcap-agent-id` left
over from an earlier creation, the claim create fails with `AlreadyExists`,
and `Create` still creates the pod and returns the VM identifier with no
error. -/
theorem create_succeeds_after_failed_claim_create :
    (claimsCreate boshEnv boshClient (varVcapClaim "agent-id" boshClient { text := "3Gi" })
      leftoverClaimCluster).1 = .error (.status .alreadyExists "var-vcap-agent-id") ∧
    (Create sampleCreator boshEnv "agent-id" "sykesm/kubernetes-stemcell:999"
      { Context := "bosh" } sampleNetworks [] "env" leftoverClaimCluster).1 =
      .ok "bosh:agent-id" ∧
    ((Create sampleCreator boshEnv "agent-id" "sykesm/kubernetes-stemcell:999"
      { Context := "bosh" } sampleNetworks [] "env" leftoverClaimCluster).2.findPod
        "bosh-namespace" "agent-agent-id").isSome = true := by
  decide

/-- C14, the code at the failing input: the pod created for the agent `agent-id`
is the one `createPod` builds; for every agent ID and image its two volumes are
`bosh-config` and `var-vcap`, the second one backed by the storage claim and
not an `EmptyDir`, and the two mounts of its container are `bosh-config` and
`var-vcap` at `/var/vcap` with the sub-path `vcap`. -/
theorem created_pod_has_claim_volume :
    createdCluster.findPod "bosh-namespace" "agent-agent-id" =
      some (newPod "bosh-namespace" "agent-id" "sykesm/kubernetes-stemcell:999"
        { Other := "dynamic" } {} "var-vcap-agent-id") ∧
    (∀ (ns agentID image : String) (network : Network) (rr : ResourceRequirements)
        (volumeName : String),
      (newPod ns agentID image network rr volumeName).Spec.Volumes.map
          (fun v => (v.Name, v.VolumeSource.EmptyDir, v.VolumeSource.PersistentVolumeClaim)) =
        [("bosh-config", false, none), ("var-vcap", false, some volumeName)] ∧
      (newPod ns agentID image network rr volumeName).Spec.Containers.map
          (fun c => (c.Name, c.VolumeMounts.map (fun m => (m.Name, m.MountPath, m.SubPath)))) =
        [("bosh-job",
          [("bosh-config", "/var/vcap/bosh/instance_settings.json", "instance_settings.json"),
           ("var-vcap", "/var/vcap", "vcap")])]) :=
  ⟨by decide, fun _ _ _ _ _ _ => ⟨rfl, rfl⟩⟩

/-! ## Deleting a disk -/

/-- C18, the code at the failing input: on a cluster without the claim
`disk-disk-id`, `DeleteDisk` returns the not-found status error of the delete,
while `deletePod` and `deleteConfigMap` turn the same failure into success. -/
theorem deleteDisk_returns_not_found :
    (DeleteDisk boshEnv "bosh:disk-id" {}).1 = .error (.status .notFound "disk-disk-id") ∧
    (deletePod boshEnv boshClient "agent-id" {}).1 = .ok () ∧
    (deleteConfigMap boshEnv boshClient "agent-id" {}).1 = .ok () := by
  decide

/-! ## Services of a VM -/

theorem servicesCreate_log (env : Env) (client : Client) (service : V1Service)
    (s : Cluster) :
    (servicesCreate env client service s).2.log =
      s.log ++ [.createService client.Namespace service] := by
  unfold servicesCreate
  simp only
  repeat' split
  all_goals rfl

theorem servicesCreate_no_panic (env : Env) (client : Client) (service : V1Service)
    (s : Cluster) (p : Panic) : (servicesCreate env client service s).1 ≠ .panic p := by
  unfold servicesCreate
  simp only
  repeat' split
  all_goals (intro h; cases h)

/-- The creates `createServices` logs are those of a prefix of the list, the
whole list when it returns no error and a non-empty prefix when it returns an
error. -/
theorem createServices_logged (env : Env) (client : Client) (ns agentID : String)
    (services : List Service) (s : Cluster) :
    ∃ n, n ≤ services.length ∧
      (createServices env client ns agentID services s).2.log =
        s.log ++ (services.take n).map
          (fun svc => Action.createService client.Namespace (buildService ns agentID svc)) ∧
      (((createServices env client ns agentID services s).1 = .ok () ∧
          n = services.length) ∨
        (∃ e, (createServices env client ns agentID services s).1 = .error e ∧ 0 < n)) := by
  induction services generalizing s with
  | nil => exact ⟨0, le_refl _, by simp [createServices], Or.inl ⟨rfl, rfl⟩⟩
  | cons svc rest ih =>
    have hlog := servicesCreate_log env client (buildService ns agentID svc) s
    have hnp := servicesCreate_no_panic env client (buildService ns agentID svc) s
    unfold createServices
    cases hc : servicesCreate env client (buildService ns agentID svc) s with
    | mk r s1 =>
      rw [hc] at hlog hnp
      simp only at hlog hnp
      cases r with
      | panic p => exact absurd rfl (hnp p)
      | error e =>
        refine ⟨1, by simp, ?_, Or.inr ⟨e, rfl, Nat.one_pos⟩⟩
        simp only [andThen, hlog, List.take_succ_cons, List.take_zero, List.map_cons,
          List.map_nil]
      | ok u =>
        obtain ⟨n, hn, hl, hr⟩ := ih s1
        refine ⟨n + 1, by simp [hn], ?_, ?_⟩
        · simp only [andThen, hl, hlog, List.take_succ_cons, List.map_cons,
            List.append_assoc, List.singleton_append]
        · rcases hr with ⟨h1, h2⟩ | ⟨e, h1, h2⟩
          · exact Or.inl ⟨h1, by simp [h2]⟩
          · exact Or.inr ⟨e, h1, Nat.succ_pos _⟩

/-- Go `createServices` on a list cut in two: the second part runs in the state
the first part leaves, and only when the first part returned no error. -/
theorem createServices_append (env : Env) (client : Client) (ns agentID : String)
    (l1 l2 : List Service) (s : Cluster) :
    createServices env client ns agentID (l1 ++ l2) s =
      andThen (createServices env client ns agentID l1 s) fun _ t =>
        createServices env client ns agentID l2 t := by
  induction l1 generalizing s with
  | nil => rfl
  | cons svc rest ih =>
    simp only [List.cons_append, createServices]
    cases hc : servicesCreate env client (buildService ns agentID svc) s with
    | mk r s1 =>
      cases r with
      | ok u =>
        simp only [andThen]
        exact ih s1
      | error e => rfl
      | panic p => rfl

/-- C15: `createServices` issues the service creates in list order, one per
entry, until the first one that fails. With no entry it issues nothing and
returns no error. When the creates of the entries before an entry succeeded,
the create of that entry is issued next, in the state they left; when it fails,
`createServices` returns its error and the state right after it, so that no
create of a later entry is issued; when it succeeds, the run goes on with the
next entry. The calls logged are thus the creates of a prefix of the list, the
whole list when the result is no error and a non-empty prefix when it is an
error. Each service built for an entry has the name and the cluster IP of the
entry, the type `NodePort` exactly when the type of the entry is `NodePort` and
`ClusterIP` otherwise, the agent label as its labels and as its selector, and
the ports of the entry in order. -/
theorem createServices_in_order (env : Env) (client : Client) (ns agentID : String)
    (services : List Service) (s : Cluster) :
    (∃ n, n ≤ services.length ∧
      (createServices env client ns agentID services s).2.log =
        s.log ++ (services.take n).map
          (fun svc => Action.createService client.Namespace (buildService ns agentID svc)) ∧
      (((createServices env client ns agentID services s).1 = .ok () ∧
          n = services.length) ∨
        (∃ e, (createServices env client ns agentID services s).1 = .error e ∧ 0 < n))) ∧
    (∀ svc ∈ services,
      (buildService ns agentID svc).ObjectMeta.Name = svc.Name ∧
      (buildService ns agentID svc).Spec.ClusterIP = svc.ClusterIP ∧
      ((buildService ns agentID svc).Spec.ServiceType = "NodePort" ↔
        svc.ServiceType = "NodePort") ∧
      (svc.ServiceType ≠ "NodePort" →
        (buildService ns agentID svc).Spec.ServiceType = "ClusterIP") ∧
      (buildService ns agentID svc).ObjectMeta.Labels =
        some [("bosh.cloudfoundry.org/agent-id", agentID)] ∧
      (buildService ns agentID svc).Spec.Selector =
        some [("bosh.cloudfoundry.org/agent-id", agentID)] ∧
      (buildService ns agentID svc).Spec.Ports.map
          (fun p => (p.Name, p.Protocol, p.Port, p.NodePort)) =
        svc.Ports.map (fun p => (p.Name, p.Protocol, p.Port, p.NodePort))) ∧
    createServices env client ns agentID [] s = (.ok (), s) ∧
    (∀ done svc rest t, services = done ++ svc :: rest →
      createServices env client ns agentID done s = (.ok (), t) →
      t.log = s.log ++ done.map
        (fun x => Action.createService client.Namespace (buildService ns agentID x)) ∧
      (∀ e t2, servicesCreate env client (buildService ns agentID svc) t = (.error e, t2) →
        createServices env client ns agentID services s = (.error e, t2) ∧
        t2.log = s.log ++ (done ++ [svc]).map
          (fun x => Action.createService client.Namespace (buildService ns agentID x))) ∧
      (∀ u t2, servicesCreate env client (buildService ns agentID svc) t = (.ok u, t2) →
        createServices env client ns agentID (done ++ [svc]) s = (.ok (), t2) ∧
        createServices env client ns agentID services s =
          createServices env client ns agentID rest t2)) := by
  refine ⟨createServices_logged env client ns agentID services s, ?_, rfl, ?_⟩
  · intro svc _
    refine ⟨rfl, rfl, ?_, ?_, rfl, rfl, ?_⟩
    · unfold buildService
      simp only
      constructor
      · intro h
        by_contra hne
        rw [if_neg hne] at h
        exact absurd h (by decide)
      · intro h
        rw [if_pos h]
    · intro hne
      unfold buildService
      simp only [if_neg hne]
    · unfold buildService
      simp only [List.map_map]
      rfl
  · intro done svc rest t hs hdone
    have hlogt : t.log = s.log ++ done.map
        (fun x => Action.createService client.Namespace (buildService ns agentID x)) := by
      obtain ⟨n, hn, hl, hr⟩ := createServices_logged env client ns agentID done s
      rw [hdone] at hl hr
      simp only at hl hr
      rcases hr with ⟨_, h2⟩ | ⟨e, h1, _⟩
      · rw [hl, h2, List.take_length]
      · cases h1
    refine ⟨hlogt, ?_, ?_⟩
    · intro e t2 hc
      have hlog := servicesCreate_log env client (buildService ns agentID svc) t
      rw [hc] at hlog
      simp only at hlog
      constructor
      · rw [hs, createServices_append, hdone]
        simp only [andThen, createServices, hc]
      · rw [hlog, hlogt]
        simp
    · intro u t2 hc
      constructor
      · rw [createServices_append, hdone]
        simp only [andThen, createServices, hc]
      · rw [hs, createServices_append, hdone]
        simp only [andThen, createServices, hc]

/-- Witness of C15. On the two services of the test `creates the services` both
creates are logged in list order. When the create of the second service
`blobstore` fails after the one of `director` succeeded, `createServices`
returns that error and the log ends with the failed create. -/
theorem createServices_in_order_witness :
    (createServices boshEnv boshClient "bosh-namespace" "agent-id"
        sampleCloudProps.Services {}).2.log =
      sampleCloudProps.Services.map
        (fun svc => Action.createService "bosh-namespace"
          (buildService "bosh-namespace" "agent-id" svc)) ∧
    (createServices boshEnv boshClient "bosh-namespace" "agent-id"
        sampleCloudProps.Services {}).1 = .ok () ∧
    (createServices serviceCreateFailsEnv boshClient "bosh-namespace" "agent-id"
        (sampleCloudProps.Services ++ [{ Name := "late" }]) {}).1 =
      .error (.other "service-welp") ∧
    (createServices serviceCreateFailsEnv boshClient "bosh-namespace" "agent-id"
        (sampleCloudProps.Services ++ [{ Name := "late" }]) {}).2.log =
      sampleCloudProps.Services.map
        (fun svc => Action.createService "bosh-namespace"
          (buildService "bosh-namespace" "agent-id" svc)) :=
  have h := ((createServices_in_order serviceCreateFailsEnv boshClient "bosh-namespace"
    "agent-id" (sampleCloudProps.Services ++ [{ Name := "late" }]) {}).2.2.2
    (sampleCloudProps.Services.take 1)
    { Name := "blobstore", ClusterIP := "10.0.0.1",
      Ports := [{ Port := 25250, Protocol := "TCP" }] }
    [{ Name := "late" }] _ rfl rfl).2.1 (.other "service-welp") _ rfl
  ⟨by decide, by decide, congrArg Prod.fst h.1, h.2⟩

/-! ## The IP annotation of a created pod -/

theorem String.length_pos_iff_ne_empty (x : String) : x.length > 0 ↔ x ≠ "" := by
  constructor
  · intro h hx
    subst hx
    exact absurd h (by decide)
  · intro h
    by_contra hl
    have h0 : x.data.length = 0 := by
      have : x.length = x.data.length := rfl
      omega
    apply h
    apply String.ext
    exact List.length_eq_zero.mp h0

theorem podsCreate_ok_meta (env : Env) (client : Client) (pod p : Pod) (s t : Cluster)
    (h : podsCreate env client pod s = (.ok p, t)) :
    p.ObjectMeta.Annotations = pod.ObjectMeta.Annotations ∧ p.Spec = pod.Spec := by
  unfold podsCreate at h
  simp only at h
  cases hf : env.fault (Action.createPod client.Namespace pod) with
  | some e => rw [hf] at h; cases h
  | none =>
    rw [hf] at h
    simp only at h
    by_cases hns : pod.ObjectMeta.Namespace = ""
    · simp only [if_pos hns] at h
      split at h
      · cases h
      · split at h
        · cases h
        · injection h with h1 _
          injection h1 with h1
          subst h1
          exact ⟨rfl, rfl⟩
    · simp only [if_neg hns] at h
      split at h
      · cases h
      · split at h
        · cases h
        · injection h with h1 _
          injection h1 with h1
          subst h1
          exact ⟨rfl, rfl⟩

/-- C16: the pod `createPod` creates carries the annotation
`bosh.cloudfoundry.org/ip-address` with the IP of the network exactly when that
IP is not empty, and then it is its only annotation; when the network has no
IP the annotation map of the pod is empty. -/
theorem createPod_ip_annotated (env : Env) (client : Client) (ns agentID image : String)
    (network : Network) (resources : Resources) (s t : Cluster) (pod : Pod)
    (h : createPod env client ns agentID image network resources s = (.ok pod, t)) :
    (GoMap.lookup (entriesOf pod.ObjectMeta.Annotations) "bosh.cloudfoundry.org/ip-address" =
        some network.IP ↔ network.IP ≠ "") ∧
    (network.IP ≠ "" → pod.ObjectMeta.Annotations =
      some [("bosh.cloudfoundry.org/ip-address", network.IP)]) ∧
    (network.IP = "" → pod.ObjectMeta.Annotations = some []) := by
  have hann : pod.ObjectMeta.Annotations =
      some (if network.IP.length > 0 then
        [("bosh.cloudfoundry.org/ip-address", network.IP)] else []) := by
    unfold createPod at h
    cases hr : getPodResourceRequirements env.parseQuantity resources with
    | error e => rw [hr] at h; cases h
    | panic p => rw [hr] at h; cases h
    | ok rr =>
      rw [hr] at h
      simp only at h
      cases hv : createVarVcapVolume env agentID client s with
      | mk r s1 =>
        rw [hv] at h
        cases r with
        | error e => cases h
        | panic p => cases h
        | ok volumeName =>
          simp only [andThen] at h
          exact (podsCreate_ok_meta env client _ pod s1 t h).1
  by_cases hip : network.IP = ""
  · have hl : ¬ (network.IP.length > 0) := fun hl =>
      (String.length_pos_iff_ne_empty _).mp hl hip
    rw [if_neg hl] at hann
    rw [hann]
    refine ⟨⟨fun hh => ?_, fun hh => absurd hip hh⟩, fun hh => absurd hip hh, fun _ => rfl⟩
    simp [entriesOf, GoMap.lookup] at hh
  · have hl : network.IP.length > 0 := (String.length_pos_iff_ne_empty _).mpr hip
    rw [if_pos hl] at hann
    rw [hann]
    refine ⟨⟨fun _ => hip, fun _ => ?_⟩, fun _ => rfl, fun hh => absurd hh hip⟩
    simp [entriesOf, GoMap.lookup]

/-- Witness of C16 on the network of the test `when the network contains an
IP`. -/
theorem createPod_ip_annotated_witness :
    createPod boshEnv boshClient "bosh-namespace" "agent-id" "sykesm/kubernetes-stemcell:999"
        manualNetwork {} {} =
      (.ok (newPod "bosh-namespace" "agent-id" "sykesm/kubernetes-stemcell:999"
        manualNetwork {} "var-vcap-agent-id"), manualPodCluster) ∧
    (GoMap.lookup (entriesOf (newPod "bosh-namespace" "agent-id"
        "sykesm/kubernetes-stemcell:999" manualNetwork {}
        "var-vcap-agent-id").ObjectMeta.Annotations) "bosh.cloudfoundry.org/ip-address" =
      some manualNetwork.IP ↔ manualNetwork.IP ≠ "") :=
  ⟨by decide,
   (createPod_ip_annotated boshEnv boshClient "bosh-namespace" "agent-id"
     "sykesm/kubernetes-stemcell:999" manualNetwork {} {} manualPodCluster
     (newPod "bosh-namespace" "agent-id" "sykesm/kubernetes-stemcell:999"
       manualNetwork {} "var-vcap-agent-id") (by decide)).1⟩

/-! ## Deleting a VM -/

theorem deletePod_of_tolerated (env : Env) (client : Client) (agentID : String)
    (s : Cluster)
    (h : (podsDelete env client ("agent-" ++ agentID) (some 0) s).1 = .ok () ∨
      ∃ msg, (podsDelete env client ("agent-" ++ agentID) (some 0) s).1 =
        .error (.status .notFound msg)) :
    deletePod env client agentID s =
      (.ok (), (podsDelete env client ("agent-" ++ agentID) (some 0) s).2) := by
  unfold deletePod
  cases hd : podsDelete env client ("agent-" ++ agentID) (some 0) s with
  | mk r s1 =>
    rw [hd] at h
    simp only at h
    rcases h with h | ⟨msg, h⟩
    · subst h
      rfl
    · subst h
      rfl

theorem deleteConfigMap_of_tolerated (env : Env) (client : Client) (agentID : String)
    (s : Cluster)
    (h : (configMapsDelete env client ("agent-" ++ agentID) (some 0) s).1 = .ok () ∨
      ∃ msg, (configMapsDelete env client ("agent-" ++ agentID) (some 0) s).1 =
        .error (.status .notFound msg)) :
    deleteConfigMap env client agentID s =
      (.ok (), (configMapsDelete env client ("agent-" ++ agentID) (some 0) s).2) := by
  unfold deleteConfigMap
  cases hd : configMapsDelete env client ("agent-" ++ agentID) (some 0) s with
  | mk r s1 =>
    rw [hd] at h
    simp only at h
    rcases h with h | ⟨msg, h⟩
    · subst h
      rfl
    · subst h
      rfl

theorem configMapsDelete_log (env : Env) (client : Client) (name : String)
    (g : Option Int) (s : Cluster) :
    (configMapsDelete env client name g s).2.log =
      s.log ++ [.deleteConfigMap client.Namespace name g] := by
  unfold configMapsDelete
  simp only
  repeat' split
  all_goals rfl

theorem podsDelete_log (env : Env) (client : Client) (name : String)
    (g : Option Int) (s : Cluster) :
    (podsDelete env client name g s).2.log =
      s.log ++ [.deletePod client.Namespace name g] := by
  unfold podsDelete
  simp only
  repeat' split
  all_goals rfl

/-- C17: when the delete of the pod `agent-<agentID>` and the delete of the
config map `agent-<agentID>` each succeed or fail with a status error of
reason `NotFound`, and the service deletion between them succeeds, `Delete`
returns no error, and the state it leaves is the one after all three steps: the
pod delete is issued first and the config-map delete last. -/
theorem delete_tolerates_not_found (env : Env) (vmcid context agentID : String)
    (client : Client) (s : Cluster)
    (hv : ParseVMCID vmcid = .ok (context, agentID))
    (hc : env.newClient context = .ok client)
    (hpod :
      (podsDelete env client ("agent-" ++ agentID) (some 0)
        (s.record (.newClient context))).1 = .ok () ∨
      ∃ msg, (podsDelete env client ("agent-" ++ agentID) (some 0)
        (s.record (.newClient context))).1 = .error (.status .notFound msg))
    (hsvc :
      (deleteServices env client agentID
        (podsDelete env client ("agent-" ++ agentID) (some 0)
          (s.record (.newClient context))).2).1 = .ok ())
    (hcm :
      (configMapsDelete env client ("agent-" ++ agentID) (some 0)
        (deleteServices env client agentID
          (podsDelete env client ("agent-" ++ agentID) (some 0)
            (s.record (.newClient context))).2).2).1 = .ok () ∨
      ∃ msg, (configMapsDelete env client ("agent-" ++ agentID) (some 0)
        (deleteServices env client agentID
          (podsDelete env client ("agent-" ++ agentID) (some 0)
            (s.record (.newClient context))).2).2).1 = .error (.status .notFound msg)) :
    Delete env vmcid s =
      (.ok (), (configMapsDelete env client ("agent-" ++ agentID) (some 0)
        (deleteServices env client agentID
          (podsDelete env client ("agent-" ++ agentID) (some 0)
            (s.record (.newClient context))).2).2).2) ∧
    (podsDelete env client ("agent-" ++ agentID) (some 0)
        (s.record (.newClient context))).2.log =
      s.log ++ [.newClient context,
        .deletePod client.Namespace ("agent-" ++ agentID) (some 0)] ∧
    (Delete env vmcid s).2.log =
      (deleteServices env client agentID
        (podsDelete env client ("agent-" ++ agentID) (some 0)
          (s.record (.newClient context))).2).2.log ++
        [.deleteConfigMap client.Namespace ("agent-" ++ agentID) (some 0)] := by
  have hmain : Delete env vmcid s =
      (.ok (), (configMapsDelete env client ("agent-" ++ agentID) (some 0)
        (deleteServices env client agentID
          (podsDelete env client ("agent-" ++ agentID) (some 0)
            (s.record (.newClient context))).2).2).2) := by
    unfold Delete
    rw [hv]
    simp only [hc]
    rw [deletePod_of_tolerated env client agentID _ hpod]
    simp only [andThen]
    cases hs : deleteServices env client agentID
        (podsDelete env client ("agent-" ++ agentID) (some 0)
          (s.record (.newClient context))).2 with
    | mk r s3 =>
      rw [hs] at hsvc hcm
      simp only at hsvc hcm
      subst hsvc
      simp only
      rw [deleteConfigMap_of_tolerated env client agentID _ hcm]
  refine ⟨hmain, ?_, ?_⟩
  · rw [podsDelete_log]
    simp [Cluster.record]
  · rw [hmain]
    exact configMapsDelete_log _ _ _ _ _

/-- Witness of C17: deleting a VM of which neither the pod nor the config map
exists. -/
theorem delete_tolerates_not_found_witness :
    (podsDelete boshEnv boshClient ("agent-" ++ "agent-id") (some 0)
      (({} : Cluster).record (.newClient "bosh"))).1 =
        .error (.status .notFound "agent-agent-id") ∧
    (Delete boshEnv "bosh:agent-id" {}).1 = .ok () ∧
    (Delete boshEnv "bosh:agent-id" {}).2.log =
      [.newClient "bosh", .deletePod "bosh-namespace" "agent-agent-id" (some 0),
       .listServices "bosh-namespace" "bosh.cloudfoundry.org/agent-id=agent-id",
       .deleteConfigMap "bosh-namespace" "agent-agent-id" (some 0)] :=
  have h := delete_tolerates_not_found boshEnv "bosh:agent-id" "bosh" "agent-id"
    boshClient {} (by decide) rfl (Or.inr ⟨"agent-agent-id", by decide⟩) (by decide)
    (Or.inr ⟨"agent-agent-id", by decide⟩)
  ⟨by decide, by rw [h.1], by decide⟩

/-! ## Existence checks -/

/-- C19: the disk side and the VM side hold independently of each other. When
the selector parses, the client is constructed and the list of claims for
`bosh.cloudfoundry.org/disk-id=<diskID>` succeeds, `HasDisk` returns true
exactly when that list has an item, and false exactly when it has none. When
the selector parses, the client is constructed and the list of pods for
`bosh.cloudfoundry.org/agent-id=<agentID>` succeeds, `HasVM` returns true
exactly when that list has an item, and `FindVM` returns the decoded context
with the first listed pod, or the empty context and no pod when the list is
empty. -/
theorem has_iff_listed (env : Env) (s : Cluster) :
    (∀ (diskCID dctx diskID dsel : String) (dclient : Client)
        (claims : List PersistentVolumeClaim),
      ParseDiskCID diskCID = .ok (dctx, diskID) →
      env.parseSelector ("bosh.cloudfoundry.org/disk-id=" ++ diskID) = .ok dsel →
      env.newClient dctx = .ok dclient →
      (claimsList env dclient dsel (s.record (.newClient dctx))).1 = .ok claims →
      ((HasDisk env diskCID s).1 = .ok true ↔ claims ≠ []) ∧
      ((HasDisk env diskCID s).1 = .ok false ↔ claims = [])) ∧
    (∀ (vmcid vctx agentID vsel : String) (vclient : Client) (pods : List Pod),
      ParseVMCID vmcid = .ok (vctx, agentID) →
      env.parseSelector ("bosh.cloudfoundry.org/agent-id=" ++ agentID) = .ok vsel →
      env.newClient vctx = .ok vclient →
      (podsList env vclient vsel (s.record (.newClient vctx))).1 = .ok pods →
      ((HasVM env vmcid s).1 = .ok true ↔ pods ≠ []) ∧
      ((HasVM env vmcid s).1 = .ok false ↔ pods = []) ∧
      (∀ pod rest, pods = pod :: rest → (FindVM env vmcid s).1 = .ok (vctx, some pod)) ∧
      (pods = [] → (FindVM env vmcid s).1 = .ok ("", none))) := by
  constructor
  · intro diskCID dctx diskID dsel dclient claims hd hds hdc hdl
    have hdisk : (HasDisk env diskCID s).1 = .ok (decide (claims.length > 0)) := by
      unfold HasDisk
      rw [hd]
      simp only [hds, hdc]
      cases hl : claimsList env dclient dsel (s.record (.newClient dctx)) with
      | mk r s2 =>
        rw [hl] at hdl
        simp only at hdl
        subst hdl
        rfl
    constructor
    · rw [hdisk]
      cases claims <;> simp
    · rw [hdisk]
      cases claims <;> simp
  · intro vmcid vctx agentID vsel vclient pods hv hvs hvc hvl
    obtain ⟨s2, hl2⟩ : ∃ s2, podsList env vclient vsel (s.record (.newClient vctx)) =
        (.ok pods, s2) := by
      cases hl : podsList env vclient vsel (s.record (.newClient vctx)) with
      | mk r s2 =>
        rw [hl] at hvl
        simp only at hvl
        subst hvl
        exact ⟨s2, rfl⟩
    have hfc : ∀ pod rest, pods = pod :: rest →
        FindVM env vmcid s = (.ok (vctx, some pod), s2) := by
      intro pod rest hp
      subst hp
      unfold FindVM
      rw [hv]
      simp only [hvs, hvc, hl2, andThen]
    have hfn : pods = [] → FindVM env vmcid s = (.ok ("", none), s2) := by
      intro hp
      subst hp
      unfold FindVM
      rw [hv]
      simp only [hvs, hvc, hl2, andThen]
    have hvm : (HasVM env vmcid s).1 = .ok (decide (pods ≠ [])) := by
      unfold HasVM
      cases hp : pods with
      | nil =>
        rw [hfn hp]
        rfl
      | cons pod rest =>
        rw [hfc pod rest hp]
        rfl
    refine ⟨?_, ?_, ?_, ?_⟩
    · rw [hvm]
      cases pods <;> simp
    · rw [hvm]
      cases pods <;> simp
    · intro pod rest hp
      rw [hfc pod rest hp]
    · intro hp
      rw [hfn hp]

/-- Witness of C19 on the cluster after a create: the VM is there, a disk is
not; and with every pod list failing, `HasDisk` still answers for the claim
list. -/
theorem has_iff_listed_witness :
    (HasDisk boshEnv "bosh:disk-id" createdCluster).1 = .ok false ∧
    (HasVM boshEnv "bosh:agent-id" createdCluster).1 = .ok true ∧
    (FindVM boshEnv "bosh:agent-id" createdCluster).1 =
      .ok ("bosh", some (newPod "bosh-namespace" "agent-id" "sykesm/kubernetes-stemcell:999"
        { Other := "dynamic" } {} "var-vcap-agent-id")) ∧
    (HasDisk listPodsFailsEnv "bosh:disk-id" diskCluster).1 = .ok true :=
  have hd := (has_iff_listed boshEnv createdCluster).1
    "bosh:disk-id" "bosh" "disk-id" "bosh.cloudfoundry.org/disk-id=disk-id" boshClient []
    (by decide) rfl rfl (by decide)
  have hv := (has_iff_listed boshEnv createdCluster).2
    "bosh:agent-id" "bosh" "agent-id" "bosh.cloudfoundry.org/agent-id=agent-id" boshClient
    [newPod "bosh-namespace" "agent-id" "sykesm/kubernetes-stemcell:999"
      { Other := "dynamic" } {} "var-vcap-agent-id"]
    (by decide) rfl rfl (by decide)
  have hf := (has_iff_listed listPodsFailsEnv diskCluster).1
    "bosh:disk-id" "bosh" "disk-id" "bosh.cloudfoundry.org/disk-id=disk-id" boshClient
    (diskCluster.claims.drop 1) (by decide) rfl rfl (by decide)
  ⟨hd.2.mpr rfl, hv.1.mpr (by decide), hv.2.2.1 _ [] rfl, hf.1.mpr (by decide)⟩

/-! ## The disks of a VM -/

theorem claimsGet_no_panic (env : Env) (client : Client) (name : String) (s : Cluster)
    (p : Panic) : (claimsGet env client name s).1 ≠ .panic p := by
  unfold claimsGet
  simp only
  repeat' split
  all_goals (intro h; cases h)

theorem claimsGet_claims (env : Env) (client : Client) (name : String) (s : Cluster) :
    (claimsGet env client name s).2.claims = s.claims := by
  unfold claimsGet
  simp only
  repeat' split
  all_goals rfl

/-- The result of a claim lookup depends on the stored claims only. -/
theorem claimsGet_of_claims (env : Env) (client : Client) (name : String) (s t : Cluster)
    (h : t.claims = s.claims) :
    (claimsGet env client name t).1 = (claimsGet env client name s).1 := by
  unfold claimsGet Cluster.findClaim
  simp only [Cluster.record, h]
  repeat' split
  all_goals rfl

/-- The loop of `GetDisks`: with no lookup failure it appends the disks of the
volumes in order; otherwise it returns the failure of the first volume that has
one. The lookups are those of the state `s`, which has the stored claims of the
state the loop runs in. -/
theorem collectDisks_spec (env : Env) (client : Client) (context : String) (s : Cluster)
    (vols : List Volume) (acc : List String) (t : Cluster) (ht : t.claims = s.claims) :
    ((∀ v ∈ vols, lookupFailure env client s v = none) →
      (collectDisks env client context vols acc t).1 =
        .ok (acc ++ vols.filterMap (diskOfVolume env client context s))) ∧
    (∀ pre v post e, vols = pre ++ v :: post →
      (∀ u ∈ pre, lookupFailure env client s u = none) →
      lookupFailure env client s v = some e →
      (collectDisks env client context vols acc t).1 = .error e) := by
  induction vols generalizing acc t with
  | nil =>
    constructor
    · intro _
      simp [collectDisks]
    · intro pre v post e hsplit
      cases pre <;> cases hsplit
  | cons v rest ih =>
    cases hsrc : v.VolumeSource.PersistentVolumeClaim with
    | none =>
      have hlf : lookupFailure env client s v = none := by
        simp [lookupFailure, claimLookup, hsrc]
      have hdv : diskOfVolume env client context s v = none := by
        simp [diskOfVolume, claimLookup, hsrc]
      have hstep : collectDisks env client context (v :: rest) acc t =
          collectDisks env client context rest acc t := by
        rw [collectDisks]
        simp only [getPVClaim, hsrc]
      obtain ⟨ih1, ih2⟩ := ih acc t ht
      rw [hstep]
      constructor
      · intro hall
        rw [ih1 (fun u hu => hall u (by simp [hu]))]
        simp [List.filterMap_cons, hdv]
      · intro pre u post e hsplit hpre hu
        cases pre with
        | nil =>
          injection hsplit with h1 h2
          subst h1
          rw [hlf] at hu
          cases hu
        | cons w pre2 =>
          injection hsplit with h1 h2
          exact ih2 pre2 u post e h2 (fun x hx => hpre x (by simp [hx])) hu
    | some cn =>
      have hres := claimsGet_of_claims env client cn s t ht
      have hcl := claimsGet_claims env client cn t
      have hnp := claimsGet_no_panic env client cn t
      cases hg : claimsGet env client cn t with
      | mk r t1 =>
        rw [hg] at hres hcl hnp
        simp only at hres hcl hnp
        have ht1 : t1.claims = s.claims := hcl.trans ht
        cases r with
        | panic p => exact absurd rfl (hnp p)
        | error e1 =>
          by_cases hnf : isNotFoundStatusError e1 = true
          · have hlf : lookupFailure env client s v = none := by
              simp [lookupFailure, claimLookup, hsrc, ← hres, hnf]
            have hdv : diskOfVolume env client context s v = none := by
              simp [diskOfVolume, claimLookup, hsrc, ← hres]
            have hstep : collectDisks env client context (v :: rest) acc t =
                collectDisks env client context rest acc t1 := by
              rw [collectDisks]
              simp only [getPVClaim, hsrc, hg, andThen, hnf, Bool.not_true,
                Bool.false_eq_true, if_false]
            obtain ⟨ih1, ih2⟩ := ih acc t1 ht1
            rw [hstep]
            constructor
            · intro hall
              rw [ih1 (fun u hu => hall u (by simp [hu]))]
              simp [List.filterMap_cons, hdv]
            · intro pre u post e hsplit hpre hu
              cases pre with
              | nil =>
                injection hsplit with h1 h2
                subst h1
                rw [hlf] at hu
                cases hu
              | cons w pre2 =>
                injection hsplit with h1 h2
                exact ih2 pre2 u post e h2 (fun x hx => hpre x (by simp [hx])) hu
          · have hnf2 : isNotFoundStatusError e1 = false := by
              cases h : isNotFoundStatusError e1
              · rfl
              · exact absurd h hnf
            have hlf : lookupFailure env client s v = some e1 := by
              simp [lookupFailure, claimLookup, hsrc, ← hres, hnf2]
            have hstep : collectDisks env client context (v :: rest) acc t =
                (.error e1, t1) := by
              rw [collectDisks]
              simp only [getPVClaim, hsrc, hg, andThen, hnf2, Bool.not_false, if_true]
            rw [hstep]
            constructor
            · intro hall
              have := hall v (by simp)
              rw [hlf] at this
              cases this
            · intro pre u post e hsplit hpre hu
              cases pre with
              | nil =>
                injection hsplit with h1 h2
                subst h1
                rw [hlf] at hu
                injection hu with hu
                rw [hu]
              | cons w pre2 =>
                injection hsplit with h1 h2
                subst h1
                have := hpre v (by simp)
                rw [hlf] at this
                cases this
        | ok pvc =>
          have hlf : lookupFailure env client s v = none := by
            simp [lookupFailure, claimLookup, hsrc, ← hres]
          cases hlab : GoMap.lookup (entriesOf pvc.ObjectMeta.Labels)
              "bosh.cloudfoundry.org/disk-id" with
          | none =>
            have hdv : diskOfVolume env client context s v = none := by
              simp [diskOfVolume, claimLookup, hsrc, ← hres, hlab]
            have hstep : collectDisks env client context (v :: rest) acc t =
                collectDisks env client context rest acc t1 := by
              rw [collectDisks]
              simp only [getPVClaim, hsrc, hg, andThen, hlab]
            obtain ⟨ih1, ih2⟩ := ih acc t1 ht1
            rw [hstep]
            constructor
            · intro hall
              rw [ih1 (fun u hu => hall u (by simp [hu]))]
              simp [List.filterMap_cons, hdv]
            · intro pre u post e hsplit hpre hu
              cases pre with
              | nil =>
                injection hsplit with h1 h2
                subst h1
                rw [hlf] at hu
                cases hu
              | cons w pre2 =>
                injection hsplit with h1 h2
                exact ih2 pre2 u post e h2 (fun x hx => hpre x (by simp [hx])) hu
          | some label =>
            have hdv : diskOfVolume env client context s v =
                some (NewDiskCID context label) := by
              simp [diskOfVolume, claimLookup, hsrc, ← hres, hlab]
            have hstep : collectDisks env client context (v :: rest) acc t =
                collectDisks env client context rest
                  (acc ++ [NewDiskCID context label]) t1 := by
              rw [collectDisks]
              simp only [getPVClaim, hsrc, hg, andThen, hlab]
            obtain ⟨ih1, ih2⟩ := ih (acc ++ [NewDiskCID context label]) t1 ht1
            rw [hstep]
            constructor
            · intro hall
              rw [ih1 (fun u hu => hall u (by simp [hu]))]
              simp [List.filterMap_cons, hdv]
            · intro pre u post e hsplit hpre hu
              cases pre with
              | nil =>
                injection hsplit with h1 h2
                subst h1
                rw [hlf] at hu
                cases hu
              | cons w pre2 =>
                injection hsplit with h1 h2
                exact ih2 pre2 u post e h2 (fun x hx => hpre x (by simp [hx])) hu

/-- C20: `GetDisks` returns the empty list and no error when the get of the pod
`agent-<agentID>` fails with a not-found status, and the error of the get for
every other failure. When the pod is found and no claim lookup fails with
anything but not-found, it returns, in volume order, one identifier
`<context>:<label>` for each volume that is backed by a claim which the lookup
finds and which carries the label `bosh.cloudfoundry.org/disk-id=<label>`,
and nothing for the other volumes; otherwise it returns the error of the
first such failing lookup. -/
theorem getDisks_spec (env : Env) (vmcid context agentID : String) (client : Client)
    (s : Cluster)
    (hv : ParseVMCID vmcid = .ok (context, agentID))
    (hc : env.newClient context = .ok client) :
    (∀ e, (podsGet env client ("agent-" ++ agentID) (s.record (.newClient context))).1 =
        .error e →
      (isNotFoundStatusError e = true → (GetDisks env vmcid s).1 = .ok []) ∧
      (isNotFoundStatusError e = false → (GetDisks env vmcid s).1 = .error e)) ∧
    (∀ pod, (podsGet env client ("agent-" ++ agentID) (s.record (.newClient context))).1 =
        .ok pod →
      ((∀ v ∈ pod.Spec.Volumes, lookupFailure env client s v = none) →
        (GetDisks env vmcid s).1 =
          .ok (pod.Spec.Volumes.filterMap (diskOfVolume env client context s))) ∧
      (∀ pre v post e, pod.Spec.Volumes = pre ++ v :: post →
        (∀ u ∈ pre, lookupFailure env client s u = none) →
        lookupFailure env client s v = some e →
        (GetDisks env vmcid s).1 = .error e)) := by
  have hst := podsGet_state env client ("agent-" ++ agentID) (s.record (.newClient context))
  cases hg : podsGet env client ("agent-" ++ agentID) (s.record (.newClient context)) with
  | mk r s2 =>
    rw [hg] at hst
    simp only at hst
    have hs2 : s2.claims = s.claims := by
      rw [hst]
      rfl
    have hunf : GetDisks env vmcid s =
        (match r with
          | .panic p => (.panic p, s2)
          | .error e => if isNotFoundStatusError e then (.ok [], s2) else (.error e, s2)
          | .ok pod => collectDisks env client context pod.Spec.Volumes [] s2) := by
      unfold GetDisks
      rw [hv]
      simp only [hc, hg]
      cases r <;> rfl
    constructor
    · intro e he
      simp only at he
      subst he
      rw [hunf]
      constructor
      · intro hnf
        simp only [hnf, if_true]
      · intro hnf
        simp only [hnf, Bool.false_eq_true, if_false]
    · intro pod hp
      simp only at hp
      subst hp
      rw [hunf]
      obtain ⟨h1, h2⟩ := collectDisks_spec env client context s pod.Spec.Volumes [] s2 hs2
      constructor
      · intro hall
        simp only
        rw [h1 hall]
        simp
      · intro pre v post e hsplit hpre hv2
        exact h2 pre v post e hsplit hpre hv2

/-- Witness of C20 on a pod with the settings volume, the `var-vcap` claim, the
disk `disk-id` and a disk whose claim is gone, and on an empty cluster. -/
theorem getDisks_spec_witness :
    (podsGet boshEnv boshClient ("agent-" ++ "agent-id")
      (diskCluster.record (.newClient "bosh"))).1 = .ok diskPod ∧
    (GetDisks boshEnv "bosh:agent-id" diskCluster).1 =
      .ok (diskPod.Spec.Volumes.filterMap (diskOfVolume boshEnv boshClient "bosh" diskCluster)) ∧
    diskPod.Spec.Volumes.filterMap (diskOfVolume boshEnv boshClient "bosh" diskCluster) =
      ["bosh:disk-id"] ∧
    (GetDisks boshEnv "bosh:agent-id" {}).1 = .ok [] :=
  ⟨by decide,
   ((getDisks_spec boshEnv "bosh:agent-id" "bosh" "agent-id" boshClient diskCluster
      (by decide) rfl).2 diskPod (by decide)).1 (by decide),
   by decide,
   ((getDisks_spec boshEnv "bosh:agent-id" "bosh" "agent-id" boshClient {}
      (by decide) rfl).1 (.status .notFound "agent-agent-id") (by decide)).1 (by decide)⟩

/-! ## The splice: what it adds, what it cuts and what it leaves -/

/-- The container loop of `addVolume` on a list cut at its first `bosh-job`
container. -/
theorem addMount_split (m : VolumeMount) (pre : List Container) (c : Container)
    (post : List Container) (hpre : ∀ x ∈ pre, x.Name ≠ "bosh-job")
    (hc : c.Name = "bosh-job") :
    addMount m (pre ++ c :: post) =
      pre ++ { c with VolumeMounts := c.VolumeMounts ++ [m] } :: post := by
  induction pre with
  | nil => simp [addMount, hc]
  | cons x rest ih =>
    have hx : x.Name ≠ "bosh-job" := hpre x (by simp)
    have hr : ∀ y ∈ rest, y.Name ≠ "bosh-job" := fun y hy => hpre y (by simp [hy])
    simp [addMount, hx, ih hr]

/-- The container loop of `addVolume` leaves the containers of other names as
they are, in their order. -/
theorem addMount_filter_others (m : VolumeMount) (cs : List Container) :
    (addMount m cs).filter (fun c => decide (c.Name ≠ "bosh-job")) =
      cs.filter (fun c => decide (c.Name ≠ "bosh-job")) := by
  induction cs with
  | nil => rfl
  | cons c rest ih =>
    by_cases hc : c.Name = "bosh-job"
    · simp [addMount, hc, List.filter_cons]
    · have ih2 := ih
      simp only [ne_eq, decide_not] at ih2
      simp [addMount, hc, List.filter_cons, ih2]

/-- Cutting the first element of a name out of a list cut at that element. -/
theorem eraseP_split {α : Type} (p : α → Bool) (pre : List α) (x : α) (post : List α)
    (hpre : ∀ a ∈ pre, ¬ p a = true) (hx : p x = true) :
    (pre ++ x :: post).eraseP p = pre ++ post := by
  rw [List.eraseP_append_right _ hpre, List.eraseP_cons_of_pos hx]

/-- C21: `addVolume` appends exactly one volume named `disk-<id>`, backed by the
claim `disk-<id>`, at the end of the volume list, and exactly one mount of the
name `disk-<id>` and the path `/mnt/<id>` at the end of the mount list of the
`bosh-job` container (the first container of that name). Every existing volume
and mount stays in place and in order, every other container and the rest of
the spec are unchanged; a spec with no `bosh-job` container keeps its
containers as they are. -/
theorem addVolume_frame (spec : PodSpec) (diskID : String) :
    (addVolume spec diskID).Volumes = spec.Volumes ++
      [{ Name := "disk-" ++ diskID,
         VolumeSource := { PersistentVolumeClaim := some ("disk-" ++ diskID) } }] ∧
    (addVolume spec diskID).Hostname = spec.Hostname ∧
    (∀ pre c post, spec.Containers = pre ++ c :: post →
      (∀ x ∈ pre, x.Name ≠ "bosh-job") → c.Name = "bosh-job" →
      (addVolume spec diskID).Containers =
        pre ++ { c with VolumeMounts := c.VolumeMounts ++
          [{ Name := "disk-" ++ diskID, MountPath := "/mnt/" ++ diskID }] } :: post) ∧
    (addVolume spec diskID).Containers.filter (fun c => decide (c.Name ≠ "bosh-job")) =
      spec.Containers.filter (fun c => decide (c.Name ≠ "bosh-job")) ∧
    ((∀ x ∈ spec.Containers, x.Name ≠ "bosh-job") →
      (addVolume spec diskID).Containers = spec.Containers) := by
  refine ⟨rfl, rfl, ?_, ?_, ?_⟩
  · intro pre c post hs hpre hc
    show addMount _ spec.Containers = _
    rw [hs, addMount_split _ pre c post hpre hc]
  · exact addMount_filter_others _ spec.Containers
  · intro h
    exact addMount_of_no_boshJob _ spec.Containers h

/-- Witness of C21 on the sample spec: the volume `disk-disk-id` comes last, its
mount comes last on the `bosh-job` container, the second container is as it
was. -/
theorem addVolume_frame_witness :
    (addVolume sampleSpec "disk-id").Containers =
      [{ Name := "bosh-job", Image := "stemcell-name",
         VolumeMounts := [
           sampleConfigMount,
           { Name := "var-vcap", MountPath := "/var/vcap", SubPath := "vcap" },
           { Name := "disk-disk-id", MountPath := "/mnt/disk-id" }] },
       { Name := "ignored-name", Image := "ignored-image" }] :=
  (addVolume_frame sampleSpec "disk-id").2.2.1 []
    { Name := "bosh-job", Image := "stemcell-name",
      VolumeMounts := [
        sampleConfigMount,
        { Name := "var-vcap", MountPath := "/var/vcap", SubPath := "vcap" }] }
    [{ Name := "ignored-name", Image := "ignored-image" }] rfl (by simp) rfl

/-- Go `removeVolume` container by container. -/
theorem removeMount_mountCut (name : String) (c : Container) :
    mountCut name c (if c.Name = "bosh-job" then removeMount name c else c) := by
  by_cases hc : c.Name = "bosh-job"
  · rw [if_pos hc]
    refine ⟨rfl, fun h => absurd hc h, fun _ => ⟨?_, ?_⟩⟩
    · intro pre m post hs hpre hm
      show c.VolumeMounts.eraseP _ = _
      rw [hs]
      apply eraseP_split
      · intro a ha
        simpa using hpre a ha
      · simpa using hm
    · intro h
      exact removeMount_of_absent name c h
  · rw [if_neg hc]
    exact ⟨rfl, fun _ => rfl, fun h => absurd h hc⟩

/-- C22: detaching an absent disk is a no-op: on a spec with no volume named
`disk-<id>` and no mount of that name on a `bosh-job` container,
`removeVolume` returns the spec unchanged. When the disk is present,
`removeVolume` cuts the (first) volume of that name out of the volume list and
the (first) mount of that name out of the mount list of each `bosh-job`
container, and changes nothing else: the other volumes and mounts keep their
order, the other containers and the rest of the spec are as they were. -/
theorem removeVolume_frame (spec : PodSpec) (diskID : String) :
    ((∀ v ∈ spec.Volumes, v.Name ≠ "disk-" ++ diskID) →
      (∀ c ∈ spec.Containers, c.Name = "bosh-job" →
        ∀ m ∈ c.VolumeMounts, m.Name ≠ "disk-" ++ diskID) →
      removeVolume spec diskID = spec) ∧
    (∀ pre v post, spec.Volumes = pre ++ v :: post →
      (∀ x ∈ pre, x.Name ≠ "disk-" ++ diskID) → v.Name = "disk-" ++ diskID →
      (removeVolume spec diskID).Volumes = pre ++ post) ∧
    ((∀ v ∈ spec.Volumes, v.Name ≠ "disk-" ++ diskID) →
      (removeVolume spec diskID).Volumes = spec.Volumes) ∧
    (removeVolume spec diskID).Hostname = spec.Hostname ∧
    List.Forall₂ (mountCut ("disk-" ++ diskID)) spec.Containers
      (removeVolume spec diskID).Containers := by
  have hvol : (∀ v ∈ spec.Volumes, v.Name ≠ "disk-" ++ diskID) →
      spec.Volumes.eraseP (fun v => decide (v.Name = "disk-" ++ diskID)) = spec.Volumes := by
    intro hv
    rw [List.eraseP_of_forall_not]
    intro a ha
    simpa using hv a ha
  refine ⟨?_, ?_, ?_, rfl, ?_⟩
  · intro hv hm
    unfold removeVolume
    rw [hvol hv, removeMounts_of_absent _ spec.Containers hm]
  · intro pre v post hs hpre hv
    show spec.Volumes.eraseP _ = _
    rw [hs]
    apply eraseP_split
    · intro a ha
      simpa using hpre a ha
    · simpa using hv
  · intro hv
    exact hvol hv
  · show List.Forall₂ _ spec.Containers (spec.Containers.map _)
    generalize spec.Containers = cs
    induction cs with
    | nil => exact List.Forall₂.nil
    | cons c rest ih =>
      rw [List.map_cons]
      exact List.Forall₂.cons (removeMount_mountCut _ c) ih

/-- Witness of C22: on the sample spec, which has no disk, the detach of
`disk-id` changes nothing; on the sample spec with the disk `a` attached, the
detach of `a` leaves the two volumes the spec had before. -/
theorem removeVolume_frame_witness :
    removeVolume sampleSpec "disk-id" = sampleSpec ∧
    (removeVolume sampleSpecWithDisk "a").Volumes = sampleSpec.Volumes :=
  ⟨(removeVolume_frame sampleSpec "disk-id").1 (by decide) (by decide),
   (removeVolume_frame sampleSpecWithDisk "a").2.1 sampleSpec.Volumes
     { Name := "disk-a", VolumeSource := { PersistentVolumeClaim := some "disk-a" } } []
     rfl (by decide) rfl⟩

/-! ## Readiness of the agent container -/

/-- The first element a predicate holds of, as a cut of the list. -/
theorem find?_eq_some_split {α : Type} (p : α → Bool) (l : List α) (b : α) :
    l.find? p = some b ↔
      ∃ pre post, l = pre ++ b :: post ∧ (∀ a ∈ pre, ¬ p a = true) ∧ p b = true := by
  induction l with
  | nil => simp
  | cons x rest ih =>
    by_cases hx : p x = true
    · rw [List.find?_cons_of_pos _ hx]
      constructor
      · intro h
        cases h
        exact ⟨[], rest, rfl, by simp, hx⟩
      · rintro ⟨pre, post, hl, hpre, _⟩
        cases pre with
        | nil =>
          simp only [List.nil_append, List.cons.injEq] at hl
          rw [hl.1]
        | cons y ys =>
          simp only [List.cons_append, List.cons.injEq] at hl
          exact absurd (hl.1 ▸ hx) (hpre y (by simp))
    · rw [List.find?_cons_of_neg _ hx, ih]
      constructor
      · rintro ⟨pre, post, hl, hpre, hb⟩
        refine ⟨x :: pre, post, by rw [hl]; rfl, ?_, hb⟩
        intro a ha
        rcases List.mem_cons.mp ha with rfl | h
        · exact hx
        · exact hpre a h
      · rintro ⟨pre, post, hl, hpre, hb⟩
        cases pre with
        | nil =>
          simp only [List.nil_append, List.cons.injEq] at hl
          exact absurd (hl.1 ▸ hb) hx
        | cons y ys =>
          simp only [List.cons_append, List.cons.injEq] at hl
          exact ⟨ys, post, hl.2, fun a ha => hpre a (by simp [ha]), hb⟩

/-- The first element a predicate holds of is found among the elements the
predicate holds of. -/
theorem find?_filter_self {α : Type} (p : α → Bool) (l : List α) :
    (l.filter p).find? p = l.find? p := by
  induction l with
  | nil => rfl
  | cons x rest ih =>
    by_cases hx : p x = true
    · simp [List.filter_cons, hx]
    · simp [List.filter_cons, hx, ih]

/-- When at most one element satisfies the predicate, the first such element is
any such element. -/
theorem find?_of_unique {α : Type} (p : α → Bool) (l : List α) (b : α)
    (hu : (l.filter p).length ≤ 1) (hb : b ∈ l) (hp : p b = true) : l.find? p = some b := by
  induction l with
  | nil => simp at hb
  | cons x rest ih =>
    by_cases hx : p x = true
    · rw [List.find?_cons_of_pos _ hx]
      rcases List.mem_cons.mp hb with rfl | h
      · rfl
      · exfalso
        have hmem : b ∈ rest.filter p := List.mem_filter.mpr ⟨h, hp⟩
        have hpos : 0 < (rest.filter p).length := List.length_pos_of_mem hmem
        simp only [List.filter_cons, hx, if_true, List.length_cons] at hu
        omega
    · rw [List.find?_cons_of_neg _ hx]
      rcases List.mem_cons.mp hb with rfl | h
      · exact absurd hp hx
      · apply ih _ h
        simpa [List.filter_cons, hx] using hu

/-- C25: `isAgentContainerRunning(pod)` is true exactly when the phase of the pod
is `Running` and the status of the `bosh-job` container (the first container
status of that name) is ready with a running state. A pod in the phase
`Pending` is not ready whatever its container statuses say, and the statuses of
other containers do not affect the result: two pods of the same phase whose
`bosh-job` statuses agree get the same answer. When at most one status carries
the name `bosh-job`, the answer is true exactly when the phase is `Running` and
the statuses include one named `bosh-job` that is ready and running. -/
theorem isAgentContainerRunning_iff (pod : Pod) :
    (isAgentContainerRunning pod = true ↔
      pod.Status.Phase = "Running" ∧
      ∃ pre cs post, pod.Status.ContainerStatuses = pre ++ cs :: post ∧
        (∀ x ∈ pre, x.Name ≠ "bosh-job") ∧ cs.Name = "bosh-job" ∧
        cs.Ready = true ∧ cs.Running = true) ∧
    (pod.Status.Phase = "Pending" → isAgentContainerRunning pod = false) ∧
    (∀ other : Pod, other.Status.Phase = pod.Status.Phase →
      other.Status.ContainerStatuses.filter (fun cs => decide (cs.Name = "bosh-job")) =
        pod.Status.ContainerStatuses.filter (fun cs => decide (cs.Name = "bosh-job")) →
      isAgentContainerRunning other = isAgentContainerRunning pod) ∧
    ((pod.Status.ContainerStatuses.filter (fun cs => decide (cs.Name = "bosh-job"))).length ≤ 1 →
      (isAgentContainerRunning pod = true ↔
        pod.Status.Phase = "Running" ∧
        ∃ cs ∈ pod.Status.ContainerStatuses,
          cs.Name = "bosh-job" ∧ cs.Ready = true ∧ cs.Running = true)) := by
  have hmain : isAgentContainerRunning pod = true ↔
      pod.Status.Phase = "Running" ∧
      ∃ cs, pod.Status.ContainerStatuses.find? (fun cs => decide (cs.Name = "bosh-job")) = some cs ∧
        cs.Ready = true ∧ cs.Running = true := by
    unfold isAgentContainerRunning
    by_cases hph : pod.Status.Phase = "Running"
    · simp only [hph, ne_eq, not_true_eq_false, if_false, true_and]
      cases hf : pod.Status.ContainerStatuses.find? (fun cs => decide (cs.Name = "bosh-job")) with
      | none => simp
      | some cs => simp
    · simp [hph]
  refine ⟨?_, ?_, ?_, ?_⟩
  · rw [hmain]
    constructor
    · rintro ⟨hph, cs, hf, hr, hrun⟩
      obtain ⟨pre, post, hl, hpre, hb⟩ := (find?_eq_some_split _ _ _).mp hf
      exact ⟨hph, pre, cs, post, hl, fun x hx => by simpa using hpre x hx, by simpa using hb,
        hr, hrun⟩
    · rintro ⟨hph, pre, cs, post, hl, hpre, hn, hr, hrun⟩
      refine ⟨hph, cs, (find?_eq_some_split _ _ _).mpr ⟨pre, post, hl, ?_, by simpa using hn⟩,
        hr, hrun⟩
      intro a ha
      simpa using hpre a ha
  · intro hph
    unfold isAgentContainerRunning
    simp [hph]
  · intro other hph hfl
    unfold isAgentContainerRunning
    rw [hph, ← find?_filter_self _ other.Status.ContainerStatuses, hfl, find?_filter_self]
  · intro hu
    rw [hmain]
    constructor
    · rintro ⟨hph, cs, hf, hr, hrun⟩
      have hmem := List.mem_of_find?_eq_some hf
      have hn := List.find?_some hf
      exact ⟨hph, cs, hmem, by simpa using hn, hr, hrun⟩
    · rintro ⟨hph, cs, hmem, hn, hr, hrun⟩
      exact ⟨hph, cs, find?_of_unique _ _ cs hu hmem (by simpa using hn), hr, hrun⟩

/-- Witness of C25: the running sample pod is ready, and the same pod in the
phase `Pending` is not. -/
theorem isAgentContainerRunning_iff_witness :
    isAgentContainerRunning samplePod = true ∧
    isAgentContainerRunning { samplePod with Status := { samplePod.Status with Phase := "Pending" } }
      = false :=
  ⟨((isAgentContainerRunning_iff samplePod).2.2.2 (by decide)).mpr
     ⟨rfl, { Name := "bosh-job", Ready := true, Running := true }, by decide, rfl, rfl, rfl⟩,
   (isAgentContainerRunning_iff
     { samplePod with Status := { samplePod.Status with Phase := "Pending" } }).2.1 rfl⟩

/-! ## The readiness wait -/

/-- The select loop passes over the events it skips. -/
theorem waitLoop_skip (skipped rest : List WatchEvent)
    (hs : ∀ e ∈ skipped, notYetReady e = true) :
    waitLoop (skipped ++ rest) = waitLoop rest := by
  induction skipped with
  | nil => rfl
  | cons e es ih =>
    have he := hs e (by simp)
    have hes : ∀ x ∈ es, notYetReady x = true := fun x hx => hs x (by simp [hx])
    unfold notYetReady at he
    simp only [Bool.and_eq_true, decide_eq_true_eq] at he
    obtain ⟨hty, hobj⟩ := he
    rw [List.cons_append, waitLoop, if_pos hty]
    cases ho : e.Object with
    | pod pod =>
      rw [ho] at hobj
      simp only [Bool.not_eq_true'] at hobj
      simp only [hobj, Bool.false_eq_true, if_false]
      exact ih hes
    | other ty =>
      rw [ho] at hobj
      simp at hobj

/-- The result of `waitForPod` when the watch starts: the one of the select
loop on the events delivered before the timer fires. -/
theorem waitForPod_result (vm : VolumeManager) (env : Env) (client : Client)
    (agentID rv : String) (s : Cluster)
    (hw : env.fault (.watchPods client.Namespace
      ("bosh.cloudfoundry.org/agent-id=" ++ agentID) rv) = none) :
    (waitForPod vm env client agentID rv s).1 = waitLoop env.events := by
  unfold waitForPod
  simp only [hw]

/-- C26: the outcome of the readiness wait is decided by the first decisive
watch event delivered before the deadline. `Modified` events carrying a pod that
is not ready yet are skipped. After them, a `Modified` event carrying a ready
pod yields success, a `Modified` event whose payload is not a pod yields the
error `Unexpected object type: ...`, and an event of any other type yields the
error `Unexpected pod watch event: ...`. When the deadline fires with no
decisive event, the wait returns false, and `AttachDisk` and `DetachDisk` fail
with `Pod recreate failed with a timeout`. -/
theorem wait_decided_by_first_decisive (vm : VolumeManager) (env : Env) (client : Client)
    (agentID rv : String) (s : Cluster) (skipped : List WatchEvent)
    (hw : env.fault (.watchPods client.Namespace
      ("bosh.cloudfoundry.org/agent-id=" ++ agentID) rv) = none)
    (hs : ∀ e ∈ skipped, notYetReady e = true) :
    (∀ e rest pod, env.events = skipped ++ e :: rest → e.EventType = "MODIFIED" →
      e.Object = .pod pod → isAgentContainerRunning pod = true →
      (waitForPod vm env client agentID rv s).1 = .ok true) ∧
    (∀ e rest ty, env.events = skipped ++ e :: rest → e.EventType = "MODIFIED" →
      e.Object = .other ty →
      (waitForPod vm env client agentID rv s).1 = .error (.unexpectedObjectType ty)) ∧
    (∀ e rest, env.events = skipped ++ e :: rest → e.EventType ≠ "MODIFIED" →
      (waitForPod vm env client agentID rv s).1 = .error (.unexpectedWatchEvent e.EventType)) ∧
    (env.events = skipped →
      (waitForPod vm env client agentID rv s).1 = .ok false ∧
      ∀ op vmcid diskCID s0 context diskID pod s1 s2 s3 updated,
        ParseVMCID vmcid = .ok (context, agentID) →
        ParseDiskCID diskCID = .ok (context, diskID) →
        env.newClient context = .ok client →
        podsGet env client ("agent-" ++ agentID) (s0.record (.newClient context)) =
          (.ok pod, s1) →
        updateConfigMapDisks env client op agentID diskID s1 = (.ok (), s2) →
        podsDelete env client ("agent-" ++ agentID) (some 0) s2 = (.ok (), s3) →
        podsCreate env client (recreatedPod op pod diskID) s3 = (.ok updated, s) →
        updated.ObjectMeta.ResourceVersion = rv →
        (changeDisk op vm env vmcid diskCID s0).1 = .error .recreateTimeout) := by
  have hres := waitForPod_result vm env client agentID rv s hw
  refine ⟨?_, ?_, ?_, ?_⟩
  · intro e rest pod hev hty hobj hrun
    rw [hres, hev, waitLoop_skip _ _ hs, waitLoop, if_pos hty, hobj]
    simp only [hrun, if_true]
  · intro e rest ty hev hty hobj
    rw [hres, hev, waitLoop_skip _ _ hs, waitLoop, if_pos hty, hobj]
  · intro e rest hev hty
    rw [hres, hev, waitLoop_skip _ _ hs, waitLoop, if_neg hty]
  · intro hev
    have hfalse : (waitForPod vm env client agentID rv s).1 = .ok false := by
      rw [hres, hev]
      have := waitLoop_skip skipped [] hs
      rw [List.append_nil] at this
      rw [this]
      rfl
    refine ⟨hfalse, ?_⟩
    intro op vmcid diskCID s0 context diskID pod s1 s2 s3 updated hv hd hc hget hupd hdel
      hcr hrv
    have hrec : (recreatePod vm env client op agentID diskID
        (s0.record (.newClient context))).1 = .error .recreateTimeout := by
      unfold recreatePod
      rw [hget]
      simp only [andThen]
      rw [hupd]
      simp only
      rw [hdel]
      simp only
      rw [hcr]
      simp only
      rw [hrv]
      cases hwf : waitForPod vm env client agentID rv s with
      | mk r s5 =>
        rw [hwf] at hfalse
        simp only at hfalse
        subst hfalse
        simp
    cases op with
    | Add =>
      unfold changeDisk AttachDisk
      simp only [hv, hd, ne_eq, not_true_eq_false, if_false, hc]
      exact hrec
    | Remove =>
      unfold changeDisk DetachDisk
      simp only [hv, hd, ne_eq, not_true_eq_false, if_false, hc]
      exact hrec

/-- Witness of C26: with a pending pod reported before the running one the wait
succeeds; with the pending pod alone the attach fails with the timeout error. -/
theorem wait_decided_by_first_decisive_witness :
    (waitForPod sampleManager slowEnv sampleClient "agent-id" "" sampleCluster).1 = .ok true ∧
    (changeDisk .Add sampleManager timeoutEnv "context-name:agent-id" "context-name:disk-id"
      sampleCluster).1 = .error .recreateTimeout :=
  ⟨(wait_decided_by_first_decisive sampleManager slowEnv sampleClient "agent-id" ""
      sampleCluster [pendingEvent] rfl (by decide)).1
      { EventType := "MODIFIED", Object := .pod samplePod } [] samplePod rfl rfl rfl (by decide),
   ((wait_decided_by_first_decisive sampleManager timeoutEnv sampleClient "agent-id" ""
      _ [pendingEvent] rfl (by decide)).2.2.2 rfl).2
      .Add "context-name:agent-id" "context-name:disk-id" sampleCluster "context-name" "disk-id"
      _ _ _ _ _ (by decide) (by decide) rfl rfl rfl rfl rfl rfl⟩

/-! ## The pod submitted on recreate -/

theorem createdPods_append (l1 l2 : List Action) :
    createdPods (l1 ++ l2) = createdPods l1 ++ createdPods l2 := by
  unfold createdPods
  rw [List.filterMap_append]

theorem podsCreate_log (env : Env) (client : Client) (pod : Pod) (s : Cluster) :
    (podsCreate env client pod s).2.log = s.log ++ [.createPod client.Namespace pod] := by
  unfold podsCreate
  simp only
  repeat' split
  all_goals rfl

theorem configMapsGet_log (env : Env) (client : Client) (name : String) (s : Cluster) :
    (configMapsGet env client name s).2.log =
      s.log ++ [.getConfigMap client.Namespace name] := by
  unfold configMapsGet
  simp only
  repeat' split
  all_goals rfl

theorem configMapsUpdate_log (env : Env) (client : Client) (cm : ConfigMap) (s : Cluster) :
    (configMapsUpdate env client cm s).2.log =
      s.log ++ [.updateConfigMap client.Namespace cm] := by
  unfold configMapsUpdate
  simp only
  repeat' split
  all_goals rfl

/-- The settings patch submits no pod. -/
theorem updateConfigMapDisks_createdPods (env : Env) (client : Client) (op : Operation)
    (agentID diskID : String) (s : Cluster) :
    createdPods (updateConfigMapDisks env client op agentID diskID s).2.log =
      createdPods s.log := by
  unfold updateConfigMapDisks
  have hg := configMapsGet_log env client ("agent-" ++ agentID) s
  cases hgc : configMapsGet env client ("agent-" ++ agentID) s with
  | mk r s1 =>
    rw [hgc] at hg
    simp only at hg
    have h1 : createdPods s1.log = createdPods s.log := by
      rw [hg, createdPods_append]
      simp [createdPods]
    cases r with
    | error e => exact h1
    | panic p => exact h1
    | ok cm =>
      simp only [andThen]
      cases GoMap.lookup (entriesOf cm.Data) "instance_settings" with
      | none => exact h1
      | some d =>
        cases d with
        | text t => exact h1
        | settings st =>
          simp only
          have hu := configMapsUpdate_log env client
            (patchedConfigMap op client.Context diskID cm st) s1
          cases huc : configMapsUpdate env client
              (patchedConfigMap op client.Context diskID cm st) s1 with
          | mk r2 s2 =>
            rw [huc] at hu
            simp only at hu
            have h2 : createdPods s2.log = createdPods s.log := by
              rw [hu, createdPods_append, h1]
              simp [createdPods]
            cases r2 <;> exact h2

theorem probeRounds_createdPods (a : Action) (n : Nat) (s : Cluster)
    (ha : createdPods [a] = []) :
    createdPods (probeRounds a n s).log = createdPods s.log := by
  induction n generalizing s with
  | zero => rfl
  | succ n ih =>
    unfold probeRounds
    rw [ih]
    show createdPods ((s.log ++ [a]) ++ [.sleep 1000000000]) = _
    rw [createdPods_append, createdPods_append, ha]
    simp [createdPods]

/-- The readiness wait submits no pod. -/
theorem waitForPod_createdPods (vm : VolumeManager) (env : Env) (client : Client)
    (agentID rv : String) (s : Cluster) :
    createdPods (waitForPod vm env client agentID rv s).2.log = createdPods s.log := by
  unfold waitForPod
  simp only
  split
  · show createdPods (((s.log ++ [_]) ++ [_]) ++ [_]) = _
    simp [createdPods_append, createdPods]
  · show createdPods ((((s.log ++ [_]) ++ [_]) ++ [_]) ++ [_]) = _
    simp [createdPods_append, createdPods]

/-- The post-recreate probe submits no pod. -/
theorem WaitForPostPodDelay_createdPods (env : Env) (agentID : String) (client : Client)
    (s : Cluster) :
    createdPods (WaitForPostPodDelay env agentID client s).2.log = createdPods s.log := by
  unfold WaitForPostPodDelay
  have hs := podsGet_state env client ("agent-" ++ agentID) s
  cases hg : podsGet env client ("agent-" ++ agentID) s with
  | mk r s1 =>
    rw [hg] at hs
    simp only at hs
    subst hs
    have h1 : createdPods (s.record (.getPod client.Namespace ("agent-" ++ agentID))).log =
        createdPods s.log := by
      show createdPods (s.log ++ [_]) = _
      simp [createdPods_append, createdPods]
    cases r with
    | error e => exact h1
    | panic p => exact h1
    | ok pod =>
      simp only [andThen]
      have h2 : createdPods ((s.record (.getPod client.Namespace ("agent-" ++ agentID))).record
          (.getRestConfig client.Context)).log = createdPods s.log := by
        show createdPods ((s.log ++ [_]) ++ [_]) = _
        simp [createdPods_append, createdPods]
      cases env.restConfig client.Context with
      | some e => exact h2
      | none =>
        simp only
        cases pod.Spec.Containers with
        | nil => exact h2
        | cons c rest =>
          simp only
          split
          · exact h2
          · rw [probeRounds_createdPods _ _ _ (by simp [createdPods])]
            show createdPods (((s.log ++ [_]) ++ [_]) ++ [_]) = _
            simp [createdPods_append, createdPods]

/-- The one pod `recreatePod` submits, once the pod is fetched, the settings
are patched and the live pod is deleted: the value of `recreatedPod` on the
fetched pod. -/
theorem recreatePod_createdPods (vm : VolumeManager) (env : Env) (client : Client)
    (op : Operation) (agentID diskID : String) (s : Cluster) (pod : Pod) (s1 s2 s3 : Cluster)
    (hget : podsGet env client ("agent-" ++ agentID) s = (.ok pod, s1))
    (hupd : updateConfigMapDisks env client op agentID diskID s1 = (.ok (), s2))
    (hdel : podsDelete env client ("agent-" ++ agentID) (some 0) s2 = (.ok (), s3)) :
    createdPods (recreatePod vm env client op agentID diskID s).2.log =
      createdPods s.log ++ [recreatedPod op pod diskID] := by
  have h1 : createdPods s1.log = createdPods s.log := by
    have := podsGet_state env client ("agent-" ++ agentID) s
    rw [hget] at this
    simp only at this
    rw [this]
    show createdPods (s.log ++ [_]) = _
    simp [createdPods_append, createdPods]
  have h2 : createdPods s2.log = createdPods s.log := by
    have := updateConfigMapDisks_createdPods env client op agentID diskID s1
    rw [hupd] at this
    rw [this, h1]
  have h3 : createdPods s3.log = createdPods s.log := by
    have := podsDelete_log env client ("agent-" ++ agentID) (some 0) s2
    rw [hdel] at this
    simp only at this
    rw [this, createdPods_append, h2]
    simp [createdPods]
  unfold recreatePod
  rw [hget]
  simp only [andThen]
  rw [hupd]
  simp only
  rw [hdel]
  simp only
  have hc := podsCreate_log env client (recreatedPod op pod diskID) s3
  cases hcr : podsCreate env client (recreatedPod op pod diskID) s3 with
  | mk r s4 =>
    rw [hcr] at hc
    simp only at hc
    have h4 : createdPods s4.log = createdPods s.log ++ [recreatedPod op pod diskID] := by
      rw [hc, createdPods_append, h3]
      simp [createdPods]
    cases r with
    | error e => exact h4
    | panic p => exact h4
    | ok updated =>
      simp only
      have hw := waitForPod_createdPods vm env client agentID
        updated.ObjectMeta.ResourceVersion s4
      cases hwf : waitForPod vm env client agentID updated.ObjectMeta.ResourceVersion s4 with
      | mk r5 s5 =>
        rw [hwf] at hw
        simp only at hw
        cases r5 with
        | error e => exact hw.trans h4
        | panic p => exact hw.trans h4
        | ok ready =>
          simp only
          cases ready with
          | false => exact hw.trans h4
          | true =>
            simp only [Bool.not_true, Bool.false_eq_true, if_false]
            have hp := WaitForPostPodDelay_createdPods env agentID client s5
            cases hpp : WaitForPostPodDelay env agentID client s5 with
            | mk r6 s6 =>
              rw [hpp] at hp
              simp only at hp
              cases r6 <;> exact (hp.trans hw).trans h4

/-- The annotations of the pod `recreatePod` builds, key by key: the IP
annotation is kept when it is set to a non-empty value and is the pod IP
otherwise; every other key reads as before. -/
theorem recreatedPod_annotations (op : Operation) (pod : Pod) (diskID : String) :
    (∀ v, GoMap.lookup (entriesOf pod.ObjectMeta.Annotations)
        "bosh.cloudfoundry.org/ip-address" = some v → v ≠ "" →
      GoMap.lookup (entriesOf (recreatedPod op pod diskID).ObjectMeta.Annotations)
        "bosh.cloudfoundry.org/ip-address" = some v) ∧
    ((GoMap.lookup (entriesOf pod.ObjectMeta.Annotations)
        "bosh.cloudfoundry.org/ip-address" = none ∨
      GoMap.lookup (entriesOf pod.ObjectMeta.Annotations)
        "bosh.cloudfoundry.org/ip-address" = some "") →
      GoMap.lookup (entriesOf (recreatedPod op pod diskID).ObjectMeta.Annotations)
        "bosh.cloudfoundry.org/ip-address" = some pod.Status.PodIP) ∧
    (∀ k, k ≠ "bosh.cloudfoundry.org/ip-address" →
      GoMap.lookup (entriesOf (recreatedPod op pod diskID).ObjectMeta.Annotations) k =
        GoMap.lookup (entriesOf pod.ObjectMeta.Annotations) k) := by
  refine ⟨?_, ?_, ?_⟩
  · intro v hv hne
    have hd : ¬ (GoMap.lookup (entriesOf pod.ObjectMeta.Annotations)
        "bosh.cloudfoundry.org/ip-address").getD "" = "" := by
      rw [hv]
      exact hne
    unfold recreatedPod
    simp only [hd, if_false]
    exact hv
  · intro h
    have hd : (GoMap.lookup (entriesOf pod.ObjectMeta.Annotations)
        "bosh.cloudfoundry.org/ip-address").getD "" = "" := by
      rcases h with h | h <;> rw [h] <;> rfl
    unfold recreatedPod
    simp only [hd, if_true]
    exact GoMap.lookup_set_self _ _ _
  · intro k hk
    unfold recreatedPod
    simp only
    split
    · exact GoMap.lookup_set_other _ _ _ _ hk
    · rfl

/-- C23: the pod `recreatePod` submits for creation, for attach and for detach,
keeps of the metadata of the fetched pod only the name, the namespace, the
annotations and the labels: every other metadata field, such as the resource
version and the UID, is blank. Its annotations are those of the fetched pod at
every key but the IP annotation, and its status is blank. The pod is submitted
once the fetch, the settings patch and the delete of the live pod succeeded,
and it is the only pod the call submits. -/
theorem recreated_pod_identity_only (vm : VolumeManager) (env : Env) (client : Client)
    (op : Operation) (agentID diskID : String) (s : Cluster) (pod : Pod) (s1 s2 s3 : Cluster)
    (hget : podsGet env client ("agent-" ++ agentID) s = (.ok pod, s1))
    (hupd : updateConfigMapDisks env client op agentID diskID s1 = (.ok (), s2))
    (hdel : podsDelete env client ("agent-" ++ agentID) (some 0) s2 = (.ok (), s3)) :
    ∃ p, createdPods (recreatePod vm env client op agentID diskID s).2.log =
        createdPods s.log ++ [p] ∧
      p.ObjectMeta =
        { Name := pod.ObjectMeta.Name,
          Namespace := pod.ObjectMeta.Namespace,
          Annotations := p.ObjectMeta.Annotations,
          Labels := pod.ObjectMeta.Labels } ∧
      p.ObjectMeta.ResourceVersion = "" ∧
      p.ObjectMeta.UID = "" ∧
      (∀ k, k ≠ "bosh.cloudfoundry.org/ip-address" →
        GoMap.lookup (entriesOf p.ObjectMeta.Annotations) k =
          GoMap.lookup (entriesOf pod.ObjectMeta.Annotations) k) ∧
      p.Status = { Phase := "", PodIP := "", ContainerStatuses := [] } :=
  ⟨recreatedPod op pod diskID,
    recreatePod_createdPods vm env client op agentID diskID s pod s1 s2 s3 hget hupd hdel,
    rfl, rfl, rfl, (recreatedPod_annotations op pod diskID).2.2, rfl⟩

/-- Witness of C23: the detach of `disk-id` from the stored agent pod, which has
the resource version `41`, the UID `pod-uid` and a running status, submits one
pod with the same name, namespace and labels, and with a blank resource
version, UID and status. -/
theorem recreated_pod_identity_only_witness :
    ∃ p, createdPods (recreatePod sampleManager sampleEnv sampleClient .Remove "agent-id"
        "disk-id" liveCluster).2.log = [p] ∧
      p.ObjectMeta.Name = "agent-agent-id" ∧
      p.ObjectMeta.Namespace = "bosh-namespace" ∧
      p.ObjectMeta.Labels = some [("key", "value")] ∧
      p.ObjectMeta.ResourceVersion = "" ∧
      p.ObjectMeta.UID = "" ∧
      p.Status = { Phase := "", PodIP := "", ContainerStatuses := [] } :=
  Exists.imp
    (fun _ h => ⟨h.1, congrArg ObjectMeta.Name h.2.1, congrArg ObjectMeta.Namespace h.2.1,
      congrArg ObjectMeta.Labels h.2.1, h.2.2.1, h.2.2.2.1, h.2.2.2.2.2⟩)
    (recreated_pod_identity_only sampleManager sampleEnv sampleClient .Remove "agent-id"
      "disk-id" liveCluster _ _ _ _ rfl rfl rfl)

/-- C24: in the pod `recreatePod` submits, the annotation
`bosh.cloudfoundry.org/ip-address` is the value the fetched pod has for it when
that value is not empty, and the `Status.PodIP` of the fetched pod otherwise:
when the key is missing, when its value is empty, and when the annotation map
of the fetched pod is nil. Every other annotation is carried over unchanged. -/
theorem recreated_pod_ip_annotation_kept (vm : VolumeManager) (env : Env) (client : Client)
    (op : Operation) (agentID diskID : String) (s : Cluster) (pod : Pod) (s1 s2 s3 : Cluster)
    (hget : podsGet env client ("agent-" ++ agentID) s = (.ok pod, s1))
    (hupd : updateConfigMapDisks env client op agentID diskID s1 = (.ok (), s2))
    (hdel : podsDelete env client ("agent-" ++ agentID) (some 0) s2 = (.ok (), s3)) :
    ∃ p, createdPods (recreatePod vm env client op agentID diskID s).2.log =
        createdPods s.log ++ [p] ∧
      (∀ v, GoMap.lookup (entriesOf pod.ObjectMeta.Annotations)
          "bosh.cloudfoundry.org/ip-address" = some v → v ≠ "" →
        GoMap.lookup (entriesOf p.ObjectMeta.Annotations)
          "bosh.cloudfoundry.org/ip-address" = some v) ∧
      ((GoMap.lookup (entriesOf pod.ObjectMeta.Annotations)
          "bosh.cloudfoundry.org/ip-address" = none ∨
        GoMap.lookup (entriesOf pod.ObjectMeta.Annotations)
          "bosh.cloudfoundry.org/ip-address" = some "") →
        GoMap.lookup (entriesOf p.ObjectMeta.Annotations)
          "bosh.cloudfoundry.org/ip-address" = some pod.Status.PodIP) ∧
      (pod.ObjectMeta.Annotations = none →
        p.ObjectMeta.Annotations =
          some [("bosh.cloudfoundry.org/ip-address", pod.Status.PodIP)]) ∧
      (∀ k, k ≠ "bosh.cloudfoundry.org/ip-address" →
        GoMap.lookup (entriesOf p.ObjectMeta.Annotations) k =
          GoMap.lookup (entriesOf pod.ObjectMeta.Annotations) k) := by
  refine ⟨recreatedPod op pod diskID,
    recreatePod_createdPods vm env client op agentID diskID s pod s1 s2 s3 hget hupd hdel,
    (recreatedPod_annotations op pod diskID).1, (recreatedPod_annotations op pod diskID).2.1,
    ?_, (recreatedPod_annotations op pod diskID).2.2⟩
  intro hnil
  unfold recreatedPod
  simp [hnil, entriesOf, GoMap.lookup, GoMap.set]

/-- Witness of C24: the attach on the sample pod, which has no IP annotation and
the pod IP `1.2.3.4`, submits a pod annotated with `1.2.3.4`; the attach on the
pod annotated with `10.10.10.10` submits a pod that keeps `10.10.10.10`. -/
theorem recreated_pod_ip_annotation_kept_witness :
    (∃ p, createdPods (recreatePod sampleManager sampleEnv sampleClient .Add "agent-id"
        "disk-id" sampleCluster).2.log = [p] ∧
      GoMap.lookup (entriesOf p.ObjectMeta.Annotations)
        "bosh.cloudfoundry.org/ip-address" = some "1.2.3.4") ∧
    (∃ p, createdPods (recreatePod sampleManager sampleEnv sampleClient .Add "agent-id"
        "disk-id" annotatedCluster).2.log = [p] ∧
      GoMap.lookup (entriesOf p.ObjectMeta.Annotations)
        "bosh.cloudfoundry.org/ip-address" = some "10.10.10.10") :=
  ⟨Exists.imp (fun p h => ⟨h.1, h.2.2.1 (Or.inl (by decide))⟩)
    (recreated_pod_ip_annotation_kept sampleManager sampleEnv sampleClient .Add "agent-id"
      "disk-id" sampleCluster _ _ _ _ rfl rfl rfl),
   Exists.imp (fun p h => ⟨h.1, h.2.1 "10.10.10.10" (by decide) (by decide)⟩)
    (recreated_pod_ip_annotation_kept sampleManager sampleEnv sampleClient .Add "agent-id"
      "disk-id" annotatedCluster _ _ _ _ rfl rfl rfl)⟩

/-! ## The post-recreate delay -/

/-- C27, the code at the failing input: with `PostRecreateDelay` set to 5 s and
the watch reporting the recreated pod as running, `AttachDisk` and `DetachDisk`
return no error although the injected clock is never advanced: the only timer
they create on it is the readiness timer of 30 s, and they do not sleep. The
field `PostRecreateDelay` is never read: for every manager, environment and
state, the outcome and the calls are the same whatever the delay is. -/
theorem postRecreateDelay_not_awaited :
    (AttachDisk delayManager sampleEnv "context-name:agent-id" "context-name:disk-id"
      sampleCluster).1 = .ok () ∧
    clockCalls (AttachDisk delayManager sampleEnv "context-name:agent-id"
      "context-name:disk-id" sampleCluster).2.log = [.newTimer 30000000000, .stopTimer] ∧
    (DetachDisk delayManager sampleEnv "context-name:agent-id" "context-name:disk-id"
      { sampleAttached with log := [] }).1 = .ok () ∧
    clockCalls (DetachDisk delayManager sampleEnv "context-name:agent-id"
      "context-name:disk-id" { sampleAttached with log := [] }).2.log =
        [.newTimer 30000000000, .stopTimer] ∧
    (∀ (vm : VolumeManager) (d : Nat) (env : Env) (vmcid diskCID : String) (s : Cluster),
      AttachDisk { vm with PostRecreateDelay := d } env vmcid diskCID s =
        AttachDisk vm env vmcid diskCID s ∧
      DetachDisk { vm with PostRecreateDelay := d } env vmcid diskCID s =
        DetachDisk vm env vmcid diskCID s) :=
  ⟨by decide, by decide, by decide, by decide, fun _ _ _ _ _ _ => ⟨rfl, rfl⟩⟩

/-! ## The order of the deletions -/

theorem podsDelete_no_panic (env : Env) (client : Client) (name : String)
    (g : Option Int) (s : Cluster) (p : Panic) :
    (podsDelete env client name g s).1 ≠ .panic p := by
  unfold podsDelete
  simp only
  repeat' split
  all_goals (intro h; cases h)

theorem podsDelete_other_stores (env : Env) (client : Client) (name : String)
    (g : Option Int) (s : Cluster) :
    (podsDelete env client name g s).2.services = s.services ∧
    (podsDelete env client name g s).2.configMaps = s.configMaps := by
  unfold podsDelete
  simp only
  repeat' split
  all_goals exact ⟨rfl, rfl⟩

theorem configMapsDelete_no_panic (env : Env) (client : Client) (name : String)
    (g : Option Int) (s : Cluster) (p : Panic) :
    (configMapsDelete env client name g s).1 ≠ .panic p := by
  unfold configMapsDelete
  simp only
  repeat' split
  all_goals (intro h; cases h)

/-- Go `deletePod` returns no error or an error that is not a not-found status;
the state is the one the delete request leaves. -/
theorem deletePod_cases (env : Env) (client : Client) (agentID : String) (s : Cluster) :
    deletePod env client agentID s =
        (.ok (), (podsDelete env client ("agent-" ++ agentID) (some 0) s).2) ∨
    ∃ e, deletePod env client agentID s =
        (.error e, (podsDelete env client ("agent-" ++ agentID) (some 0) s).2) ∧
      (podsDelete env client ("agent-" ++ agentID) (some 0) s).1 = .error e ∧
      ∀ msg, e ≠ .status .notFound msg := by
  have hnp := podsDelete_no_panic env client ("agent-" ++ agentID) (some 0) s
  unfold deletePod
  cases hd : podsDelete env client ("agent-" ++ agentID) (some 0) s with
  | mk r s1 =>
    rw [hd] at hnp
    simp only at hnp
    cases r with
    | ok u => exact Or.inl rfl
    | panic p => exact absurd rfl (hnp p)
    | error e =>
      cases e with
      | status reason msg =>
        cases reason with
        | notFound => exact Or.inl rfl
        | alreadyExists => exact Or.inr ⟨_, rfl, rfl, fun _ h => by cases h⟩
        | conflict => exact Or.inr ⟨_, rfl, rfl, fun _ h => by cases h⟩
        | unknown => exact Or.inr ⟨_, rfl, rfl, fun _ h => by cases h⟩
      | _ => exact Or.inr ⟨_, rfl, rfl, fun _ h => by cases h⟩

/-- Go `deleteConfigMap` returns no error or an error that is not a not-found
status; the state is the one the delete request leaves. -/
theorem deleteConfigMap_cases (env : Env) (client : Client) (agentID : String)
    (s : Cluster) :
    deleteConfigMap env client agentID s =
        (.ok (), (configMapsDelete env client ("agent-" ++ agentID) (some 0) s).2) ∨
    ∃ e, deleteConfigMap env client agentID s =
        (.error e, (configMapsDelete env client ("agent-" ++ agentID) (some 0) s).2) ∧
      (configMapsDelete env client ("agent-" ++ agentID) (some 0) s).1 = .error e ∧
      ∀ msg, e ≠ .status .notFound msg := by
  have hnp := configMapsDelete_no_panic env client ("agent-" ++ agentID) (some 0) s
  unfold deleteConfigMap
  cases hd : configMapsDelete env client ("agent-" ++ agentID) (some 0) s with
  | mk r s1 =>
    rw [hd] at hnp
    simp only at hnp
    cases r with
    | ok u => exact Or.inl rfl
    | panic p => exact absurd rfl (hnp p)
    | error e =>
      cases e with
      | status reason msg =>
        cases reason with
        | notFound => exact Or.inl rfl
        | alreadyExists => exact Or.inr ⟨_, rfl, rfl, fun _ h => by cases h⟩
        | conflict => exact Or.inr ⟨_, rfl, rfl, fun _ h => by cases h⟩
        | unknown => exact Or.inr ⟨_, rfl, rfl, fun _ h => by cases h⟩
      | _ => exact Or.inr ⟨_, rfl, rfl, fun _ h => by cases h⟩

/-- A service delete logs the call and either fails without effect, with the
injected error or with a not-found status, or removes the service of that name
from the store. -/
theorem servicesDelete_cases (env : Env) (client : Client) (name : String)
    (g : Option Int) (s : Cluster) :
    (∃ e, servicesDelete env client name g s =
        (.error e, s.record (.deleteService client.Namespace name g)) ∧
      (env.fault (.deleteService client.Namespace name g) = some e ∨
        e = .status .notFound name)) ∨
    servicesDelete env client name g s =
      (.ok (), { s.record (.deleteService client.Namespace name g) with
        services := List.filter (fun c => !c.ObjectMeta.isAt client.Namespace name)
          s.services }) := by
  unfold servicesDelete
  simp only
  cases hf : env.fault (.deleteService client.Namespace name g) with
  | some e => exact Or.inl ⟨e, rfl, Or.inl rfl⟩
  | none =>
    simp only
    cases hs : (s.record (.deleteService client.Namespace name g)).findService
        client.Namespace name with
    | none => exact Or.inl ⟨_, rfl, Or.inr rfl⟩
    | some sv => exact Or.inr rfl

/-- A service list logs the call and either fails or returns the listed
services. -/
theorem servicesList_cases (env : Env) (client : Client) (sel : String) (s : Cluster) :
    (∃ e, servicesList env client sel s =
        (.error e, s.record (.listServices client.Namespace sel))) ∨
    servicesList env client sel s =
      (.ok (listedServices env client sel s), s.record (.listServices client.Namespace sel)) := by
  unfold servicesList
  simp only
  cases env.fault (.listServices client.Namespace sel) with
  | some e => exact Or.inl ⟨e, rfl⟩
  | none => exact Or.inr rfl

/-- The loop of `deleteServices`: the deletes are issued in list order and stop
at the first one that fails; the services whose names differ from those deleted
before the failure, and the config maps, are still stored. -/
theorem deleteEach_spec (env : Env) (client : Client) (items : List V1Service)
    (s : Cluster) :
    ((deleteEach env client items s).1 = .ok () ∧
      (deleteEach env client items s).2.log = s.log ++ serviceDeletes client items ∧
      (deleteEach env client items s).2.configMaps = s.configMaps) ∨
    (∃ done sv rest e, items = done ++ sv :: rest ∧
      (deleteEach env client items s).1 = .error e ∧
      (env.fault (.deleteService client.Namespace sv.ObjectMeta.Name (some 0)) = some e ∨
        e = .status .notFound sv.ObjectMeta.Name) ∧
      (deleteEach env client items s).2.log =
        s.log ++ serviceDeletes client (done ++ [sv]) ∧
      (deleteEach env client items s).2.configMaps = s.configMaps ∧
      ∀ x ∈ s.services, (∀ y ∈ done, y.ObjectMeta.Name ≠ x.ObjectMeta.Name) →
        x ∈ (deleteEach env client items s).2.services) := by
  induction items generalizing s with
  | nil => exact Or.inl ⟨rfl, by simp [deleteEach, serviceDeletes], rfl⟩
  | cons sv rest ih =>
    unfold deleteEach
    rcases servicesDelete_cases env client sv.ObjectMeta.Name (some 0) s with
      ⟨e, hd, he⟩ | hd
    · rw [hd]
      refine Or.inr ⟨[], sv, rest, e, rfl, rfl, he, ?_, rfl, ?_⟩
      · simp [andThen, serviceDeletes, Cluster.record]
      · intro x hx _
        exact hx
    · rw [hd]
      simp only [andThen]
      rcases ih { s.record (.deleteService client.Namespace sv.ObjectMeta.Name (some 0)) with
          services := List.filter
            (fun c => !c.ObjectMeta.isAt client.Namespace sv.ObjectMeta.Name) s.services } with
        ⟨h1, h2, h3⟩ | ⟨done, sv2, rest2, e, hl, h1, he, h2, h3, h4⟩
      · refine Or.inl ⟨h1, ?_, h3⟩
        rw [h2]
        simp [serviceDeletes, Cluster.record]
      · refine Or.inr ⟨sv :: done, sv2, rest2, e, by rw [hl]; rfl, h1, he, ?_, h3, ?_⟩
        · rw [h2]
          simp [serviceDeletes, Cluster.record]
        · intro x hx hne
          apply h4 x
          · apply List.mem_filter.mpr
            refine ⟨hx, ?_⟩
            have hn : sv.ObjectMeta.Name ≠ x.ObjectMeta.Name := hne sv (by simp)
            have : ¬ (x.ObjectMeta.isAt client.Namespace sv.ObjectMeta.Name = true) := by
              rw [ObjectMeta.isAt_iff]
              exact fun h => hn h.2.symm
            simpa using this
          · intro y hy
            exact hne y (by simp [hy])

/-- Go `deleteEach` on a list cut in two: the second part runs in the state the
first part leaves, and only when the first part returned no error. -/
theorem deleteEach_append (env : Env) (client : Client) (l1 l2 : List V1Service)
    (s : Cluster) :
    deleteEach env client (l1 ++ l2) s =
      andThen (deleteEach env client l1 s) fun _ t => deleteEach env client l2 t := by
  induction l1 generalizing s with
  | nil => rfl
  | cons sv rest ih =>
    simp only [List.cons_append, deleteEach]
    cases hc : servicesDelete env client sv.ObjectMeta.Name (some 0) s with
    | mk r s1 =>
      cases r with
      | ok u =>
        simp only [andThen]
        exact ih s1
      | error e => rfl
      | panic p => rfl

/-- A run of `deleteEach` that returns no error: every delete is logged in list
order, the config maps are as before, and so is every service whose name is not
among those deleted. -/
theorem deleteEach_ok (env : Env) (client : Client) (items : List V1Service)
    (s t : Cluster) (h : deleteEach env client items s = (.ok (), t)) :
    t.log = s.log ++ serviceDeletes client items ∧
    t.configMaps = s.configMaps ∧
    ∀ x ∈ s.services, (∀ y ∈ items, y.ObjectMeta.Name ≠ x.ObjectMeta.Name) →
      x ∈ t.services := by
  induction items generalizing s with
  | nil =>
    simp only [deleteEach, Prod.mk.injEq, true_and] at h
    subst h
    exact ⟨by simp [serviceDeletes], rfl, fun x hx _ => hx⟩
  | cons sv rest ih =>
    simp only [deleteEach] at h
    rcases servicesDelete_cases env client sv.ObjectMeta.Name (some 0) s with
      ⟨e, hd, _⟩ | hd
    · rw [hd] at h
      simp only [andThen, Prod.mk.injEq] at h
      exact absurd h.1 (by intro h1; cases h1)
    · rw [hd] at h
      simp only [andThen] at h
      obtain ⟨h1, h2, h3⟩ := ih _ h
      refine ⟨?_, h2, ?_⟩
      · rw [h1]
        simp [serviceDeletes, Cluster.record]
      · intro x hx hne
        apply h3 x
        · apply List.mem_filter.mpr
          refine ⟨hx, ?_⟩
          have hn : sv.ObjectMeta.Name ≠ x.ObjectMeta.Name := hne sv (by simp)
          have : ¬ (x.ObjectMeta.isAt client.Namespace sv.ObjectMeta.Name = true) := by
            rw [ObjectMeta.isAt_iff]
            exact fun h => hn h.2.symm
          simpa using this
        · intro y hy
          exact hne y (by simp [hy])

/-- Go `deletePod` returns an error of the delete request that is not a
not-found status as it is. -/
theorem deletePod_of_error (env : Env) (client : Client) (agentID : String) (s : Cluster)
    (e : Err)
    (he : (podsDelete env client ("agent-" ++ agentID) (some 0) s).1 = .error e)
    (hne : ∀ msg, e ≠ .status .notFound msg) :
    deletePod env client agentID s =
      (.error e, (podsDelete env client ("agent-" ++ agentID) (some 0) s).2) := by
  rcases deletePod_cases env client agentID s with h | ⟨e2, h, he2, _⟩
  · exfalso
    unfold deletePod at h
    cases hd : podsDelete env client ("agent-" ++ agentID) (some 0) s with
    | mk r s1 =>
      rw [hd] at h he
      simp only at he
      subst he
      cases e with
      | status reason msg =>
        cases reason with
        | notFound => exact hne msg rfl
        | alreadyExists => simp at h
        | conflict => simp at h
        | unknown => simp at h
      | _ => simp at h
  · rw [he] at he2
    cases he2
    exact h

/-- Go `deleteConfigMap` returns an error of the delete request that is not a
not-found status as it is. -/
theorem deleteConfigMap_of_error (env : Env) (client : Client) (agentID : String)
    (s : Cluster) (e : Err)
    (he : (configMapsDelete env client ("agent-" ++ agentID) (some 0) s).1 = .error e)
    (hne : ∀ msg, e ≠ .status .notFound msg) :
    deleteConfigMap env client agentID s =
      (.error e, (configMapsDelete env client ("agent-" ++ agentID) (some 0) s).2) := by
  rcases deleteConfigMap_cases env client agentID s with h | ⟨e2, h, he2, _⟩
  · exfalso
    unfold deleteConfigMap at h
    cases hd : configMapsDelete env client ("agent-" ++ agentID) (some 0) s with
    | mk r s1 =>
      rw [hd] at h he
      simp only at he
      subst he
      cases e with
      | status reason msg =>
        cases reason with
        | notFound => exact hne msg rfl
        | alreadyExists => simp at h
        | conflict => simp at h
        | unknown => simp at h
      | _ => simp at h
  · rw [he] at he2
    cases he2
    exact h

/-- The call log of `Delete`, case by case: it ends after the pod delete, after
the service list, after a service delete, or after the config-map delete. -/
theorem Delete_log_cases (env : Env) (vmcid context agentID : String) (client : Client)
    (sel : String) (s : Cluster)
    (hv : ParseVMCID vmcid = .ok (context, agentID))
    (hc : env.newClient context = .ok client)
    (hsel : env.parseSelector ("bosh.cloudfoundry.org/agent-id=" ++ agentID) = .ok sel) :
    (∃ e, (Delete env vmcid s).1 = .error e ∧ (∀ msg, e ≠ .status .notFound msg) ∧
      (Delete env vmcid s).2.log = s.log ++ [.newClient context,
        .deletePod client.Namespace ("agent-" ++ agentID) (some 0)]) ∨
    (∃ e, (Delete env vmcid s).1 = .error e ∧
      (Delete env vmcid s).2.log = s.log ++ [.newClient context,
        .deletePod client.Namespace ("agent-" ++ agentID) (some 0),
        .listServices client.Namespace sel]) ∨
    (∃ done sv rest e, listedServices env client sel s = done ++ sv :: rest ∧
      (Delete env vmcid s).1 = .error e ∧
      (env.fault (.deleteService client.Namespace sv.ObjectMeta.Name (some 0)) = some e ∨
        e = .status .notFound sv.ObjectMeta.Name) ∧
      (Delete env vmcid s).2.log = s.log ++ [.newClient context,
        .deletePod client.Namespace ("agent-" ++ agentID) (some 0),
        .listServices client.Namespace sel] ++ serviceDeletes client (done ++ [sv]) ∧
      (Delete env vmcid s).2.configMaps = s.configMaps ∧
      ∀ x ∈ s.services, (∀ y ∈ done, y.ObjectMeta.Name ≠ x.ObjectMeta.Name) →
        x ∈ (Delete env vmcid s).2.services) ∨
    (((Delete env vmcid s).1 = .ok () ∨
        ∃ e, (Delete env vmcid s).1 = .error e ∧ ∀ msg, e ≠ .status .notFound msg) ∧
      (Delete env vmcid s).2.log = s.log ++ [.newClient context,
        .deletePod client.Namespace ("agent-" ++ agentID) (some 0),
        .listServices client.Namespace sel] ++
        serviceDeletes client (listedServices env client sel s) ++
        [.deleteConfigMap client.Namespace ("agent-" ++ agentID) (some 0)]) := by
  obtain ⟨s2, hs2⟩ : ∃ s2, s2 = (podsDelete env client ("agent-" ++ agentID) (some 0)
      (s.record (.newClient context))).2 := ⟨_, rfl⟩
  have hlog2 : s2.log = s.log ++ [.newClient context,
      .deletePod client.Namespace ("agent-" ++ agentID) (some 0)] := by
    rw [hs2, podsDelete_log]
    simp [Cluster.record]
  have hsvc2 : s2.services = s.services := by
    rw [hs2]
    exact (podsDelete_other_stores _ _ _ _ _).1
  have hcm2 : s2.configMaps = s.configMaps := by
    rw [hs2]
    exact (podsDelete_other_stores _ _ _ _ _).2
  have hitems : listedServices env client sel (s2.record (.listServices client.Namespace sel)) =
      listedServices env client sel s := by
    unfold listedServices
    show List.filter _ s2.services = _
    rw [hsvc2]
  unfold Delete
  rw [hv]
  simp only [hc]
  rcases deletePod_cases env client agentID (s.record (.newClient context)) with
    hd | ⟨e, hd, _, hne⟩
  · rw [hd, ← hs2]
    simp only [andThen]
    unfold deleteServices
    simp only [hsel]
    rcases servicesList_cases env client sel s2 with ⟨e, hl⟩ | hl
    · rw [hl]
      refine Or.inr (Or.inl ⟨e, rfl, ?_⟩)
      show (s2.record _).log = _
      simp [Cluster.record, hlog2]
    · rw [hl]
      simp only [andThen]
      have hlog3 : (s2.record (.listServices client.Namespace sel)).log =
          s.log ++ [.newClient context,
            .deletePod client.Namespace ("agent-" ++ agentID) (some 0),
            .listServices client.Namespace sel] := by
        simp [Cluster.record, hlog2]
      have hspec := deleteEach_spec env client
        (listedServices env client sel s2)
        (s2.record (.listServices client.Namespace sel))
      have hitems2 : listedServices env client sel s2 = listedServices env client sel s :=
        hitems
      rw [hitems2] at hspec ⊢
      cases hde : deleteEach env client (listedServices env client sel s)
          (s2.record (.listServices client.Namespace sel)) with
      | mk r3 s3 =>
        rw [hde] at hspec
        simp only at hspec
        rcases hspec with ⟨h1, h2, h3⟩ | ⟨done, sv, rest, e, hl2, h1, he, h2, h3, h4⟩
        · subst h1
          simp only
          have hclog := configMapsDelete_log env client ("agent-" ++ agentID) (some 0) s3
          refine Or.inr (Or.inr (Or.inr ?_))
          rcases deleteConfigMap_cases env client agentID s3 with hcd | ⟨e, hcd, _, hne⟩
          · rw [hcd]
            refine ⟨Or.inl rfl, ?_⟩
            show (configMapsDelete env client ("agent-" ++ agentID) (some 0) s3).2.log = _
            rw [hclog, h2, hlog3]
          · rw [hcd]
            refine ⟨Or.inr ⟨e, rfl, hne⟩, ?_⟩
            show (configMapsDelete env client ("agent-" ++ agentID) (some 0) s3).2.log = _
            rw [hclog, h2, hlog3]
        · subst h1
          refine Or.inr (Or.inr (Or.inl ⟨done, sv, rest, e, hl2, rfl, he, ?_, ?_, ?_⟩))
          · show s3.log = _
            rw [h2, hlog3]
          · show s3.configMaps = _
            rw [h3]
            exact hcm2
          · intro x hx hne
            exact h4 x (by show x ∈ s2.services; rw [hsvc2]; exact hx) hne
  · rw [hd, ← hs2]
    exact Or.inl ⟨e, rfl, hne, hlog2⟩

/-- C29: `VMDeleter.Delete` issues its deletions in the fixed order pod, then
each listed service in list order, then config map, and the first error other
than a tolerated not-found stops the sequence and is returned.

* The pod delete comes first. When it fails with anything but a not-found
  status, `Delete` returns that error in the state right after it.
* When the pod delete succeeds or fails with not-found, the services are
  listed. When the list fails, `Delete` returns its error in the state right
  after it.
* When the list succeeds, the listed services are deleted in list order: after
  the deletes of the services before a service succeeded, the delete of that
  service is issued next. When it fails, `Delete` returns its error in the
  state right after it: the log ends with the failed delete, so no later
  service and no config map is deleted, the config maps are as before and so
  are the services whose names differ from those deleted. When it succeeds,
  the run goes on with the next service.
* When every service delete succeeded, the config-map delete is issued last;
  `Delete` returns no error when it succeeds or fails with not-found, and its
  error otherwise.

The last part lists the four shapes of the call log. -/
theorem delete_in_order (env : Env) (vmcid context agentID : String) (client : Client)
    (sel : String) (s : Cluster)
    (hv : ParseVMCID vmcid = .ok (context, agentID))
    (hc : env.newClient context = .ok client)
    (hsel : env.parseSelector ("bosh.cloudfoundry.org/agent-id=" ++ agentID) = .ok sel) :
    (afterPodDelete env client context agentID s).log = s.log ++ [.newClient context,
      .deletePod client.Namespace ("agent-" ++ agentID) (some 0)] ∧
    (∀ e, (podsDelete env client ("agent-" ++ agentID) (some 0)
        (s.record (.newClient context))).1 = .error e →
      (∀ msg, e ≠ .status .notFound msg) →
      Delete env vmcid s = (.error e, afterPodDelete env client context agentID s)) ∧
    (((podsDelete env client ("agent-" ++ agentID) (some 0)
          (s.record (.newClient context))).1 = .ok () ∨
        ∃ msg, (podsDelete env client ("agent-" ++ agentID) (some 0)
          (s.record (.newClient context))).1 = .error (.status .notFound msg)) →
      ((∃ e, (servicesList env client sel (afterPodDelete env client context agentID s)).1 =
            .error e) ∨
        (servicesList env client sel (afterPodDelete env client context agentID s)).1 =
          .ok (listedServices env client sel s)) ∧
      (∀ e, (servicesList env client sel (afterPodDelete env client context agentID s)).1 =
          .error e →
        Delete env vmcid s = (.error e, afterServiceList env client context agentID sel s)) ∧
      ((servicesList env client sel (afterPodDelete env client context agentID s)).1 =
          .ok (listedServices env client sel s) →
        deleteEach env client [] (afterServiceList env client context agentID sel s) =
          (.ok (), afterServiceList env client context agentID sel s) ∧
        (∀ done sv rest t, listedServices env client sel s = done ++ sv :: rest →
          deleteEach env client done (afterServiceList env client context agentID sel s) =
            (.ok (), t) →
          t.log = s.log ++ [.newClient context,
            .deletePod client.Namespace ("agent-" ++ agentID) (some 0),
            .listServices client.Namespace sel] ++ serviceDeletes client done ∧
          (∀ e t2, servicesDelete env client sv.ObjectMeta.Name (some 0) t = (.error e, t2) →
            Delete env vmcid s = (.error e, t2) ∧
            t2.log = s.log ++ [.newClient context,
              .deletePod client.Namespace ("agent-" ++ agentID) (some 0),
              .listServices client.Namespace sel] ++ serviceDeletes client (done ++ [sv]) ∧
            t2.configMaps = s.configMaps ∧
            ∀ x ∈ s.services, (∀ y ∈ done, y.ObjectMeta.Name ≠ x.ObjectMeta.Name) →
              x ∈ t2.services) ∧
          (∀ t2, servicesDelete env client sv.ObjectMeta.Name (some 0) t = (.ok (), t2) →
            deleteEach env client (done ++ [sv])
              (afterServiceList env client context agentID sel s) = (.ok (), t2))) ∧
        (∀ t, deleteEach env client (listedServices env client sel s)
            (afterServiceList env client context agentID sel s) = (.ok (), t) →
          (configMapsDelete env client ("agent-" ++ agentID) (some 0) t).2.log =
            s.log ++ [.newClient context,
              .deletePod client.Namespace ("agent-" ++ agentID) (some 0),
              .listServices client.Namespace sel] ++
              serviceDeletes client (listedServices env client sel s) ++
              [.deleteConfigMap client.Namespace ("agent-" ++ agentID) (some 0)] ∧
          (((configMapsDelete env client ("agent-" ++ agentID) (some 0) t).1 = .ok () ∨
              ∃ msg, (configMapsDelete env client ("agent-" ++ agentID) (some 0) t).1 =
                .error (.status .notFound msg)) →
            Delete env vmcid s =
              (.ok (), (configMapsDelete env client ("agent-" ++ agentID) (some 0) t).2)) ∧
          (∀ e, (configMapsDelete env client ("agent-" ++ agentID) (some 0) t).1 = .error e →
            (∀ msg, e ≠ .status .notFound msg) →
            Delete env vmcid s =
              (.error e,
                (configMapsDelete env client ("agent-" ++ agentID) (some 0) t).2))))) ∧
    ((∃ e, (Delete env vmcid s).1 = .error e ∧ (∀ msg, e ≠ .status .notFound msg) ∧
        (Delete env vmcid s).2.log = s.log ++ [.newClient context,
          .deletePod client.Namespace ("agent-" ++ agentID) (some 0)]) ∨
      (∃ e, (Delete env vmcid s).1 = .error e ∧
        (Delete env vmcid s).2.log = s.log ++ [.newClient context,
          .deletePod client.Namespace ("agent-" ++ agentID) (some 0),
          .listServices client.Namespace sel]) ∨
      (∃ done sv rest e, listedServices env client sel s = done ++ sv :: rest ∧
        (Delete env vmcid s).1 = .error e ∧
        (env.fault (.deleteService client.Namespace sv.ObjectMeta.Name (some 0)) = some e ∨
          e = .status .notFound sv.ObjectMeta.Name) ∧
        (Delete env vmcid s).2.log = s.log ++ [.newClient context,
          .deletePod client.Namespace ("agent-" ++ agentID) (some 0),
          .listServices client.Namespace sel] ++ serviceDeletes client (done ++ [sv]) ∧
        (Delete env vmcid s).2.configMaps = s.configMaps ∧
        ∀ x ∈ s.services, (∀ y ∈ done, y.ObjectMeta.Name ≠ x.ObjectMeta.Name) →
          x ∈ (Delete env vmcid s).2.services) ∨
      (((Delete env vmcid s).1 = .ok () ∨
          ∃ e, (Delete env vmcid s).1 = .error e ∧ ∀ msg, e ≠ .status .notFound msg) ∧
        (Delete env vmcid s).2.log = s.log ++ [.newClient context,
          .deletePod client.Namespace ("agent-" ++ agentID) (some 0),
          .listServices client.Namespace sel] ++
          serviceDeletes client (listedServices env client sel s) ++
          [.deleteConfigMap client.Namespace ("agent-" ++ agentID) (some 0)])) := by
  have hlog2 : (afterPodDelete env client context agentID s).log = s.log ++
      [.newClient context, .deletePod client.Namespace ("agent-" ++ agentID) (some 0)] := by
    unfold afterPodDelete
    rw [podsDelete_log]
    simp [Cluster.record]
  have hsvc2 : (afterPodDelete env client context agentID s).services = s.services :=
    (podsDelete_other_stores _ _ _ _ _).1
  have hcm2 : (afterPodDelete env client context agentID s).configMaps = s.configMaps :=
    (podsDelete_other_stores _ _ _ _ _).2
  have hlog3 : (afterServiceList env client context agentID sel s).log = s.log ++
      [.newClient context, .deletePod client.Namespace ("agent-" ++ agentID) (some 0),
        .listServices client.Namespace sel] := by
    show (afterPodDelete env client context agentID s).log ++ [_] = _
    rw [hlog2]
    simp
  have hitems : listedServices env client sel (afterPodDelete env client context agentID s) =
      listedServices env client sel s := by
    unfold listedServices
    rw [hsvc2]
  have hD : Delete env vmcid s =
      andThen (deletePod env client agentID (s.record (.newClient context))) fun _ a =>
      andThen (deleteServices env client agentID a) fun _ b =>
      andThen (deleteConfigMap env client agentID b) fun _ c => (.ok (), c) := by
    unfold Delete
    rw [hv]
    simp only [hc]
  have hDS : ∀ a, deleteServices env client agentID a =
      andThen (servicesList env client sel a) fun items b => deleteEach env client items b := by
    intro a
    unfold deleteServices
    simp only [hsel]
  refine ⟨hlog2, ?_, ?_, Delete_log_cases env vmcid context agentID client sel s hv hc hsel⟩
  · intro e he hne
    rw [hD, deletePod_of_error env client agentID _ e he hne]
    rfl
  · intro hpod
    have hdp := deletePod_of_tolerated env client agentID (s.record (.newClient context)) hpod
    have hlist := servicesList_cases env client sel (afterPodDelete env client context agentID s)
    rw [hitems] at hlist
    refine ⟨?_, ?_, ?_⟩
    · rcases hlist with ⟨e, hl⟩ | hl
      · exact Or.inl ⟨e, by rw [hl]⟩
      · exact Or.inr (by rw [hl])
    · intro e he
      rcases hlist with ⟨e2, hl⟩ | hl
      · rw [hl] at he
        simp only [Res.error.injEq] at he
        subst he
        rw [hD, hdp]
        simp only [andThen]
        rw [hDS]
        show andThen (andThen (servicesList env client sel
          (afterPodDelete env client context agentID s)) _) _ = _
        rw [hl]
        rfl
      · rw [hl] at he
        cases he
    · intro _
      have hl : servicesList env client sel (afterPodDelete env client context agentID s) =
          (.ok (listedServices env client sel s),
            afterServiceList env client context agentID sel s) := by
        rcases hlist with ⟨e2, hl⟩ | hl
        · rename_i hok
          rw [hl] at hok
          cases hok
        · exact hl
      have hrun : Delete env vmcid s =
          andThen (deleteEach env client (listedServices env client sel s)
            (afterServiceList env client context agentID sel s)) fun _ b =>
          andThen (deleteConfigMap env client agentID b) fun _ c => (.ok (), c) := by
        rw [hD, hdp]
        simp only [andThen]
        rw [hDS]
        show andThen (andThen (servicesList env client sel
          (afterPodDelete env client context agentID s)) _) _ = _
        rw [hl]
        rfl
      refine ⟨rfl, ?_, ?_⟩
      · intro done sv rest t hcut hdone
        obtain ⟨ht1, ht2, ht3⟩ := deleteEach_ok env client done _ t hdone
        have hlogt : t.log = s.log ++ [.newClient context,
            .deletePod client.Namespace ("agent-" ++ agentID) (some 0),
            .listServices client.Namespace sel] ++ serviceDeletes client done := by
          rw [ht1, hlog3]
        refine ⟨hlogt, ?_, ?_⟩
        · intro e t2 hsd
          have ht2eq : t2 = t.record
              (.deleteService client.Namespace sv.ObjectMeta.Name (some 0)) := by
            rcases servicesDelete_cases env client sv.ObjectMeta.Name (some 0) t with
              ⟨e3, hd3, _⟩ | hd3
            · rw [hd3] at hsd
              simp only [Prod.mk.injEq] at hsd
              exact hsd.2.symm
            · rw [hd3] at hsd
              simp only [Prod.mk.injEq] at hsd
              exact absurd hsd.1 (by intro h1; cases h1)
          refine ⟨?_, ?_, ?_, ?_⟩
          · rw [hrun, hcut, deleteEach_append, hdone]
            simp only [andThen, deleteEach, hsd]
          · rw [ht2eq]
            show t.log ++ [_] = _
            rw [hlogt]
            simp [serviceDeletes]
          · rw [ht2eq]
            show t.configMaps = _
            rw [ht2]
            exact hcm2
          · intro x hx hne
            rw [ht2eq]
            show x ∈ t.services
            exact ht3 x (by
              show x ∈ (afterPodDelete env client context agentID s).services
              rw [hsvc2]
              exact hx) hne
        · intro t2 hsd
          rw [deleteEach_append, hdone]
          simp only [andThen, deleteEach, hsd]
      · intro t ht
        obtain ⟨ht1, _, _⟩ := deleteEach_ok env client _ _ t ht
        refine ⟨?_, ?_, ?_⟩
        · rw [configMapsDelete_log, ht1, hlog3]
        · intro hcmd
          rw [hrun, ht]
          simp only [andThen]
          rw [deleteConfigMap_of_tolerated env client agentID t hcmd]
        · intro e he hne
          rw [hrun, ht]
          simp only [andThen]
          rw [deleteConfigMap_of_error env client agentID t e he hne]

/-- Witness of C29: the VM has the services `director` and `blobstore`, and the
delete of `blobstore` fails. After the pod and `director` are deleted, `Delete`
returns the error of the failed delete, the call log ends with that delete, and
the config map is still stored. -/
theorem delete_in_order_witness :
    (Delete serviceDeleteFailsEnv "bosh:agent-id" serviceCluster).1 =
      .error (.other "delete-services-welp") ∧
    (Delete serviceDeleteFailsEnv "bosh:agent-id" serviceCluster).2.log =
      [.newClient "bosh",
       .deletePod "bosh-namespace" "agent-agent-id" (some 0),
       .listServices "bosh-namespace" "bosh.cloudfoundry.org/agent-id=agent-id",
       .deleteService "bosh-namespace" "director" (some 0),
       .deleteService "bosh-namespace" "blobstore" (some 0)] ∧
    (Delete serviceDeleteFailsEnv "bosh:agent-id" serviceCluster).2.configMaps =
      serviceCluster.configMaps :=
  have h := ((((delete_in_order serviceDeleteFailsEnv "bosh:agent-id" "bosh" "agent-id"
    boshClient "bosh.cloudfoundry.org/agent-id=agent-id" serviceCluster (by decide) rfl
    rfl).2.2.1 (Or.inl (by decide))).2.2 (by decide)).2.1
    [buildService "bosh-namespace" "agent-id"
      { Name := "director", ServiceType := "NodePort",
        Ports := [
          { Name := "agent", Protocol := "TCP", Port := 6868, NodePort := 32068 },
          { Name := "director", Protocol := "TCP", Port := 25555, NodePort := 32067 }] }]
    (buildService "bosh-namespace" "agent-id"
      { Name := "blobstore", ClusterIP := "10.0.0.1",
        Ports := [{ Port := 25250, Protocol := "TCP" }] })
    [] _ (by decide) rfl).2.1 (.other "delete-services-welp") _ rfl
  ⟨congrArg Prod.fst h.1, (congrArg (fun r => r.2.log) h.1).trans (by decide),
    (congrArg (fun r => r.2.configMaps) h.1).trans h.2.2.1⟩

/-! ## The metadata patcher -/

theorem GoMap.WF_set (m : GoMap String) (k v : String) (h : GoMap.WF m) :
    GoMap.WF (GoMap.set m k v) := by
  induction m with
  | nil => simp [GoMap.set, GoMap.WF]
  | cons e rest ih =>
    obtain ⟨k1, w⟩ := e
    have hcons : k1 ∉ rest.map Prod.fst ∧ (rest.map Prod.fst).Nodup := by
      simpa [GoMap.WF] using h
    by_cases hk : k1 = k
    · subst hk
      simp only [GoMap.set, if_true]
      simpa [GoMap.WF] using hcons
    · simp only [GoMap.set, if_neg hk]
      have hrest : GoMap.WF (GoMap.set rest k v) := ih hcons.2
      have hnot : k1 ∉ GoMap.keys (GoMap.set rest k v) := by
        rw [GoMap.mem_keys_set]
        rintro (h1 | h1)
        · exact hcons.1 h1
        · exact hk h1
      show (k1 :: (GoMap.set rest k v).map Prod.fst).Nodup
      exact List.nodup_cons.mpr ⟨hnot, hrest⟩

/-- Writing the entries of a map with distinct keys one after the other: a key
of the written map reads as there, every other key as before. -/
theorem foldl_set_lookup (l : GoMap String) (acc : GoMap String) (q : String)
    (hl : GoMap.WF l) :
    GoMap.lookup (List.foldl (fun m x => GoMap.set m x.1 x.2) acc l) q =
      match GoMap.lookup l q with
      | some v => some v
      | none => GoMap.lookup acc q := by
  induction l generalizing acc with
  | nil => rfl
  | cons e rest ih =>
    obtain ⟨k, v⟩ := e
    have hcons : k ∉ rest.map Prod.fst ∧ (rest.map Prod.fst).Nodup := by
      simpa [GoMap.WF] using hl
    rw [List.foldl_cons, ih _ hcons.2]
    by_cases hk : k = q
    · subst hk
      have hnone : GoMap.lookup rest k = none :=
        (GoMap.lookup_eq_none_iff rest k).mpr hcons.1
      simp [hnone, GoMap.lookup, GoMap.lookup_set_self]
    · have hq : q ≠ k := fun h => hk h.symm
      simp only [GoMap.lookup, if_neg hk, GoMap.lookup_set_other _ _ _ _ hq]

/-- Reading a key in the entries of a map with distinct keys that satisfy a
condition. -/
theorem lookup_filter (l : GoMap String) (P : String × String → Bool) (q : String)
    (hl : GoMap.WF l) :
    GoMap.lookup (List.filter P l) q =
      match GoMap.lookup l q with
      | some v => if P (q, v) then some v else none
      | none => none := by
  induction l with
  | nil => rfl
  | cons e rest ih =>
    obtain ⟨k, v⟩ := e
    have hcons : k ∉ rest.map Prod.fst ∧ (rest.map Prod.fst).Nodup := by
      simpa [GoMap.WF] using hl
    have hnone : GoMap.lookup rest k = none :=
      (GoMap.lookup_eq_none_iff rest k).mpr hcons.1
    by_cases hP : P (k, v) = true
    · rw [List.filter_cons_of_pos hP]
      by_cases hk : k = q
      · subst hk
        simp [GoMap.lookup, hP]
      · simp only [GoMap.lookup, if_neg hk]
        exact ih hcons.2
    · rw [List.filter_cons_of_neg hP]
      by_cases hk : k = q
      · subst hk
        rw [ih hcons.2, hnone]
        simp [GoMap.lookup, hP]
      · simp only [GoMap.lookup, if_neg hk]
        exact ih hcons.2

theorem WF_filter (l : GoMap String) (P : String × String → Bool) (hl : GoMap.WF l) :
    GoMap.WF (List.filter P l) :=
  List.Nodup.sublist (List.Sublist.map Prod.fst (List.filter_sublist l)) hl

/-- Applying the two-way merge patch to the labels it was computed against
gives, key by key, the labels it was computed for. -/
theorem patch_roundtrip (m L : GoMap String) (old : ObjectMeta) (q : String)
    (hold : old.Labels = some m) (hwf : GoMap.WF L)
    (hkeys : ∀ k, GoMap.lookup m k ≠ none → GoMap.lookup L k ≠ none) :
    GoMap.lookup (entriesOf
      ((CreateTwoWayMergePatch old { old with Labels := some L }).apply (some m))) q =
      GoMap.lookup L q := by
  have happly : ∀ p : Patch, entriesOf (p.apply (some m)) =
      List.foldl (fun m x => GoMap.set m x.1 x.2) m p.Labels := by
    intro p
    unfold Patch.apply
    cases p.Labels <;> rfl
  rw [happly]
  unfold CreateTwoWayMergePatch
  simp only [hold, entriesOf]
  rw [foldl_set_lookup _ _ _ (WF_filter _ _ hwf), lookup_filter _ _ _ hwf]
  cases hL : GoMap.lookup L q with
  | none =>
    simp only
    by_contra hne
    exact hkeys q (fun h => hne h) hL
  | some v =>
    simp only
    by_cases hm : GoMap.lookup m q = some v
    · simp [hm]
    · simp [hm]

/-- The label loop on a map that is not nil: it ends without a panic, and the
map it leaves has the value of a valid pair at the prefixed key of every valid
pair and the old value at every other key. -/
theorem setLabels_spec (env : Env) (metadata m : GoMap String) :
    ∃ L, setLabels env metadata (some m) = .ok (some L) ∧
      taggedAs env metadata m L ∧
      (GoMap.WF m → GoMap.WF L) ∧
      (∀ k, GoMap.lookup m k ≠ none → GoMap.lookup L k ≠ none) := by
  induction metadata generalizing m with
  | nil =>
    exact ⟨m, rfl, ⟨fun e he => by simp at he, fun e he => by simp at he, fun _ _ => rfl⟩,
      fun h => h, fun _ h => h⟩
  | cons e rest ih =>
    obtain ⟨k, v⟩ := e
    by_cases hacc : labelAccepted env k v = true
    · obtain ⟨L, hL, ⟨h1, h2, h3⟩, hwf, hkeys⟩ := ih (GoMap.set m (labelKey env k) v)
      have hhead : ∃ pre e2 post, (k, v) :: rest = pre ++ e2 :: post ∧
          labelAccepted env e2.1 e2.2 = true ∧
          labelKey env e2.1 = labelKey env k ∧
          (∀ e3 ∈ post, labelAccepted env e3.1 e3.2 = true →
            labelKey env e3.1 ≠ labelKey env k) ∧
          GoMap.lookup L (labelKey env k) = some e2.2 := by
        by_cases hex : ∃ e3 ∈ rest, labelAccepted env e3.1 e3.2 = true ∧
            labelKey env e3.1 = labelKey env k
        · obtain ⟨e3, he3, ha3, hk3⟩ := hex
          obtain ⟨pre, e2, post, hcut, ha2, hk2, hlast, hl2⟩ := h2 e3 he3 ha3
          refine ⟨(k, v) :: pre, e2, post, by rw [hcut]; rfl, ha2, hk2.trans hk3, ?_, ?_⟩
          · intro e4 he4 ha4
            rw [← hk3]
            exact hlast e4 he4 ha4
          · rw [← hk3]
            exact hl2
        · refine ⟨[], (k, v), rest, rfl, hacc, rfl, ?_, ?_⟩
          · intro e3 he3 ha3 hk3
            exact hex ⟨e3, he3, ha3, hk3⟩
          · rw [h3 (labelKey env k) (fun e3 he3 ha3 hk3 => hex ⟨e3, he3, ha3, hk3⟩)]
            exact GoMap.lookup_set_self _ _ _
      have hsecond : ∀ e1 ∈ (k, v) :: rest, labelAccepted env e1.1 e1.2 = true →
          ∃ pre e2 post, (k, v) :: rest = pre ++ e2 :: post ∧
            labelAccepted env e2.1 e2.2 = true ∧
            labelKey env e2.1 = labelKey env e1.1 ∧
            (∀ e3 ∈ post, labelAccepted env e3.1 e3.2 = true →
              labelKey env e3.1 ≠ labelKey env e1.1) ∧
            GoMap.lookup L (labelKey env e1.1) = some e2.2 := by
        intro e1 he1 ha1
        rcases List.mem_cons.mp he1 with rfl | hr
        · exact hhead
        · obtain ⟨pre, e2, post, hcut, ha2, hk2, hlast, hl2⟩ := h2 e1 hr ha1
          exact ⟨(k, v) :: pre, e2, post, by rw [hcut]; rfl, ha2, hk2, hlast, hl2⟩
      refine ⟨L, ?_, ⟨?_, hsecond, ?_⟩, ?_, ?_⟩
      · simp only [setLabels, hacc, if_true]
        exact hL
      · intro e1 he1 ha1 hagree
        obtain ⟨pre, e2, post, hcut, ha2, hk2, _, hl2⟩ := hsecond e1 he1 ha1
        have he2 : e2 ∈ (k, v) :: rest := by
          rw [hcut]
          simp
        rw [hl2, hagree e2 he2 ha2 hk2]
      · intro q hq
        have hne : q ≠ labelKey env k := fun h =>
          hq (k, v) (List.mem_cons_self _ _) hacc h.symm
        rw [h3 q (fun e3 he3 ha3 => hq e3 (List.mem_cons_of_mem _ he3) ha3)]
        exact GoMap.lookup_set_other _ _ _ _ hne
      · intro h
        exact hwf (GoMap.WF_set m _ _ h)
      · intro q hq
        apply hkeys
        by_cases hqk : q = labelKey env k
        · rw [hqk, GoMap.lookup_set_self]
          simp
        · rw [GoMap.lookup_set_other _ _ _ _ hqk]
          exact hq
    · obtain ⟨L, hL, ⟨h1, h2, h3⟩, hwf, hkeys⟩ := ih m
      have hsecond : ∀ e1 ∈ (k, v) :: rest, labelAccepted env e1.1 e1.2 = true →
          ∃ pre e2 post, (k, v) :: rest = pre ++ e2 :: post ∧
            labelAccepted env e2.1 e2.2 = true ∧
            labelKey env e2.1 = labelKey env e1.1 ∧
            (∀ e3 ∈ post, labelAccepted env e3.1 e3.2 = true →
              labelKey env e3.1 ≠ labelKey env e1.1) ∧
            GoMap.lookup L (labelKey env e1.1) = some e2.2 := by
        intro e1 he1 ha1
        rcases List.mem_cons.mp he1 with rfl | hr
        · exact absurd ha1 hacc
        · obtain ⟨pre, e2, post, hcut, ha2, hk2, hlast, hl2⟩ := h2 e1 hr ha1
          exact ⟨(k, v) :: pre, e2, post, by rw [hcut]; rfl, ha2, hk2, hlast, hl2⟩
      refine ⟨L, ?_, ⟨?_, hsecond, ?_⟩, hwf, hkeys⟩
      · simp only [setLabels, hacc, Bool.false_eq_true, if_false]
        exact hL
      · intro e1 he1 ha1 hagree
        obtain ⟨pre, e2, post, hcut, ha2, hk2, _, hl2⟩ := hsecond e1 he1 ha1
        have he2 : e2 ∈ (k, v) :: rest := by
          rw [hcut]
          simp
        rw [hl2, hagree e2 he2 ha2 hk2]
      · intro q hq
        exact h3 q (fun e3 he3 ha3 => hq e3 (List.mem_cons_of_mem _ he3) ha3)

/-- The patch the setters compute for an object with the label map `m`: the
label loop ends without a panic, and the labels of the object after the patch
is applied are tagged as the metadata patcher promises. -/
theorem labelPatch_spec (env : Env) (metadata m : GoMap String) (old : ObjectMeta)
    (hold : old.Labels = some m) (hwf : GoMap.WF m) :
    ∃ L, setLabels env metadata old.Labels = .ok (some L) ∧
      taggedAs env metadata m (entriesOf
        ((CreateTwoWayMergePatch old { old with Labels := some L }).apply (some m))) := by
  obtain ⟨L, hL, ⟨h1, h2, h3⟩, hwfL, hkeys⟩ := setLabels_spec env metadata m
  have hrt := fun q => patch_roundtrip m L old q hold (hwfL hwf) hkeys
  refine ⟨L, by rw [hold]; exact hL, ?_, ?_, ?_⟩
  · intro e he ha hagree
    rw [hrt]
    exact h1 e he ha hagree
  · intro e he ha
    obtain ⟨pre, e2, post, hcut, ha2, hk2, hlast, hl2⟩ := h2 e he ha
    exact ⟨pre, e2, post, hcut, ha2, hk2, hlast, by rw [hrt]; exact hl2⟩
  · intro q hq
    rw [hrt]
    exact h3 q hq

theorem podsPatch_log (env : Env) (client : Client) (name : String) (patch : Patch)
    (s : Cluster) :
    (podsPatch env client name patch s).2.log =
      s.log ++ [.patchPod client.Namespace name patch] := by
  unfold podsPatch
  simp only
  repeat' split
  all_goals rfl

theorem podsPatch_result (env : Env) (client : Client) (name : String) (patch : Patch)
    (s : Cluster) (pod : Pod) (hfind : s.findPod client.Namespace name = some pod) :
    (∀ p, (podsPatch env client name patch s).1 ≠ .panic p) ∧
    (env.fault (.patchPod client.Namespace name patch) = none →
      ∃ u, (podsPatch env client name patch s).1 = .ok u) := by
  have hrec : (s.record (.patchPod client.Namespace name patch)).findPod client.Namespace name =
      some pod := hfind
  unfold podsPatch
  simp only [hrec]
  cases env.fault (.patchPod client.Namespace name patch) with
  | some e => exact ⟨fun p h => (by cases h), fun h => (by cases h)⟩
  | none => exact ⟨fun p h => (by cases h), fun _ => ⟨_, rfl⟩⟩

theorem claimsPatch_log (env : Env) (client : Client) (name : String) (patch : Patch)
    (s : Cluster) :
    (claimsPatch env client name patch s).2.log =
      s.log ++ [.patchClaim client.Namespace name patch] := by
  unfold claimsPatch
  simp only
  repeat' split
  all_goals rfl

theorem claimsPatch_result (env : Env) (client : Client) (name : String) (patch : Patch)
    (s : Cluster) (claim : PersistentVolumeClaim)
    (hfind : s.findClaim client.Namespace name = some claim) :
    (∀ p, (claimsPatch env client name patch s).1 ≠ .panic p) ∧
    (env.fault (.patchClaim client.Namespace name patch) = none →
      ∃ u, (claimsPatch env client name patch s).1 = .ok u) := by
  have hrec : (s.record (.patchClaim client.Namespace name patch)).findClaim
      client.Namespace name = some claim := hfind
  unfold claimsPatch
  simp only [hrec]
  cases env.fault (.patchClaim client.Namespace name patch) with
  | some e => exact ⟨fun p h => (by cases h), fun h => (by cases h)⟩
  | none => exact ⟨fun p h => (by cases h), fun _ => ⟨_, rfl⟩⟩

/-- A get of a claim logs the call and either fails or returns the stored
claim. -/
theorem claimsGet_cases (env : Env) (client : Client) (name : String) (s : Cluster) :
    (∃ e, claimsGet env client name s =
        (.error e, s.record (.getClaim client.Namespace name))) ∨
    (∃ claim, claimsGet env client name s =
        (.ok claim, s.record (.getClaim client.Namespace name)) ∧
      s.findClaim client.Namespace name = some claim) := by
  have hrec : (s.record (.getClaim client.Namespace name)).findClaim
      client.Namespace name = s.findClaim client.Namespace name := rfl
  unfold claimsGet
  simp only [hrec]
  cases env.fault (.getClaim client.Namespace name) with
  | some e => exact Or.inl ⟨e, rfl⟩
  | none =>
    cases hp : s.findClaim client.Namespace name with
    | none => exact Or.inl ⟨_, rfl⟩
    | some claim => exact Or.inr ⟨claim, rfl, rfl⟩

theorem Cluster.findClaim_some (s : Cluster) (ns name : String) (c : PersistentVolumeClaim)
    (h : s.findClaim ns name = some c) :
    c.ObjectMeta.Namespace = ns ∧ c.ObjectMeta.Name = name := by
  unfold Cluster.findClaim at h
  have := List.find?_some h
  exact (ObjectMeta.isAt_iff _ _ _).mp this

/-- C28, a counterexample: the metadata keys `Job` and `job` are both valid and
have the same prefixed lowercased key, so the label set cannot hold the value
of each. In the iteration order `Job`, `job` the patch sent carries the value
of `job` only; in the order `job`, `Job` it carries the value of `Job` only. -/
theorem colliding_keys_drop_a_value :
    labelAccepted metadataEnv "Job" "a" = true ∧
    labelAccepted metadataEnv "job" "b" = true ∧
    labelKey metadataEnv "Job" = labelKey metadataEnv "job" ∧
    (SetVMMetadata metadataEnv "bosh:agent-id" [("Job", "a"), ("job", "b")]
        metadataCluster).2.log =
      [.newClient "bosh", .getPod "bosh-namespace" "agent-agent-id",
       .patchPod "bosh-namespace" "agent-agent-id"
         { Labels := [("bosh.cloudfoundry.org/job", "b")] }] ∧
    (SetVMMetadata metadataEnv "bosh:agent-id" [("job", "b"), ("Job", "a")]
        metadataCluster).2.log =
      [.newClient "bosh", .getPod "bosh-namespace" "agent-agent-id",
       .patchPod "bosh-namespace" "agent-agent-id"
         { Labels := [("bosh.cloudfoundry.org/job", "a")] }] := by
  decide

/-- The patch each setter sends for the object it fetched, when the object has
a label map: one patch, no panic, and the labels after the patch is applied are
tagged as the metadata patcher promises. -/
theorem setMetadata_labels (env : Env) (metadata m : GoMap String) (hwf : GoMap.WF m) :
    (∀ vmcid context agentID client s pod,
      ParseVMCID vmcid = .ok (context, agentID) →
      env.newClient context = .ok client →
      (podsGet env client ("agent-" ++ agentID) (s.record (.newClient context))).1 = .ok pod →
      pod.ObjectMeta.Labels = some m →
      ∃ patch,
        (SetVMMetadata env vmcid metadata s).2.log = s.log ++ [.newClient context,
          .getPod client.Namespace ("agent-" ++ agentID),
          .patchPod client.Namespace pod.ObjectMeta.Name patch] ∧
        taggedAs env metadata m (entriesOf (patch.apply (some m))) ∧
        (∀ p, (SetVMMetadata env vmcid metadata s).1 ≠ .panic p) ∧
        (env.fault (.patchPod client.Namespace pod.ObjectMeta.Name patch) = none →
          (SetVMMetadata env vmcid metadata s).1 = .ok ())) ∧
    (∀ diskcid context diskID client s claim,
      ParseDiskCID diskcid = .ok (context, diskID) →
      env.newClient context = .ok client →
      (claimsGet env (client.inNamespace "bosh") ("disk-" ++ diskID)
        (s.record (.newClient context))).1 = .ok claim →
      claim.ObjectMeta.Labels = some m →
      ∃ patch,
        (SetDiskMetadata env diskcid metadata s).2.log = s.log ++ [.newClient context,
          .getClaim "bosh" ("disk-" ++ diskID),
          .patchClaim "bosh" claim.ObjectMeta.Name patch] ∧
        taggedAs env metadata m (entriesOf (patch.apply (some m))) ∧
        (∀ p, (SetDiskMetadata env diskcid metadata s).1 ≠ .panic p) ∧
        (env.fault (.patchClaim "bosh" claim.ObjectMeta.Name patch) = none →
          (SetDiskMetadata env diskcid metadata s).1 = .ok ())) := by
  constructor
  · intro vmcid context agentID client s pod hv hc hget hlab
    rcases podsGet_cases env client ("agent-" ++ agentID) (s.record (.newClient context)) with
      ⟨e, hg⟩ | ⟨pod2, hg, hfind⟩
    · rw [hg] at hget
      cases hget
    · rw [hg] at hget
      simp only [Res.ok.injEq] at hget
      subst hget
      obtain ⟨L, hL, htag⟩ := labelPatch_spec env metadata m pod2.ObjectMeta hlab hwf
      obtain ⟨_, hname⟩ := Cluster.findPod_some _ _ _ _ hfind
      have hfind2 : ((s.record (.newClient context)).record
          (.getPod client.Namespace ("agent-" ++ agentID))).findPod client.Namespace
            pod2.ObjectMeta.Name = some pod2 := by
        rw [hname]
        exact hfind
      have hplog := podsPatch_log env client pod2.ObjectMeta.Name
        (CreateTwoWayMergePatch pod2.ObjectMeta { pod2.ObjectMeta with Labels := some L })
        ((s.record (.newClient context)).record
          (.getPod client.Namespace ("agent-" ++ agentID)))
      obtain ⟨hnp, hok⟩ := podsPatch_result env client pod2.ObjectMeta.Name
        (CreateTwoWayMergePatch pod2.ObjectMeta { pod2.ObjectMeta with Labels := some L })
        ((s.record (.newClient context)).record
          (.getPod client.Namespace ("agent-" ++ agentID))) pod2 hfind2
      have hrun : SetVMMetadata env vmcid metadata s =
          andThen (podsPatch env client pod2.ObjectMeta.Name
            (CreateTwoWayMergePatch pod2.ObjectMeta { pod2.ObjectMeta with Labels := some L })
            ((s.record (.newClient context)).record
              (.getPod client.Namespace ("agent-" ++ agentID))))
            fun _ s3 => (.ok (), s3) := by
        unfold SetVMMetadata
        rw [hv]
        simp only [hc]
        rw [hg]
        simp only [andThen, hL]
      refine ⟨_, ?_, htag, ?_, ?_⟩
      · rw [hrun]
        cases hpp : podsPatch env client pod2.ObjectMeta.Name
            (CreateTwoWayMergePatch pod2.ObjectMeta { pod2.ObjectMeta with Labels := some L })
            ((s.record (.newClient context)).record
              (.getPod client.Namespace ("agent-" ++ agentID))) with
        | mk r s3 =>
          rw [hpp] at hplog
          simp only at hplog
          have : s3.log = s.log ++ [.newClient context,
              .getPod client.Namespace ("agent-" ++ agentID),
              .patchPod client.Namespace pod2.ObjectMeta.Name
                (CreateTwoWayMergePatch pod2.ObjectMeta
                  { pod2.ObjectMeta with Labels := some L })] := by
            rw [hplog]
            simp [Cluster.record]
          cases r <;> exact this
      · intro p
        rw [hrun]
        cases hpp : podsPatch env client pod2.ObjectMeta.Name
            (CreateTwoWayMergePatch pod2.ObjectMeta { pod2.ObjectMeta with Labels := some L })
            ((s.record (.newClient context)).record
              (.getPod client.Namespace ("agent-" ++ agentID))) with
        | mk r s3 =>
          rw [hpp] at hnp
          cases r with
          | ok u => intro h; cases h
          | error e => intro h; cases h
          | panic q => exact absurd rfl (hnp q)
      · intro hf
        obtain ⟨u, hu⟩ := hok hf
        rw [hrun]
        cases hpp : podsPatch env client pod2.ObjectMeta.Name
            (CreateTwoWayMergePatch pod2.ObjectMeta { pod2.ObjectMeta with Labels := some L })
            ((s.record (.newClient context)).record
              (.getPod client.Namespace ("agent-" ++ agentID))) with
        | mk r s3 =>
          rw [hpp] at hu
          simp only at hu
          subst hu
          rfl
  · intro diskcid context diskID client s claim hv hc hget hlab
    rcases claimsGet_cases env (client.inNamespace "bosh") ("disk-" ++ diskID)
        (s.record (.newClient context)) with ⟨e, hg⟩ | ⟨claim2, hg, hfind⟩
    · rw [hg] at hget
      cases hget
    · rw [hg] at hget
      simp only [Res.ok.injEq] at hget
      subst hget
      obtain ⟨L, hL, htag⟩ := labelPatch_spec env metadata m claim2.ObjectMeta hlab hwf
      obtain ⟨_, hname⟩ := Cluster.findClaim_some _ _ _ _ hfind
      have hfind2 : ((s.record (.newClient context)).record
          (.getClaim (client.inNamespace "bosh").Namespace ("disk-" ++ diskID))).findClaim
            (client.inNamespace "bosh").Namespace claim2.ObjectMeta.Name = some claim2 := by
        rw [hname]
        exact hfind
      have hplog := claimsPatch_log env (client.inNamespace "bosh") claim2.ObjectMeta.Name
        (CreateTwoWayMergePatch claim2.ObjectMeta { claim2.ObjectMeta with Labels := some L })
        ((s.record (.newClient context)).record
          (.getClaim (client.inNamespace "bosh").Namespace ("disk-" ++ diskID)))
      obtain ⟨hnp, hok⟩ := claimsPatch_result env (client.inNamespace "bosh")
        claim2.ObjectMeta.Name
        (CreateTwoWayMergePatch claim2.ObjectMeta { claim2.ObjectMeta with Labels := some L })
        ((s.record (.newClient context)).record
          (.getClaim (client.inNamespace "bosh").Namespace ("disk-" ++ diskID))) claim2 hfind2
      have hrun : SetDiskMetadata env diskcid metadata s =
          andThen (claimsPatch env (client.inNamespace "bosh") claim2.ObjectMeta.Name
            (CreateTwoWayMergePatch claim2.ObjectMeta
              { claim2.ObjectMeta with Labels := some L })
            ((s.record (.newClient context)).record
              (.getClaim (client.inNamespace "bosh").Namespace ("disk-" ++ diskID))))
            fun _ s3 => (.ok (), s3) := by
        unfold SetDiskMetadata
        rw [hv]
        simp only [hc]
        rw [hg]
        simp only [andThen, hL]
      refine ⟨_, ?_, htag, ?_, ?_⟩
      · rw [hrun]
        cases hpp : claimsPatch env (client.inNamespace "bosh") claim2.ObjectMeta.Name
            (CreateTwoWayMergePatch claim2.ObjectMeta
              { claim2.ObjectMeta with Labels := some L })
            ((s.record (.newClient context)).record
              (.getClaim (client.inNamespace "bosh").Namespace ("disk-" ++ diskID))) with
        | mk r s3 =>
          rw [hpp] at hplog
          simp only at hplog
          have : s3.log = s.log ++ [.newClient context,
              .getClaim "bosh" ("disk-" ++ diskID),
              .patchClaim "bosh" claim2.ObjectMeta.Name
                (CreateTwoWayMergePatch claim2.ObjectMeta
                  { claim2.ObjectMeta with Labels := some L })] := by
            rw [hplog]
            simp [Cluster.record, Client.inNamespace]
          cases r <;> exact this
      · intro p
        rw [hrun]
        cases hpp : claimsPatch env (client.inNamespace "bosh") claim2.ObjectMeta.Name
            (CreateTwoWayMergePatch claim2.ObjectMeta
              { claim2.ObjectMeta with Labels := some L })
            ((s.record (.newClient context)).record
              (.getClaim (client.inNamespace "bosh").Namespace ("disk-" ++ diskID))) with
        | mk r s3 =>
          rw [hpp] at hnp
          cases r with
          | ok u => intro h; cases h
          | error e => intro h; cases h
          | panic q => exact absurd rfl (hnp q)
      · intro hf
        obtain ⟨u, hu⟩ := hok hf
        rw [hrun]
        cases hpp : claimsPatch env (client.inNamespace "bosh") claim2.ObjectMeta.Name
            (CreateTwoWayMergePatch claim2.ObjectMeta
              { claim2.ObjectMeta with Labels := some L })
            ((s.record (.newClient context)).record
              (.getClaim (client.inNamespace "bosh").Namespace ("disk-" ++ diskID))) with
        | mk r s3 =>
          rw [hpp] at hu
          simp only at hu
          subst hu
          rfl

/-- The calls of `SetDiskMetadata` once the identifier decodes and the client
is constructed: the get of the claim, followed by nothing or by one patch. -/
theorem SetDiskMetadata_log (env : Env) (diskcid context diskID : String) (client : Client)
    (metadata : GoMap String) (s : Cluster)
    (hv : ParseDiskCID diskcid = .ok (context, diskID))
    (hc : env.newClient context = .ok client) :
    ∃ rest, (SetDiskMetadata env diskcid metadata s).2.log =
        s.log ++ [.newClient context, .getClaim "bosh" ("disk-" ++ diskID)] ++ rest ∧
      ∀ a ∈ rest, ∃ name patch, a = Action.patchClaim "bosh" name patch := by
  unfold SetDiskMetadata
  rw [hv]
  simp only [hc]
  rcases claimsGet_cases env (client.inNamespace "bosh") ("disk-" ++ diskID)
      (s.record (.newClient context)) with ⟨e, hg⟩ | ⟨claim, hg, _⟩
  · rw [hg]
    exact ⟨[], by simp [andThen, Cluster.record, Client.inNamespace], by simp⟩
  · rw [hg]
    simp only [andThen]
    cases hsl : setLabels env metadata claim.ObjectMeta.Labels with
    | panic p => exact ⟨[], by simp [Cluster.record, Client.inNamespace], by simp⟩
    | error e => exact ⟨[], by simp [Cluster.record, Client.inNamespace], by simp⟩
    | ok labels =>
      simp only
      have hplog := claimsPatch_log env (client.inNamespace "bosh") claim.ObjectMeta.Name
        (CreateTwoWayMergePatch claim.ObjectMeta { claim.ObjectMeta with Labels := labels })
        ((s.record (.newClient context)).record
          (.getClaim (client.inNamespace "bosh").Namespace ("disk-" ++ diskID)))
      cases hpp : claimsPatch env (client.inNamespace "bosh") claim.ObjectMeta.Name
          (CreateTwoWayMergePatch claim.ObjectMeta { claim.ObjectMeta with Labels := labels })
          ((s.record (.newClient context)).record
            (.getClaim (client.inNamespace "bosh").Namespace ("disk-" ++ diskID))) with
      | mk r s3 =>
        rw [hpp] at hplog
        simp only at hplog
        have hfin : s3.log = s.log ++
            [.newClient context, .getClaim "bosh" ("disk-" ++ diskID)] ++
            [.patchClaim "bosh" claim.ObjectMeta.Name
              (CreateTwoWayMergePatch claim.ObjectMeta
                { claim.ObjectMeta with Labels := labels })] := by
          rw [hplog]
          simp [Cluster.record, Client.inNamespace]
        have hall : ∀ a ∈ [Action.patchClaim "bosh" claim.ObjectMeta.Name
            (CreateTwoWayMergePatch claim.ObjectMeta
              { claim.ObjectMeta with Labels := labels })],
            ∃ name patch, a = Action.patchClaim "bosh" name patch := by
          intro a ha
          simp only [List.mem_singleton] at ha
          exact ⟨_, _, ha⟩
        cases r <;> exact ⟨_, hfin, hall⟩

/-- C28, amended: for every pod fetched by `SetVMMetadata`, and every claim
fetched by `SetDiskMetadata`, that has a label map, and for every metadata map,
the setter sends one patch and neither panics nor fails on account of a pair.
The labels of the object after the patch is applied are the existing labels
plus, for each pair whose prefixed lowercased key is a qualified name and whose
value is a valid label value, an entry under that key: with the value of the
pair when no other valid pair has the same prefixed key with another value, and
with the value of the valid pair of that key that is iterated last otherwise.
Every other pair is dropped, and the labels under other keys are unchanged.
The claim is the one the get of `SetDiskMetadata` returns, in the namespace in
which that get is issued, and the patch is sent in the same namespace. -/
theorem metadata_labels_sent (env : Env) (metadata m : GoMap String) (hwf : GoMap.WF m) :
    (∀ vmcid context agentID client s pod,
      ParseVMCID vmcid = .ok (context, agentID) →
      env.newClient context = .ok client →
      (podsGet env client ("agent-" ++ agentID) (s.record (.newClient context))).1 = .ok pod →
      pod.ObjectMeta.Labels = some m →
      ∃ patch,
        (SetVMMetadata env vmcid metadata s).2.log = s.log ++ [.newClient context,
          .getPod client.Namespace ("agent-" ++ agentID),
          .patchPod client.Namespace pod.ObjectMeta.Name patch] ∧
        taggedAs env metadata m (entriesOf (patch.apply (some m))) ∧
        (∀ p, (SetVMMetadata env vmcid metadata s).1 ≠ .panic p) ∧
        (env.fault (.patchPod client.Namespace pod.ObjectMeta.Name patch) = none →
          (SetVMMetadata env vmcid metadata s).1 = .ok ())) ∧
    (∀ diskcid context diskID client s ns claim,
      ParseDiskCID diskcid = .ok (context, diskID) →
      env.newClient context = .ok client →
      Action.getClaim ns ("disk-" ++ diskID) ∈
        (SetDiskMetadata env diskcid metadata s).2.log.drop s.log.length →
      (claimsGet env (client.inNamespace ns) ("disk-" ++ diskID)
        (s.record (.newClient context))).1 = .ok claim →
      claim.ObjectMeta.Labels = some m →
      ∃ patch,
        (SetDiskMetadata env diskcid metadata s).2.log = s.log ++ [.newClient context,
          .getClaim ns ("disk-" ++ diskID),
          .patchClaim ns claim.ObjectMeta.Name patch] ∧
        taggedAs env metadata m (entriesOf (patch.apply (some m))) ∧
        (∀ p, (SetDiskMetadata env diskcid metadata s).1 ≠ .panic p) ∧
        (env.fault (.patchClaim ns claim.ObjectMeta.Name patch) = none →
          (SetDiskMetadata env diskcid metadata s).1 = .ok ())) := by
  refine ⟨(setMetadata_labels env metadata m hwf).1, ?_⟩
  intro diskcid context diskID client s ns claim hv hc hmem hget hlab
  obtain ⟨rest, hlog, hrest⟩ := SetDiskMetadata_log env diskcid context diskID client metadata s
    hv hc
  have hns : ns = "bosh" := by
    rw [hlog, List.append_assoc, List.drop_left] at hmem
    simp only [List.cons_append, List.nil_append, List.mem_cons] at hmem
    rcases hmem with h | h | h
    · cases h
    · cases h
      rfl
    · obtain ⟨name, patch, hp⟩ := hrest _ h
      cases hp
  subst hns
  exact (setMetadata_labels env metadata m hwf).2 diskcid context diskID client s claim
    hv hc hget hlab

/-- Witness of the amended C28 on the metadata of the test suite: the patch for
the pod sets the label of the valid key `deployment`, leaves the label `key` as
it is, and sets nothing for the invalid key `invalid key name`; the patch for
the claim does the same. -/
theorem metadata_labels_sent_witness :
    GoMap.WF [("key", "value")] ∧
    (∃ patch,
      (SetVMMetadata metadataEnv "bosh:agent-id" sampleMetadata metadataCluster).2.log =
        [.newClient "bosh", .getPod "bosh-namespace" "agent-agent-id",
         .patchPod "bosh-namespace" "agent-agent-id" patch] ∧
      GoMap.lookup (entriesOf (patch.apply (some [("key", "value")])))
        "bosh.cloudfoundry.org/deployment" = some "kube-test-bosh" ∧
      GoMap.lookup (entriesOf (patch.apply (some [("key", "value")]))) "key" = some "value" ∧
      GoMap.lookup (entriesOf (patch.apply (some [("key", "value")])))
        "bosh.cloudfoundry.org/invalid key name" = none ∧
      (SetVMMetadata metadataEnv "bosh:agent-id" sampleMetadata metadataCluster).1 = .ok ()) ∧
    (∃ patch,
      (SetDiskMetadata metadataEnv "bosh:disk-id" sampleMetadata metadataCluster).2.log =
        [.newClient "bosh", .getClaim metadataClaim.ObjectMeta.Namespace "disk-disk-id",
         .patchClaim metadataClaim.ObjectMeta.Namespace "disk-disk-id" patch] ∧
      GoMap.lookup (entriesOf (patch.apply (some [("key", "value")])))
        "bosh.cloudfoundry.org/deployment" = some "kube-test-bosh" ∧
      GoMap.lookup (entriesOf (patch.apply (some [("key", "value")]))) "key" = some "value") :=
  ⟨by decide,
   Exists.imp
    (fun _ h => ⟨h.1,
      h.2.1.1 ("deployment", "kube-test-bosh") (by decide) (by decide) (by decide),
      h.2.1.2.2 "key" (by decide),
      h.2.1.2.2 "bosh.cloudfoundry.org/invalid key name" (by decide),
      h.2.2.2 rfl⟩)
    ((metadata_labels_sent metadataEnv sampleMetadata [("key", "value")] (by decide)).1
      "bosh:agent-id" "bosh" "agent-id" boshClient metadataCluster metadataPod
      (by decide) rfl rfl rfl),
   Exists.imp
    (fun _ h => ⟨h.1,
      h.2.1.1 ("deployment", "kube-test-bosh") (by decide) (by decide) (by decide),
      h.2.1.2.2 "key" (by decide)⟩)
    ((metadata_labels_sent metadataEnv sampleMetadata [("key", "value")] (by decide)).2
      "bosh:disk-id" "bosh" "disk-id" boshClient metadataCluster
      metadataClaim.ObjectMeta.Namespace metadataClaim
      (by decide) rfl (by decide) rfl rfl)⟩

/-! ## The namespace of the disk metadata -/

/-- C30, the code at the failing input: with a client configured for the
namespace `bosh-namespace`, `CreateDisk` creates the claim `disk-disk-guid` in
`bosh-namespace`, where `HasDisk` finds it and `DeleteDisk` deletes it, while
`SetDiskMetadata` for the same disk reads the claim in the namespace `bosh`,
does not find it and returns the not-found error without sending a patch. -/
theorem setDiskMetadata_reads_namespace_bosh :
    createdDisk.1 = .ok "bosh:disk-guid" ∧
    metadataEnv.newClient "bosh" = .ok { Context := "bosh", Namespace := "bosh-namespace" } ∧
    createdDisk.2.claims.map (fun c => (c.ObjectMeta.Namespace, c.ObjectMeta.Name)) =
      [("bosh-namespace", "disk-disk-guid")] ∧
    (HasDisk metadataEnv "bosh:disk-guid" createdDisk.2).1 = .ok true ∧
    (DeleteDisk metadataEnv "bosh:disk-guid" createdDisk.2).1 = .ok () ∧
    (DeleteDisk metadataEnv "bosh:disk-guid" { createdDisk.2 with log := [] }).2.log =
      [.newClient "bosh", .deleteClaim "bosh-namespace" "disk-disk-guid" (some 0)] ∧
    (SetDiskMetadata metadataEnv "bosh:disk-guid" sampleMetadata createdDisk.2).1 =
      .error (.status .notFound "disk-disk-guid") ∧
    (SetDiskMetadata metadataEnv "bosh:disk-guid" sampleMetadata
        { createdDisk.2 with log := [] }).2.log =
      [.newClient "bosh", .getClaim "bosh" "disk-disk-guid"] :=
  ⟨by decide, rfl, by decide, by decide, by decide, by decide, by decide, by decide⟩

end KubernetesCPI
